import Mathlib

/-!
# Bookstore command interpreter

A shallow embedding of `src/main.cpp`: a line-oriented interpreter that keeps
accounts, books, a transaction ledger and a stack of logins.

Conventions of the embedding.

* `std::string` and the fixed `char[N]` fields are `String`; a `Char` stands for
  one byte.  Every `strcpy` in the source copies a string that was validated
  beforehand (no NUL byte, length below the array size), so a copy is an
  assignment of the whole string.
* `std::map<string, V>` is a list of pairs kept in ascending key order
  (`SMap`).  `operator[]` inserts a value-initialised entry when the key is
  missing; that side effect is part of the model (`getCurrentPrivilege`,
  `cmdModify`, `cmdImport`).
* `int` fields are `Int`; the two places that do arithmetic on a stored `int`
  (`book.quantity += / -=`) wrap to 32 bits.
* `double` is a type parameter `D` with the operations of `DoubleOps`; nothing
  is assumed about rounding.
* The login stack is a list with the top frame first: `push_back` is `cons`,
  `back()` is the head, `pop_back` is the tail.
* An uncaught C++ exception (only `std::stod` can throw one here) is the
  outcome `crash`.
* The `save*` functions write files that the running program never reads back
  (files are read once, at start-up), so they are not part of the state.  The
  global `operationLog` is never read or written by any handler.
-/

namespace Bookstore

/-! ## The `double` operations used by the program -/

/-- The operations on C++ `double` values that the program performs.  They are
kept abstract: theorems hold for every interpretation, in particular for
IEEE-754 binary64 arithmetic. -/
structure DoubleOps (D : Type) where
  /-- The literal `0.0`. -/
  zero : D
  /-- Addition, `a + b` and `a += b`. -/
  add : D → D → D
  /-- Subtraction, `a - b`. -/
  sub : D → D → D
  /-- Multiplication, `a * b`. -/
  mul : D → D → D
  /-- Conversion of an `int` operand to `double`. -/
  ofInt : Int → D
  /-- The test `a <= 0`. -/
  leZero : D → Bool
  /-- The value `std::stod` returns for a string it can convert. -/
  stodVal : String → D
  /-- Output under `fixed << setprecision(2)`. -/
  fixed2 : D → String

/-! ## Records -/

/-- Mirror of `struct Account`. -/
structure Account where
  userID : String
  password : String
  username : String
  privilege : Int
deriving DecidableEq, Repr

/-- Mirror of `struct Book`. -/
structure Book (D : Type) where
  ISBN : String
  bookName : String
  author : String
  keyword : String
  price : D
  quantity : Int
deriving DecidableEq, Repr

/-- Mirror of `struct Transaction`. -/
structure Transaction (D : Type) where
  amount : D
  isIncome : Bool
deriving DecidableEq, Repr

/-- Mirror of `struct LoginSession`. -/
structure LoginSession where
  userID : String
  selectedISBN : String
deriving DecidableEq, Repr

/-- The value-initialised `Account()`. -/
def Account.blank : Account :=
  { userID := "", password := "", username := "", privilege := 0 }

/-- The value-initialised `Book()`. -/
def Book.blank {D : Type} (F : DoubleOps D) : Book D :=
  { ISBN := "", bookName := "", author := "", keyword := "", price := F.zero, quantity := 0 }

/-! ## Strings -/

/-- Byte-wise lexicographic "less than" on character lists: the order of
`strcmp(a, b) < 0` and of `std::less<std::string>`. -/
def bytesLt : List Char → List Char → Bool
  | [], [] => false
  | [], _ :: _ => true
  | _ :: _, [] => false
  | a :: as, b :: bs =>
    if a.toNat < b.toNat then true
    else if b.toNat < a.toNat then false
    else bytesLt as bs

/-- Order on strings: `a < b` for `std::string`, `strcmp(a, b) < 0` for C strings. -/
def strLt (a b : String) : Bool := bytesLt a.data b.data

/-- The call `s.substr(pos)`. -/
def substrFrom (s : String) (pos : Nat) : String := ⟨s.data.drop pos⟩

/-- The call `s.substr(pos, len)`. -/
def substr (s : String) (pos len : Nat) : String := ⟨(s.data.drop pos).take len⟩

/-- The test `s.substr(0, p.length()) == p`. -/
def hasPrefix (s p : String) : Bool := decide (s.data.take p.data.length = p.data)

/-- Inner loop of `split`: `cur` is the token read so far. -/
def splitAux (delimiter : Char) : List Char → List Char → List String
  | [], cur => if cur.isEmpty then [] else [⟨cur⟩]
  | c :: cs, cur =>
    if c = delimiter then ⟨cur⟩ :: splitAux delimiter cs []
    else splitAux delimiter cs (cur ++ [c])

/-- The function `split`: repeated `getline(stream, token, delimiter)`.  A read
that extracts nothing at end of input fails, so a trailing delimiter yields no
final empty token. -/
def split (s : String) (delimiter : Char) : List String := splitAux delimiter s.data []

/-- Decimal value of a string of digits: `stoll` / `stoi` on such a string. -/
def stoll (s : String) : Nat := s.data.foldl (fun acc c => 10 * acc + (c.toNat - 48)) 0

/-- The function `std::stod` on a string made of digits and at most one dot (the
only strings it is called on): it converts when at least one digit is present
and throws `std::invalid_argument` otherwise. -/
def stod {D : Type} (F : DoubleOps D) (s : String) : Option D :=
  if s.data.any Char.isDigit then some (F.stodVal s) else none

/-- Two's-complement wrap of an integer to the range of a 32-bit `int`. -/
def wrapInt32 (x : Int) : Int := (x + 2147483648) % 4294967296 - 2147483648

/-! ## Validation library -/

/-- The function `isValidUserID`. -/
def isValidUserID (s : String) : Bool :=
  if s.data.isEmpty ∨ s.data.length > 30 then false
  else s.data.all (fun c => c.isAlphanum || c = '_')

/-- The function `isValidPassword`. -/
def isValidPassword (s : String) : Bool := isValidUserID s

/-- The function `isValidUsername`. -/
def isValidUsername (s : String) : Bool :=
  if s.data.isEmpty ∨ s.data.length > 30 then false
  else s.data.all (fun c => !(decide (c.toNat < 32) || decide (c.toNat > 126)))

/-- The function `isValidISBN`. -/
def isValidISBN (s : String) : Bool :=
  if s.data.isEmpty ∨ s.data.length > 20 then false
  else s.data.all (fun c => !(decide (c.toNat < 33) || decide (c.toNat > 126)))

/-- The function `isValidBookName`. -/
def isValidBookName (s : String) : Bool :=
  if s.data.isEmpty ∨ s.data.length > 60 then false
  else s.data.all (fun c => !(decide (c.toNat < 32) || decide (c.toNat > 126) || c = '"'))

/-- The function `isValidKeyword`. -/
def isValidKeyword (s : String) : Bool :=
  if s.data.isEmpty ∨ s.data.length > 60 then false
  else if ¬ s.data.all (fun c => !(decide (c.toNat < 32) || decide (c.toNat > 126) || c = '"')) then false
  else
    let keywords := split s '|'
    if keywords.length ≠ keywords.dedup.length then false
    else keywords.all (fun kw => !kw.data.isEmpty)

/-- Loop of `isValidPrice`: `dotCount` dots have been seen so far. -/
def priceChars : List Char → Nat → Bool
  | [], _ => true
  | c :: cs, dotCount =>
    if c = '.' then
      if dotCount + 1 > 1 then false else priceChars cs (dotCount + 1)
    else if ¬ c.isDigit then false
    else priceChars cs dotCount

/-- The function `isValidPrice`. -/
def isValidPrice (s : String) : Bool :=
  if s.data.isEmpty ∨ s.data.length > 13 then false
  else priceChars s.data 0

/-- The function `isValidQuantity`. -/
def isValidQuantity (s : String) : Bool :=
  if s.data.isEmpty ∨ s.data.length > 10 then false
  else if ¬ s.data.all Char.isDigit then false
  else decide (stoll s > 0 ∧ stoll s ≤ 2147483647)

/-! ## Ordered maps -/

/-- A `std::map<string, V>`: key/value pairs in ascending key order. -/
abbrev SMap (V : Type) := List (String × V)

namespace SMap

/-- The lookup `m.find(k)`: `none` stands for `m.end()`. -/
def find {V : Type} : SMap V → String → Option V
  | [], _ => none
  | (k', v) :: m, k => if k' = k then some v else find m k

/-- The assignment `m[k] = v`: overwrite the entry of `k`, or insert one at its
place in key order. -/
def insert {V : Type} : SMap V → String → V → SMap V
  | [], k, v => [(k, v)]
  | (k', v') :: m, k, v =>
    if strLt k' k then (k', v') :: insert m k v
    else if k' = k then (k, v) :: m
    else (k, v) :: (k', v') :: m

/-- The call `m.erase(k)`. -/
def erase {V : Type} (m : SMap V) (k : String) : SMap V :=
  m.filter (fun e => decide (e.1 ≠ k))

/-- The read `m[k]`: the entry of `k`, after inserting the value-initialised
`dflt` when `k` is missing.  Returns the entry and the map afterwards. -/
def findOrInsert {V : Type} (m : SMap V) (k : String) (dflt : V) : V × SMap V :=
  match find m k with
  | some v => (v, m)
  | none => (dflt, insert m k dflt)

/-- The values in key order: what `for (const auto& pair : m)` visits. -/
def values {V : Type} (m : SMap V) : List V := m.map Prod.snd

end SMap

/-! ## Program state -/

/-- The global variables `accounts`, `books`, `transactions`, `loginStack`. -/
structure State (D : Type) where
  accounts : SMap Account
  books : SMap (Book D)
  transactions : List (Transaction D)
  /-- The login stack, top frame first. -/
  loginStack : List LoginSession
deriving DecidableEq

/-- What handling one input line leads to. -/
inductive Outcome (D : Type) where
  /-- The handler returned: new state and the text written to standard output. -/
  | ok (s : State D) (out : String)
  /-- The main loop was left (`quit` / `exit`). -/
  | quit
  /-- An exception escaped the handler and terminated the process. -/
  | crash
deriving DecidableEq

/-- The rejection: `cout << "Invalid\n"; return;`. -/
def invalid {D : Type} (s : State D) : Outcome D := .ok s "Invalid\n"

/-- The function `getCurrentPrivilege`, together with the state it leaves:
`accounts[...]` inserts a blank account when the top frame's user is missing. -/
def getCurrentPrivilege {D : Type} (s : State D) : Int × State D :=
  match s.loginStack with
  | [] => (0, s)
  | top :: _ =>
    match s.accounts.find top.userID with
    | some acc => (acc.privilege, s)
    | none => (0, { s with accounts := s.accounts.insert top.userID Account.blank })

/-- The effective privilege: the value `getCurrentPrivilege` returns. -/
def curPriv {D : Type} (s : State D) : Int := (getCurrentPrivilege s).1

/-- The function `initialize` on a first run (no data files): only `root`. -/
def initState (D : Type) : State D :=
  { accounts := SMap.insert [] "root"
      { userID := "root", password := "sjtu", username := "root", privilege := 7 },
    books := [], transactions := [], loginStack := [] }

/-! ## Account commands -/

/-- The handler `cmdSu`. -/
def cmdSu {D : Type} (s : State D) (params : List String) : Outcome D :=
  if params.length < 1 ∨ params.length > 2 then invalid s else
  let userID := params.getD 0 ""
  let password := if params.length = 2 then params.getD 1 "" else ""
  if ¬ isValidUserID userID ∨ (params.length = 2 ∧ ¬ isValidPassword password) then invalid s else
  match s.accounts.find userID with
  | none => invalid s
  | some acc =>
    let r := getCurrentPrivilege s
    if r.1 ≤ acc.privilege ∧ (params.length ≠ 2 ∨ password ≠ acc.password) then invalid r.2
    else .ok { r.2 with loginStack := { userID := userID, selectedISBN := "" } :: r.2.loginStack } ""

/-- The handler `cmdLogout`. -/
def cmdLogout {D : Type} (s : State D) : Outcome D :=
  let r := getCurrentPrivilege s
  if r.1 < 1 then invalid r.2
  else .ok { r.2 with loginStack := r.2.loginStack.tail } ""

/-- The handler `cmdRegister`. -/
def cmdRegister {D : Type} (s : State D) (params : List String) : Outcome D :=
  if params.length ≠ 3 then invalid s else
  let userID := params.getD 0 ""
  let password := params.getD 1 ""
  let username := params.getD 2 ""
  if ¬ isValidUserID userID ∨ ¬ isValidPassword password ∨ ¬ isValidUsername username then
    invalid s
  else if (s.accounts.find userID).isSome then invalid s
  else
    let acc : Account :=
      { userID := userID, password := password, username := username, privilege := 1 }
    .ok { s with accounts := s.accounts.insert userID acc } ""

/-- The handler `cmdPasswd`. -/
def cmdPasswd {D : Type} (s : State D) (params : List String) : Outcome D :=
  let r := getCurrentPrivilege s
  if r.1 < 1 then invalid r.2 else
  if params.length < 2 ∨ params.length > 3 then invalid r.2 else
  let userID := params.getD 0 ""
  let currentPassword := if params.length = 3 then params.getD 1 "" else ""
  let newPassword := if params.length = 3 then params.getD 2 "" else params.getD 1 ""
  if ¬ isValidUserID userID ∨ ¬ isValidPassword newPassword then invalid r.2 else
  if params.length = 3 ∧ ¬ isValidPassword currentPassword then invalid r.2 else
  match r.2.accounts.find userID with
  | none => invalid r.2
  | some acc =>
    let r2 := getCurrentPrivilege r.2
    if r2.1 ≠ 7 ∧ (params.length ≠ 3 ∨ currentPassword ≠ acc.password) then invalid r2.2
    else
      .ok { r2.2 with accounts := r2.2.accounts.insert userID { acc with password := newPassword } } ""

/-- The handler `cmdUseradd`. -/
def cmdUseradd {D : Type} (s : State D) (params : List String) : Outcome D :=
  let r := getCurrentPrivilege s
  if r.1 < 3 then invalid r.2 else
  if params.length ≠ 4 then invalid r.2 else
  let userID := params.getD 0 ""
  let password := params.getD 1 ""
  let privilegeStr := params.getD 2 ""
  let username := params.getD 3 ""
  if ¬ isValidUserID userID ∨ ¬ isValidPassword password ∨ ¬ isValidUsername username then
    invalid r.2
  else
  match privilegeStr.data with
  | [c] =>
    if ¬ c.isDigit then invalid r.2 else
    let privilege : Int := (c.toNat : Int) - 48
    if privilege ≠ 1 ∧ privilege ≠ 3 ∧ privilege ≠ 7 then invalid r.2 else
    let r2 := getCurrentPrivilege r.2
    if privilege ≥ r2.1 then invalid r2.2 else
    if (r2.2.accounts.find userID).isSome then invalid r2.2 else
    let acc : Account :=
      { userID := userID, password := password, username := username, privilege := privilege }
    .ok { r2.2 with accounts := r2.2.accounts.insert userID acc } ""
  | _ => invalid r.2

/-- The handler `cmdDelete`. -/
def cmdDelete {D : Type} (s : State D) (params : List String) : Outcome D :=
  let r := getCurrentPrivilege s
  if r.1 < 7 then invalid r.2 else
  if params.length ≠ 1 then invalid r.2 else
  let userID := params.getD 0 ""
  if ¬ isValidUserID userID then invalid r.2 else
  if (r.2.accounts.find userID).isNone then invalid r.2 else
  if r.2.loginStack.any (fun session => decide (session.userID = userID)) then invalid r.2 else
  .ok { r.2 with accounts := r.2.accounts.erase userID } ""

/-! ## Book commands -/

/-- The shared pattern of the quoted options `-name="…"`, `-author="…"`,
`-keyword="…"`, whose prefix has `n` characters: reject unless
`param.length() >= n + 3`, `param[n] == '"'` and `param.back() == '"'`; the
value is `param.substr(n + 1, param.length() - (n + 2))`. -/
def quotedArg (param : String) (n : Nat) : Option String :=
  if param.data.length < n + 3 ∨ param.data.get? n ≠ some '"' ∨ param.data.getLast? ≠ some '"' then
    none
  else some (substr param (n + 1) (param.data.length - (n + 2)))

/-- The comparison of `Book::operator<` turned around: `a` may precede `b`
when `b < a` is false. -/
def isbnLe {D : Type} (a b : Book D) : Prop := strLt b.ISBN a.ISBN = false

instance {D : Type} : DecidableRel (isbnLe (D := D)) := fun a b =>
  inferInstanceAs (Decidable (strLt b.ISBN a.ISBN = false))

/-- The call `sort(results.begin(), results.end())`: ascending by `ISBN` under
`strcmp`.  (`std::sort` leaves the order of books with equal ISBN fields
unspecified; this model keeps them in their original order.) -/
def sortBooks {D : Type} (results : List (Book D)) : List (Book D) :=
  results.insertionSort isbnLe

/-- One output line of `show`. -/
def bookLine {D : Type} (F : DoubleOps D) (book : Book D) : String :=
  book.ISBN ++ "\t" ++ book.bookName ++ "\t" ++ book.author ++ "\t" ++ book.keyword ++ "\t"
    ++ F.fixed2 book.price ++ "\t" ++ toString book.quantity ++ "\n"

/-- First part of `cmdShow`: the vector `results` collected for the given
parameters, `none` when the parameters are rejected. -/
def showMatches {D : Type} (s : State D) (params : List String) : Option (List (Book D)) :=
  match params with
  | [] => some s.books.values
  | [param] =>
    if hasPrefix param "-ISBN=" then
      let isbn := substrFrom param 6
      if isbn.data.isEmpty ∨ ¬ isValidISBN isbn then none
      else
        match s.books.find isbn with
        | some book => some [book]
        | none => some []
    else if hasPrefix param "-name=" then
      match quotedArg param 6 with
      | none => none
      | some name =>
        if name.data.isEmpty ∨ ¬ isValidBookName name then none
        else some (s.books.values.filter (fun book => decide (book.bookName = name)))
    else if hasPrefix param "-author=" then
      match quotedArg param 8 with
      | none => none
      | some author =>
        if author.data.isEmpty ∨ ¬ isValidBookName author then none
        else some (s.books.values.filter (fun book => decide (book.author = author)))
    else if hasPrefix param "-keyword=" then
      match quotedArg param 9 with
      | none => none
      | some keyword =>
        if keyword.data.isEmpty then none
        else if '|' ∈ keyword.data then none
        else some (s.books.values.filter (fun book =>
          (split book.keyword '|').any (fun kw => decide (kw = keyword))))
    else none
  | _ => none

/-- Second part of `cmdShow`: sort the results and print them, a single
newline when there are none. -/
def showResults {D : Type} (F : DoubleOps D) (s : State D) (results : List (Book D)) :
    Outcome D :=
  let sorted := sortBooks results
  if sorted.isEmpty then .ok s "\n"
  else .ok s (String.join (sorted.map (bookLine F)))

/-- The handler `cmdShow`. -/
def cmdShow {D : Type} (F : DoubleOps D) (s : State D) (params : List String) : Outcome D :=
  let r := getCurrentPrivilege s
  if r.1 < 1 then invalid r.2 else
  match showMatches r.2 params with
  | none => invalid r.2
  | some results => showResults F r.2 results

/-- The handler `cmdBuy`. -/
def cmdBuy {D : Type} (F : DoubleOps D) (s : State D) (params : List String) : Outcome D :=
  let r := getCurrentPrivilege s
  if r.1 < 1 then invalid r.2 else
  if params.length ≠ 2 then invalid r.2 else
  let isbn := params.getD 0 ""
  let quantityStr := params.getD 1 ""
  if ¬ isValidISBN isbn ∨ ¬ isValidQuantity quantityStr then invalid r.2 else
  let quantity : Int := (stoll quantityStr : Int)
  match r.2.books.find isbn with
  | none => invalid r.2
  | some book =>
    if book.quantity < quantity then invalid r.2 else
    let totalCost := F.mul book.price (F.ofInt quantity)
    let book' : Book D := { book with quantity := wrapInt32 (book.quantity - quantity) }
    let trans : Transaction D := { amount := totalCost, isIncome := true }
    .ok { r.2 with books := r.2.books.insert isbn book',
                   transactions := r.2.transactions ++ [trans] }
        (F.fixed2 totalCost ++ "\n")

/-- The statement `loginStack.back().selectedISBN = isbn`. -/
def setSelection (stack : List LoginSession) (isbn : String) : List LoginSession :=
  match stack with
  | [] => []
  | top :: rest => { top with selectedISBN := isbn } :: rest

/-- The handler `cmdSelect`. -/
def cmdSelect {D : Type} (F : DoubleOps D) (s : State D) (params : List String) : Outcome D :=
  let r := getCurrentPrivilege s
  if r.1 < 3 then invalid r.2 else
  if params.length ≠ 1 then invalid r.2 else
  let isbn := params.getD 0 ""
  if ¬ isValidISBN isbn then invalid r.2 else
  let books :=
    if (r.2.books.find isbn).isNone then
      r.2.books.insert isbn { Book.blank F with ISBN := isbn }
    else r.2.books
  .ok { r.2 with books := books, loginStack := setSelection r.2.loginStack isbn } ""

/-- The local variables of the loop of `cmdModify`: the working copy `book`,
the set `usedParams` and `newISBN`. -/
structure ModifyAcc (D : Type) where
  book : Book D
  usedParams : List String
  newISBN : String

/-- What one round of the loop of `cmdModify` leads to. -/
inductive ParamStep (D : Type) where
  /-- The parameter was accepted; the loop goes on. -/
  | next (a : ModifyAcc D)
  /-- The handler printed `Invalid` and returned. -/
  | reject
  /-- The call `stod(priceStr)` threw. -/
  | crash

/-- One round of the loop `for (const auto& param : params)` of `cmdModify`.
`books` is the collection as the loop sees it. -/
def modifyParam {D : Type} (F : DoubleOps D) (books : SMap (Book D)) (selectedISBN : String)
    (a : ModifyAcc D) (param : String) : ParamStep D :=
  if hasPrefix param "-ISBN=" then
    if "-ISBN" ∈ a.usedParams then .reject else
    let newISBN := substrFrom param 6
    if newISBN.data.isEmpty ∨ ¬ isValidISBN newISBN then .reject else
    if newISBN = selectedISBN then .reject else
    if (books.find newISBN).isSome then .reject else
    .next { a with usedParams := "-ISBN" :: a.usedParams, newISBN := newISBN }
  else if hasPrefix param "-name=" then
    if "-name" ∈ a.usedParams then .reject else
    match quotedArg param 6 with
    | none => .reject
    | some name =>
      if name.data.isEmpty ∨ ¬ isValidBookName name then .reject else
      .next { a with usedParams := "-name" :: a.usedParams,
                     book := { a.book with bookName := name } }
  else if hasPrefix param "-author=" then
    if "-author" ∈ a.usedParams then .reject else
    match quotedArg param 8 with
    | none => .reject
    | some author =>
      if author.data.isEmpty ∨ ¬ isValidBookName author then .reject else
      .next { a with usedParams := "-author" :: a.usedParams,
                     book := { a.book with author := author } }
  else if hasPrefix param "-keyword=" then
    if "-keyword" ∈ a.usedParams then .reject else
    match quotedArg param 9 with
    | none => .reject
    | some keyword =>
      if keyword.data.isEmpty ∨ ¬ isValidKeyword keyword then .reject else
      .next { a with usedParams := "-keyword" :: a.usedParams,
                     book := { a.book with keyword := keyword } }
  else if hasPrefix param "-price=" then
    if "-price" ∈ a.usedParams then .reject else
    let priceStr := substrFrom param 7
    if ¬ isValidPrice priceStr then .reject else
    match stod F priceStr with
    | none => .crash
    | some price =>
      .next { a with usedParams := "-price" :: a.usedParams,
                     book := { a.book with price := price } }
  else .reject

/-- The loop `for (const auto& param : params)` of `cmdModify`. -/
def modifyLoop {D : Type} (F : DoubleOps D) (books : SMap (Book D)) (selectedISBN : String) :
    ModifyAcc D → List String → ParamStep D
  | a, [] => .next a
  | a, param :: rest =>
    match modifyParam F books selectedISBN a param with
    | .next a' => modifyLoop F books selectedISBN a' rest
    | .reject => .reject
    | .crash => .crash

/-- The handler `cmdModify`.  The copy `Book book = books[selectedISBN]` goes
through `operator[]`, so it inserts a blank book when the selected key is
missing, before any parameter is looked at. -/
def cmdModify {D : Type} (F : DoubleOps D) (s : State D) (params : List String) : Outcome D :=
  let r := getCurrentPrivilege s
  if r.1 < 3 then invalid r.2 else
  match r.2.loginStack with
  | [] => invalid r.2
  | top :: rest =>
    if top.selectedISBN.data.isEmpty then invalid r.2 else
    if params.isEmpty then invalid r.2 else
    let selectedISBN := top.selectedISBN
    let copy := SMap.findOrInsert r.2.books selectedISBN (Book.blank F)
    let s1 : State D := { r.2 with books := copy.2 }
    match modifyLoop F copy.2 selectedISBN
        { book := copy.1, usedParams := [], newISBN := "" } params with
    | .reject => invalid s1
    | .crash => .crash
    | .next a =>
      if ¬ a.newISBN.data.isEmpty then
        let book' : Book D := { a.book with ISBN := a.newISBN }
        .ok { s1 with books := (copy.2.erase selectedISBN).insert a.newISBN book',
                      loginStack := { top with selectedISBN := a.newISBN } :: rest } ""
      else
        .ok { s1 with books := copy.2.insert selectedISBN a.book } ""

/-- The handler `cmdImport`. -/
def cmdImport {D : Type} (F : DoubleOps D) (s : State D) (params : List String) : Outcome D :=
  let r := getCurrentPrivilege s
  if r.1 < 3 then invalid r.2 else
  match r.2.loginStack with
  | [] => invalid r.2
  | top :: _ =>
    if top.selectedISBN.data.isEmpty then invalid r.2 else
    if params.length ≠ 2 then invalid r.2 else
    let quantityStr := params.getD 0 ""
    let totalCostStr := params.getD 1 ""
    if ¬ isValidQuantity quantityStr ∨ ¬ isValidPrice totalCostStr then invalid r.2 else
    let quantity : Int := (stoll quantityStr : Int)
    match stod F totalCostStr with
    | none => .crash
    | some totalCost =>
      if F.leZero totalCost then invalid r.2 else
      let selectedISBN := top.selectedISBN
      let ref := SMap.findOrInsert r.2.books selectedISBN (Book.blank F)
      let book' : Book D := { ref.1 with quantity := wrapInt32 (ref.1.quantity + quantity) }
      let trans : Transaction D := { amount := totalCost, isIncome := false }
      .ok { r.2 with books := ref.2.insert selectedISBN book',
                     transactions := r.2.transactions ++ [trans] } ""

/-! ## Finance and report commands -/

/-- The accumulation loop of `cmdShowFinance` and `cmdReportFinance` over the
given entries, in order: the pair `(income, expenditure)`. -/
def financeTotals {D : Type} (F : DoubleOps D) (entries : List (Transaction D)) : D × D :=
  entries.foldl
    (fun acc trans =>
      if trans.isIncome then (F.add acc.1 trans.amount, acc.2)
      else (acc.1, F.add acc.2 trans.amount))
    (F.zero, F.zero)

/-- The tail of `cmdShowFinance`: sum the entries with index `start =
transactions.size() - count` and above, and print both totals. -/
def financeSummary {D : Type} (F : DoubleOps D) (s : State D) (count : Nat) : Outcome D :=
  let start := s.transactions.length - count
  let totals := financeTotals F (s.transactions.drop start)
  .ok s ("+ " ++ F.fixed2 totals.1 ++ " - " ++ F.fixed2 totals.2 ++ "\n")

/-- The handler `cmdShowFinance`.  The conversions `(int)transactions.size()`
are taken as exact: the ledger is an in-memory vector of 16-byte entries and
holds fewer than 2^31 of them. -/
def cmdShowFinance {D : Type} (F : DoubleOps D) (s : State D) (params : List String) :
    Outcome D :=
  let r := getCurrentPrivilege s
  if r.1 < 7 then invalid r.2 else
  if params.length > 1 then invalid r.2 else
  match params with
  | [countStr] =>
    if countStr.data.isEmpty ∨ countStr.data.length > 10 then invalid r.2 else
    if ¬ countStr.data.all Char.isDigit then invalid r.2 else
    let countLL := stoll countStr
    if countLL > 2147483647 then invalid r.2 else
    if countLL = 0 then .ok r.2 "\n" else
    if countLL > r.2.transactions.length then invalid r.2 else
    financeSummary F r.2 countLL
  | _ => financeSummary F r.2 r.2.transactions.length

/-- The handler `cmdLog`. -/
def cmdLog {D : Type} (s : State D) : Outcome D :=
  let r := getCurrentPrivilege s
  if r.1 < 7 then invalid r.2 else
  .ok r.2 ("=== System Log ===\n" ++ "Total transactions: "
    ++ toString r.2.transactions.length ++ "\n")

/-- The handler `cmdReportFinance`. -/
def cmdReportFinance {D : Type} (F : DoubleOps D) (s : State D) : Outcome D :=
  let r := getCurrentPrivilege s
  if r.1 < 7 then invalid r.2 else
  let totals := financeTotals F r.2.transactions
  .ok r.2 ("=== Financial Report ===\n"
    ++ "Total Income: " ++ F.fixed2 totals.1 ++ "\n"
    ++ "Total Expenditure: " ++ F.fixed2 totals.2 ++ "\n"
    ++ "Net Profit: " ++ F.fixed2 (F.sub totals.1 totals.2) ++ "\n")

/-- The handler `cmdReportEmployee`. -/
def cmdReportEmployee {D : Type} (s : State D) : Outcome D :=
  let r := getCurrentPrivilege s
  if r.1 < 7 then invalid r.2 else
  .ok r.2 ("=== Employee Work Report ===\n" ++ "Total employees: "
    ++ toString r.2.accounts.length ++ "\n")

/-! ## The main loop -/

/-- The characters removed by `trim`. -/
def isTrimChar (c : Char) : Bool := c = ' ' || c = '\t' || c = '\r' || c = '\n'

/-- The function `trim`. -/
def trim (line : List Char) : List Char :=
  ((line.dropWhile isTrimChar).reverse.dropWhile isTrimChar).reverse

/-- The tokenising loop of `main`: `current` is the token being built and
`inQuotes` the quote flag. -/
def tokenizeAux : List Char → List Char → Bool → List String
  | [], current, _ => if current.isEmpty then [] else [⟨current⟩]
  | c :: cs, current, inQuotes =>
    if c = '"' then tokenizeAux cs (current ++ [c]) (!inQuotes)
    else if c = ' ' ∧ inQuotes = false then
      if current.isEmpty then tokenizeAux cs [] inQuotes
      else ⟨current⟩ :: tokenizeAux cs [] inQuotes
    else tokenizeAux cs (current ++ [c]) inQuotes

/-- The vector `parts` that `main` builds from a trimmed line. -/
def tokenize (line : List Char) : List String := tokenizeAux line [] false

/-- The dispatch chain of `main` on the command word and its parameters. -/
def dispatch {D : Type} (F : DoubleOps D) (s : State D) (cmd : String) (params : List String) :
    Outcome D :=
  if cmd = "quit" ∨ cmd = "exit" then .quit
  else if cmd = "su" then cmdSu s params
  else if cmd = "logout" then cmdLogout s
  else if cmd = "register" then cmdRegister s params
  else if cmd = "passwd" then cmdPasswd s params
  else if cmd = "useradd" then cmdUseradd s params
  else if cmd = "delete" then cmdDelete s params
  else if cmd = "show" then
    if params.head? = some "finance" then cmdShowFinance F s params.tail
    else cmdShow F s params
  else if cmd = "buy" then cmdBuy F s params
  else if cmd = "select" then cmdSelect F s params
  else if cmd = "modify" then cmdModify F s params
  else if cmd = "import" then cmdImport F s params
  else if cmd = "log" then cmdLog s
  else if cmd = "report" then
    match params with
    | [p] =>
      if p = "finance" then cmdReportFinance F s
      else if p = "employee" then cmdReportEmployee s
      else invalid s
    | _ => invalid s
  else invalid s

/-- One round of the loop of `main` on an input line. -/
def execLine {D : Type} (F : DoubleOps D) (s : State D) (line : String) : Outcome D :=
  let trimmed := trim line.data
  if trimmed.isEmpty then .ok s ""
  else
    match tokenize trimmed with
    | [] => .ok s ""
    | cmd :: params => dispatch F s cmd params

/-- The main loop on a list of input lines, from state `s` with `out` already
printed: the outcome of the last line handled, with the whole output. -/
def runLines {D : Type} (F : DoubleOps D) : State D → String → List String → Outcome D
  | s, out, [] => .ok s out
  | s, out, line :: rest =>
    match execLine F s line with
    | .ok s' o => runLines F s' (out ++ o) rest
    | .quit => .quit
    | .crash => .crash

/-- The states the program can be in, within one run started on no data files,
after some sequence of input lines: the fresh initial state, and every state
in which a handled line leaves a reachable state.  No state follows a `quit`
or a crash. -/
inductive Reachable {D : Type} (F : DoubleOps D) : State D → Prop where
  | init : Reachable F (initState D)
  | step {s s' : State D} {line out : String} :
      Reachable F s → execLine F s line = .ok s' out → Reachable F s'

/-! ## An exact interpretation of `double`, for running examples -/

/-- A decimal number `mant / 10 ^ scale`. -/
structure Decimal where
  mant : Int
  scale : Nat
deriving DecidableEq, Repr

/-- Sum of two decimals, on the larger of the two scales. -/
def Decimal.add (a b : Decimal) : Decimal :=
  let scale := max a.scale b.scale
  { mant := a.mant * 10 ^ (scale - a.scale) + b.mant * 10 ^ (scale - b.scale), scale := scale }

/-- Difference of two decimals, on the larger of the two scales. -/
def Decimal.sub (a b : Decimal) : Decimal :=
  let scale := max a.scale b.scale
  { mant := a.mant * 10 ^ (scale - a.scale) - b.mant * 10 ^ (scale - b.scale), scale := scale }

/-- Product of two decimals. -/
def Decimal.mul (a b : Decimal) : Decimal :=
  { mant := a.mant * b.mant, scale := a.scale + b.scale }

/-- Value of a decimal numeral (digits with at most one dot). -/
def Decimal.ofString (s : String) : Decimal :=
  let intPart := s.data.takeWhile (fun c => c ≠ '.')
  let fracPart := (s.data.dropWhile (fun c => c ≠ '.')).drop 1
  { mant := (stoll ⟨intPart ++ fracPart⟩ : Int), scale := fracPart.length }

/-- Rendering of a decimal with two fraction digits, rounded half up. -/
def Decimal.fixed2 (a : Decimal) : String :=
  let cents : Int := (2 * 100 * a.mant + 10 ^ a.scale) / (2 * 10 ^ a.scale)
  let n := cents.natAbs
  (if cents < 0 then "-" else "") ++ toString (n / 100) ++ "."
    ++ toString (n % 100 / 10) ++ toString (n % 10)

/-- Decimal arithmetic without rounding: the interpretation of `double` used to
run the program on concrete inputs. -/
def exactOps : DoubleOps Decimal :=
  { zero := { mant := 0, scale := 0 },
    add := Decimal.add, sub := Decimal.sub, mul := Decimal.mul,
    ofInt := fun n => { mant := n, scale := 0 },
    leZero := fun a => decide (a.mant ≤ 0),
    stodVal := Decimal.ofString,
    fixed2 := Decimal.fixed2 }

/-! ## Invariants of reachable states -/

/-- Every user on the login stack has an account. -/
def StackOK {D : Type} (s : State D) : Prop :=
  ∀ fr ∈ s.loginStack, (s.accounts.find fr.userID).isSome = true

/-- Every account is stored under a valid user identifier and holds a valid
password. -/
def CredsOK {D : Type} (s : State D) : Prop :=
  ∀ k acc, s.accounts.find k = some acc →
    isValidUserID k = true ∧ isValidPassword acc.password = true

/-- The invariant used for the account commands. -/
def Inv {D : Type} (s : State D) : Prop := StackOK s ∧ CredsOK s

/-! ## Vocabulary of the statements -/

/-- The state after a successful `su userID`: a new top frame for `userID`
with an empty selection. -/
def pushLogin {D : Type} (s : State D) (userID : String) : State D :=
  { s with loginStack := { userID := userID, selectedISBN := "" } :: s.loginStack }

/-- The state with the account `acc` stored under its `userID`. -/
def addAccount {D : Type} (s : State D) (acc : Account) : State D :=
  { s with accounts := s.accounts.insert acc.userID acc }

/-- The state after a successful `passwd` on the account `acc` stored under
`userID`: only the password of that account is replaced. -/
def setPassword {D : Type} (s : State D) (userID : String) (acc : Account)
    (newPassword : String) : State D :=
  { s with accounts := s.accounts.insert userID { acc with password := newPassword } }

/-- Sum of the amounts of the income entries of a ledger segment, accumulated
in ledger order from `0.0`. -/
def incomeSum {D : Type} (F : DoubleOps D) (entries : List (Transaction D)) : D :=
  ((entries.filter (fun t => t.isIncome)).map (·.amount)).foldl F.add F.zero

/-- Sum of the amounts of the expenditure entries of a ledger segment,
accumulated in ledger order from `0.0`. -/
def expenditureSum {D : Type} (F : DoubleOps D) (entries : List (Transaction D)) : D :=
  ((entries.filter (fun t => !t.isIncome)).map (·.amount)).foldl F.add F.zero

/-- The line `show finance` prints for a ledger segment. -/
def financeLine {D : Type} (F : DoubleOps D) (entries : List (Transaction D)) : String :=
  "+ " ++ F.fixed2 (incomeSum F entries) ++ " - " ++ F.fixed2 (expenditureSum F entries) ++ "\n"

/-- One field assignment of a `modify` command, with the value it supplies. -/
inductive Assign where
  | isbn (v : String)
  | name (v : String)
  | author (v : String)
  | keyword (v : String)
  | price (v : String)
deriving DecidableEq, Repr

/-- The parameter text of an assignment, as `main` hands it to `cmdModify`. -/
def Assign.render : Assign → String
  | .isbn v => "-ISBN=" ++ v
  | .name v => "-name=\"" ++ v ++ "\""
  | .author v => "-author=\"" ++ v ++ "\""
  | .keyword v => "-keyword=\"" ++ v ++ "\""
  | .price v => "-price=" ++ v

/-- The flag of an assignment. -/
def Assign.flag : Assign → String
  | .isbn _ => "-ISBN"
  | .name _ => "-name"
  | .author _ => "-author"
  | .keyword _ => "-keyword"
  | .price _ => "-price"

/-- The value an assignment list supplies for a flag, if any. -/
def supplied (flag : String) : List Assign → Option String
  | [] => none
  | .isbn v :: rest => if flag = "-ISBN" then some v else supplied flag rest
  | .name v :: rest => if flag = "-name" then some v else supplied flag rest
  | .author v :: rest => if flag = "-author" then some v else supplied flag rest
  | .keyword v :: rest => if flag = "-keyword" then some v else supplied flag rest
  | .price v :: rest => if flag = "-price" then some v else supplied flag rest

/-- Validity of one assignment when `selectedISBN` is selected: the value
passes the field's validator; a new ISBN differs from the selected one and is
not the key of a book; a price contains a digit (it denotes a number). -/
def Assign.valid {D : Type} (books : SMap (Book D)) (selectedISBN : String) : Assign → Prop
  | .isbn v => isValidISBN v = true ∧ v ≠ selectedISBN ∧ (books.find v).isNone = true
  | .name v => isValidBookName v = true
  | .author v => isValidBookName v = true
  | .keyword v => isValidKeyword v = true
  | .price v => isValidPrice v = true ∧ v.data.any Char.isDigit = true

/-- Validity of an assignment can be computed. -/
instance {D : Type} (books : SMap (Book D)) (selectedISBN : String) (x : Assign) :
    Decidable (x.valid books selectedISBN) :=
  match x with
  | .isbn v =>
    inferInstanceAs
      (Decidable (isValidISBN v = true ∧ v ≠ selectedISBN ∧ (books.find v).isNone = true))
  | .name v => inferInstanceAs (Decidable (isValidBookName v = true))
  | .author v => inferInstanceAs (Decidable (isValidBookName v = true))
  | .keyword v => inferInstanceAs (Decidable (isValidKeyword v = true))
  | .price v =>
    inferInstanceAs (Decidable (isValidPrice v = true ∧ v.data.any Char.isDigit = true))

/-- The effect of one accepted assignment on the loop variables of `cmdModify`. -/
def Assign.step {D : Type} (F : DoubleOps D) (a : ModifyAcc D) : Assign → ModifyAcc D
  | .isbn v => { a with usedParams := "-ISBN" :: a.usedParams, newISBN := v }
  | .name v => { a with usedParams := "-name" :: a.usedParams, book := { a.book with bookName := v } }
  | .author v => { a with usedParams := "-author" :: a.usedParams, book := { a.book with author := v } }
  | .keyword v => { a with usedParams := "-keyword" :: a.usedParams, book := { a.book with keyword := v } }
  | .price v => { a with usedParams := "-price" :: a.usedParams, book := { a.book with price := F.stodVal v } }

/-- The book that `modify` with the assignments `as` makes of the book `b0`:
each supplied field holds the supplied value, every other field and the
quantity are those of `b0`. -/
def modifiedBook {D : Type} (F : DoubleOps D) (b0 : Book D) (as : List Assign) : Book D :=
  { ISBN := (supplied "-ISBN" as).getD b0.ISBN,
    bookName := (supplied "-name" as).getD b0.bookName,
    author := (supplied "-author" as).getD b0.author,
    keyword := (supplied "-keyword" as).getD b0.keyword,
    price := ((supplied "-price" as).map F.stodVal).getD b0.price,
    quantity := b0.quantity }

/-- The command word of an input line: the first token, if the line has one. -/
def commandWord (line : String) : Option String := (tokenize (trim line.data)).head?

/-- The ways one command may change the login stack (top frame first): not at
all; by pushing a frame with an empty selection; by popping the top frame; by
replacing the selection of the top frame. -/
def StackStep (stack stack' : List LoginSession) : Prop :=
  stack' = stack ∨
  (∃ userID, stack' = { userID := userID, selectedISBN := "" } :: stack) ∨
  stack' = stack.tail ∨
  (∃ top rest isbn, stack = top :: rest ∧ stack' = { top with selectedISBN := isbn } :: rest)

/-- The ways one command may change the accounts of state `s`: not at all; by
adding an account under a new key (privilege 1 for `register`; 1, 3 or 7 and
below the effective privilege for `useradd`); by replacing the password of an
existing account; by erasing the account of a user who is in no frame of the
login stack, at effective privilege 7. -/
def AccountsStep {D : Type} (s : State D) (accounts' : SMap Account) : Prop :=
  accounts' = s.accounts ∨
  (∃ (u : String) (acc : Account), s.accounts.find u = none ∧ acc.userID = u ∧
    (acc.privilege = 1 ∨
      ((acc.privilege = 3 ∨ acc.privilege = 7) ∧ acc.privilege < curPriv s)) ∧
    accounts' = s.accounts.insert u acc) ∨
  (∃ (u : String) (acc : Account) (pw : String), s.accounts.find u = some acc ∧
    accounts' = s.accounts.insert u { acc with password := pw }) ∨
  (∃ u : String, (∀ fr ∈ s.loginStack, fr.userID ≠ u) ∧ 7 ≤ curPriv s ∧
    accounts' = s.accounts.erase u)

/-- Every account has privilege 1, 3 or 7. -/
def PrivOK {D : Type} (s : State D) : Prop :=
  ∀ k acc, s.accounts.find k = some acc →
    acc.privilege = 1 ∨ acc.privilege = 3 ∨ acc.privilege = 7

/-- The sub-tokens of a keyword string in the words of the specification: the
pieces between consecutive pipe characters, so that `n` pipes give `n + 1`
pieces (a leading, a trailing and two adjacent pipes each give an empty one). -/
def subTokens : List Char → List (List Char)
  | [] => [[]]
  | c :: cs =>
    if c = '|' then [] :: subTokens cs
    else
      match subTokens cs with
      | [] => [[c]]
      | t :: ts => (c :: t) :: ts

/-- The privilege table of the specification: the minimum effective privilege
of each privileged command (`show finance` is the command word `show` with
first argument `finance`); `none` for every other command word. -/
def minPrivilege (cmd : String) (params : List String) : Option Int :=
  if cmd = "logout" then some 1
  else if cmd = "passwd" then some 1
  else if cmd = "useradd" then some 3
  else if cmd = "delete" then some 7
  else if cmd = "show" then (if params.head? = some "finance" then some 7 else some 1)
  else if cmd = "buy" then some 1
  else if cmd = "select" then some 3
  else if cmd = "modify" then some 3
  else if cmd = "import" then some 3
  else if cmd = "report" then some 7
  else if cmd = "log" then some 7
  else none

/-- The range of a 32-bit `int`. -/
def IntRange (x : Int) : Prop := -2147483648 ≤ x ∧ x ≤ 2147483647

/-- A price that the program can store: the `0.0` of a value-initialised book,
or the `std::stod` value of a text that passes `isValidPrice` and has a digit. -/
def PriceOK {D : Type} (F : DoubleOps D) (p : D) : Prop :=
  p = F.zero ∨
  ∃ v : String, isValidPrice v = true ∧ v.data.any Char.isDigit = true ∧ p = F.stodVal v

/-- A well-formed entry of the books collection: the key is a valid ISBN, the
quantity is an `int`, the price is one the program can store. -/
def BookOK {D : Type} (F : DoubleOps D) (k : String) (b : Book D) : Prop :=
  isValidISBN k = true ∧ IntRange b.quantity ∧ PriceOK F b.price

/-- Every entry of a books collection is well formed. -/
def MapOK {D : Type} (F : DoubleOps D) (m : SMap (Book D)) : Prop :=
  ∀ k b, m.find k = some b → BookOK F k b

/-- Every selection on the login stack is empty or a valid ISBN. -/
def SelOK (stack : List LoginSession) : Prop :=
  ∀ fr ∈ stack, fr.selectedISBN.data.isEmpty = true ∨ isValidISBN fr.selectedISBN = true

/-- The invariant used for the book commands. -/
def BooksOK {D : Type} (F : DoubleOps D) (s : State D) : Prop :=
  MapOK F s.books ∧ SelOK s.loginStack

/-- What one round of the loop of `cmdModify` keeps. -/
def AccOK {D : Type} (F : DoubleOps D) (q : Int) (a : ModifyAcc D) : Prop :=
  a.book.quantity = q ∧ PriceOK F a.book.price ∧
  (a.newISBN.data.isEmpty = true ∨ isValidISBN a.newISBN = true)

/-- The number of characters after the first decimal point of a text. -/
def fractionDigits (v : String) : Nat := ((v.data.dropWhile (· ≠ '.')).tail).length

/-- The account `root` exists with privilege 7 and every account stored under
another key has privilege 1 or 3. -/
def RootOK {D : Type} (s : State D) : Prop :=
  (∃ acc, s.accounts.find "root" = some acc ∧ acc.privilege = 7) ∧
  ∀ k acc, s.accounts.find k = some acc → k ≠ "root" →
    acc.privilege = 1 ∨ acc.privilege = 3

/-! ## Sample states -/

/-- The fresh initial state after `su root sjtu`. -/
def rootSession : State Decimal := pushLogin (initState Decimal) "root"

/-- The state after `su root sjtu`, `register bob pw Bob`. -/
def rootAndBob : State Decimal :=
  { rootSession with
    accounts := rootSession.accounts.insert "bob"
      { userID := "bob", password := "pw", username := "Bob", privilege := 1 } }

/-- The state after `su root sjtu`, `register bob pw Bob`, `su bob pw`. -/
def bobSession : State Decimal := pushLogin rootAndBob "bob"

/-- The state after `su root sjtu` and `select A`. -/
def selectedA : State Decimal :=
  { rootSession with
    books := [("A", { Book.blank exactOps with ISBN := "A" })],
    loginStack := [{ userID := "root", selectedISBN := "A" }] }

/-- The state after `su root sjtu`, `select B`, `select A`. -/
def twoBooks : State Decimal :=
  { rootSession with
    books := [("A", { Book.blank exactOps with ISBN := "A" }),
              ("B", { Book.blank exactOps with ISBN := "B" })],
    loginStack := [{ userID := "root", selectedISBN := "A" }] }

/-- The state after `su root sjtu`, `select A`, `import 10 100.00`,
`modify -price=12.50`, `buy A 3`. -/
def sampleLedger : State Decimal :=
  { accounts := (initState Decimal).accounts,
    books := [("A", { Book.blank exactOps with
                      ISBN := "A", price := { mant := 1250, scale := 2 }, quantity := 7 })],
    transactions := [{ amount := { mant := 10000, scale := 2 }, isIncome := false },
                     { amount := { mant := 3750, scale := 2 }, isIncome := true }],
    loginStack := [{ userID := "root", selectedISBN := "A" }] }

/-- The state after `su root sjtu`, `select A`, `su root sjtu`, `select A`,
`modify -ISBN=B`, `logout`: the remaining frame still selects `A`, which was
renamed to `B` by the frame above it. -/
def staleSelection : State Decimal :=
  { accounts := (initState Decimal).accounts,
    books := [("B", { Book.blank exactOps with ISBN := "B" })],
    transactions := [],
    loginStack := [{ userID := "root", selectedISBN := "A" }] }

/-- The state `staleSelection` after the rejected `modify -foo`: a blank book
has appeared under the key `A`. -/
def staleAfterModify : State Decimal :=
  { staleSelection with
    books := [("A", Book.blank exactOps), ("B", { Book.blank exactOps with ISBN := "B" })] }

/-- The state after `su root sjtu`, `select X` and two `import 2147483647 1`. -/
def overflowed : State Decimal :=
  { accounts := (initState Decimal).accounts,
    books := [("X", { Book.blank exactOps with ISBN := "X", quantity := -2 })],
    transactions := [{ amount := { mant := 1, scale := 0 }, isIncome := false },
                     { amount := { mant := 1, scale := 0 }, isIncome := false }],
    loginStack := [{ userID := "root", selectedISBN := "X" }] }

/-- The fresh initial state after `register alice pass1 Alice`. -/
def aliceRegistered : State Decimal :=
  { initState Decimal with
    accounts := (initState Decimal).accounts.insert "alice"
      { userID := "alice", password := "pass1", username := "Alice", privilege := 1 } }

/-- The state after `su root sjtu`, `select X`, `import 2147483647 1`. -/
def fullStock : State Decimal :=
  { accounts := (initState Decimal).accounts,
    books := [("X", { Book.blank exactOps with ISBN := "X", quantity := 2147483647 })],
    transactions := [{ amount := { mant := 1, scale := 0 }, isIncome := false }],
    loginStack := [{ userID := "root", selectedISBN := "X" }] }

/-- The state at the end of the scenario `register alice pass1 Alice`,
`su root sjtu`, `select 978-0`, `import 10 100.00`, `buy 978-0 3`. -/
def scenarioEnd {D : Type} (F : DoubleOps D) : State D :=
  { accounts := (initState D).accounts.insert "alice"
      { userID := "alice", password := "pass1", username := "Alice", privilege := 1 },
    books := [("978-0", { Book.blank F with ISBN := "978-0", quantity := 7 })],
    transactions := [{ amount := F.stodVal "100.00", isIncome := false },
                     { amount := F.mul F.zero (F.ofInt 3), isIncome := true }],
    loginStack := [{ userID := "root", selectedISBN := "978-0" }] }

/-- The state after `su root sjtu`, `select A`, `modify -price=1.234`. -/
def pricedA : State Decimal :=
  { selectedA with
    books := [("A", { Book.blank exactOps with ISBN := "A", price := { mant := 1234, scale := 3 } })] }

/-- The state `staleSelection` after `import 3 1`: a book has been created
under the key `A`, with an empty ISBN field. -/
def staleImported : State Decimal :=
  { staleSelection with
    books := [("A", { Book.blank exactOps with quantity := 3 }),
              ("B", { Book.blank exactOps with ISBN := "B" })],
    transactions := [{ amount := { mant := 1, scale := 0 }, isIncome := false }] }

/-- The state after `su root sjtu`, `select A`, `su root sjtu`, `select X`,
`su root sjtu`, `select A`, `modify -ISBN=B`, `select X`, `modify -ISBN=Y`,
`logout`, `import 1 1`, `logout`, `import 1 1`. -/
def twoStale : State Decimal :=
  { accounts := (initState Decimal).accounts,
    books := [("A", { Book.blank exactOps with quantity := 1 }),
              ("B", { Book.blank exactOps with ISBN := "B" }),
              ("X", { Book.blank exactOps with quantity := 1 }),
              ("Y", { Book.blank exactOps with ISBN := "Y" })],
    transactions := [{ amount := { mant := 1, scale := 0 }, isIncome := false },
                     { amount := { mant := 1, scale := 0 }, isIncome := false }],
    loginStack := [{ userID := "root", selectedISBN := "A" }] }

/-! ## Lemmas on strings and maps -/

theorem bytesLt_irrefl (a : List Char) : bytesLt a a = false := by
  induction a with
  | nil => rfl
  | cons c cs ih => simp [bytesLt, ih]

theorem strLt_irrefl (a : String) : strLt a a = false := bytesLt_irrefl a.data

theorem strLt_ne {a b : String} (h : strLt a b = true) : a ≠ b := by
  rintro rfl
  rw [strLt_irrefl] at h
  exact Bool.false_ne_true h

namespace SMap

theorem find_insert_self {V : Type} (m : SMap V) (k : String) (v : V) :
    find (insert m k v) k = some v := by
  induction m with
  | nil => simp [insert, find]
  | cons e m ih =>
    obtain ⟨k', v'⟩ := e
    unfold insert
    split_ifs with h1 h2
    · simp [find, strLt_ne h1, ih]
    · simp [find]
    · simp [find]

theorem find_insert_ne {V : Type} (m : SMap V) {k k' : String} (v : V) (h : k ≠ k') :
    find (insert m k v) k' = find m k' := by
  induction m with
  | nil => simp [insert, find, h]
  | cons e m ih =>
    obtain ⟨k₀, v₀⟩ := e
    unfold insert
    split_ifs with h1 h2
    · simp [find, ih]
    · subst h2; simp [find, h]
    · simp [find, h]

theorem find_erase_self {V : Type} (m : SMap V) (k : String) : find (erase m k) k = none := by
  induction m with
  | nil => rfl
  | cons e m ih =>
    obtain ⟨k₀, v₀⟩ := e
    by_cases h : k₀ = k
    · simpa [erase, List.filter_cons, h] using ih
    · simpa [erase, List.filter_cons, h, find] using ih

theorem find_erase_ne {V : Type} (m : SMap V) {k k' : String} (h : k ≠ k') :
    find (erase m k) k' = find m k' := by
  induction m with
  | nil => rfl
  | cons e m ih =>
    obtain ⟨k₀, v₀⟩ := e
    by_cases h0 : k₀ = k
    · subst h0
      simpa [erase, List.filter_cons, find, h] using ih
    · by_cases h1 : k₀ = k'
      · subst h1
        simp [erase, List.filter_cons, h0, find]
      · simpa [erase, List.filter_cons, h0, find, h1] using ih

end SMap

theorem getCurrentPrivilege_snd {D : Type} {s : State D} (h : StackOK s) :
    (getCurrentPrivilege s).2 = s := by
  unfold getCurrentPrivilege
  cases hs : s.loginStack with
  | nil => rfl
  | cons top rest =>
    have := h top (by simp [hs])
    cases hf : s.accounts.find top.userID with
    | none => simp [hf] at this
    | some acc => simp [hf]

theorem getCurrentPrivilege_eq {D : Type} {s : State D} (h : StackOK s) :
    getCurrentPrivilege s = (curPriv s, s) := by
  have := getCurrentPrivilege_snd h
  unfold curPriv
  rw [Prod.ext_iff]
  exact ⟨rfl, this⟩


theorem Inv.of_users {D : Type} {s s' : State D} (h : Inv s)
    (ha : s'.accounts = s.accounts)
    (hl : s'.loginStack.map (·.userID) = s.loginStack.map (·.userID)) : Inv s' := by
  refine ⟨?_, ?_⟩
  · intro fr hfr
    have hm : fr.userID ∈ s'.loginStack.map (·.userID) := List.mem_map_of_mem _ hfr
    rw [hl] at hm
    obtain ⟨fr0, hfr0, he⟩ := List.mem_map.1 hm
    have := h.1 fr0 hfr0
    rw [ha]
    simpa [← he] using this
  · intro k acc hk
    rw [ha] at hk
    exact h.2 k acc hk

theorem users_of_unchanged {D : Type} {s s' : State D} {out out' : String} {P : Prop}
    (he : Outcome.ok s out = Outcome.ok s' out') (hP : s' = s → P) : P := by
  injection he with h1 _
  exact hP h1.symm

theorem cmdBuy_users {D : Type} (F : DoubleOps D) {s s' : State D} {params : List String}
    {out : String} (h : StackOK s) (he : cmdBuy F s params = .ok s' out) :
    s'.accounts = s.accounts ∧ s'.loginStack = s.loginStack := by
  unfold cmdBuy at he
  rw [getCurrentPrivilege_eq h] at he
  simp only [invalid] at he
  repeat' split at he
  all_goals (injection he with h1 h2; subst h1; exact ⟨rfl, rfl⟩)

theorem cmdShow_state {D : Type} (F : DoubleOps D) {s s' : State D} {params : List String}
    {out : String} (h : StackOK s) (he : cmdShow F s params = .ok s' out) : s' = s := by
  unfold cmdShow showResults at he
  rw [getCurrentPrivilege_eq h] at he
  simp only [invalid] at he
  repeat' split at he
  all_goals (injection he with h1 h2; exact h1.symm)

theorem cmdShowFinance_state {D : Type} (F : DoubleOps D) {s s' : State D}
    {params : List String} {out : String} (h : StackOK s)
    (he : cmdShowFinance F s params = .ok s' out) : s' = s := by
  unfold cmdShowFinance financeSummary at he
  rw [getCurrentPrivilege_eq h] at he
  simp only [invalid] at he
  repeat' split at he
  all_goals (injection he with h1 h2; exact h1.symm)

theorem cmdLog_state {D : Type} {s s' : State D} {out : String} (h : StackOK s)
    (he : cmdLog s = .ok s' out) : s' = s := by
  unfold cmdLog at he
  rw [getCurrentPrivilege_eq h] at he
  simp only [invalid] at he
  repeat' split at he
  all_goals (injection he with h1 h2; exact h1.symm)

theorem cmdReportFinance_state {D : Type} (F : DoubleOps D) {s s' : State D} {out : String}
    (h : StackOK s) (he : cmdReportFinance F s = .ok s' out) : s' = s := by
  unfold cmdReportFinance at he
  rw [getCurrentPrivilege_eq h] at he
  simp only [invalid] at he
  repeat' split at he
  all_goals (injection he with h1 h2; exact h1.symm)

theorem cmdReportEmployee_state {D : Type} {s s' : State D} {out : String}
    (h : StackOK s) (he : cmdReportEmployee s = .ok s' out) : s' = s := by
  unfold cmdReportEmployee at he
  rw [getCurrentPrivilege_eq h] at he
  simp only [invalid] at he
  repeat' split at he
  all_goals (injection he with h1 h2; exact h1.symm)

theorem setSelection_users (stack : List LoginSession) (isbn : String) :
    (setSelection stack isbn).map (·.userID) = stack.map (·.userID) := by
  cases stack <;> rfl

theorem cmdSelect_users {D : Type} (F : DoubleOps D) {s s' : State D} {params : List String}
    {out : String} (h : StackOK s) (he : cmdSelect F s params = .ok s' out) :
    s'.accounts = s.accounts ∧ s'.loginStack.map (·.userID) = s.loginStack.map (·.userID) := by
  unfold cmdSelect at he
  rw [getCurrentPrivilege_eq h] at he
  simp only [invalid] at he
  repeat' split at he
  all_goals (injection he with h1 h2; subst h1; first | exact ⟨rfl, rfl⟩ | exact ⟨rfl, setSelection_users _ _⟩)

theorem cmdModify_users {D : Type} (F : DoubleOps D) {s s' : State D} {params : List String}
    {out : String} (h : StackOK s) (he : cmdModify F s params = .ok s' out) :
    s'.accounts = s.accounts ∧ s'.loginStack.map (·.userID) = s.loginStack.map (·.userID) := by
  unfold cmdModify at he
  rw [getCurrentPrivilege_eq h] at he
  simp only [invalid] at he
  repeat' split at he
  all_goals first
    | (injection he with h1 h2; subst h1; exact ⟨rfl, rfl⟩)
    | (injection he with h1 h2; subst h1; refine ⟨rfl, ?_⟩; simp_all)
    | exact absurd he (by simp)

theorem cmdImport_users {D : Type} (F : DoubleOps D) {s s' : State D} {params : List String}
    {out : String} (h : StackOK s) (he : cmdImport F s params = .ok s' out) :
    s'.accounts = s.accounts ∧ s'.loginStack = s.loginStack := by
  unfold cmdImport at he
  rw [getCurrentPrivilege_eq h] at he
  simp only [invalid] at he
  repeat' split at he
  all_goals first
    | (injection he with h1 h2; subst h1; exact ⟨rfl, rfl⟩)
    | exact absurd he (by simp)

theorem find_insert_isSome {V : Type} (m : SMap V) (k k' : String) (v : V)
    (h : (SMap.find m k').isSome = true) : (SMap.find (SMap.insert m k v) k').isSome = true := by
  by_cases hk : k = k'
  · subst hk; simp [SMap.find_insert_self]
  · rw [SMap.find_insert_ne m v hk]; exact h

theorem Inv.insert {D : Type} {s : State D} (h : Inv s) (k : String) (acc : Account)
    (hk : isValidUserID k = true) (hp : isValidPassword acc.password = true) :
    Inv { s with accounts := s.accounts.insert k acc } := by
  refine ⟨?_, ?_⟩
  · intro fr hfr
    exact find_insert_isSome _ _ _ _ (h.1 fr hfr)
  · intro k' acc' hf
    by_cases hkk : k = k'
    · subst hkk
      rw [SMap.find_insert_self] at hf
      injection hf with hf
      subst hf
      exact ⟨hk, hp⟩
    · rw [SMap.find_insert_ne _ _ hkk] at hf
      exact h.2 k' acc' hf

theorem Inv.push {D : Type} {s : State D} (h : Inv s) (u sel : String)
    (hf : (s.accounts.find u).isSome = true) :
    Inv { s with loginStack := { userID := u, selectedISBN := sel } :: s.loginStack } := by
  refine ⟨?_, h.2⟩
  intro fr hfr
  rcases List.mem_cons.1 hfr with rfl | hfr
  · exact hf
  · exact h.1 fr hfr

theorem cmdSu_inv {D : Type} {s s' : State D} {params : List String} {out : String}
    (h : Inv s) (he : cmdSu s params = .ok s' out) : Inv s' := by
  unfold cmdSu at he
  rw [getCurrentPrivilege_eq h.1] at he
  simp only [invalid] at he
  repeat' split at he
  all_goals first
    | exact users_of_unchanged he (fun e => e ▸ h)
    | (injection he with h1 _
       subst h1
       exact h.push _ _ (by rw [‹SMap.find s.accounts _ = some _›]; rfl))

theorem cmdLogout_inv {D : Type} {s s' : State D} {out : String}
    (h : Inv s) (he : cmdLogout s = .ok s' out) : Inv s' := by
  unfold cmdLogout at he
  rw [getCurrentPrivilege_eq h.1] at he
  simp only [invalid] at he
  split at he
  · exact users_of_unchanged he (fun e => e ▸ h)
  injection he with h1 _
  subst h1
  exact ⟨fun fr hfr => h.1 fr (List.mem_of_mem_tail hfr), h.2⟩

theorem cmdRegister_inv {D : Type} {s s' : State D} {params : List String} {out : String}
    (h : Inv s) (he : cmdRegister s params = .ok s' out) : Inv s' := by
  unfold cmdRegister at he
  simp only [invalid] at he
  split at he
  · exact users_of_unchanged he (fun e => e ▸ h)
  split at he
  · exact users_of_unchanged he (fun e => e ▸ h)
  rename_i hv
  split at he
  · exact users_of_unchanged he (fun e => e ▸ h)
  injection he with h1 _
  subst h1
  simp only [not_or, Decidable.not_not] at hv
  exact h.insert _ _ hv.1 hv.2.1

theorem cmdPasswd_inv {D : Type} {s s' : State D} {params : List String} {out : String}
    (h : Inv s) (he : cmdPasswd s params = .ok s' out) : Inv s' := by
  unfold cmdPasswd at he
  simp only [getCurrentPrivilege_eq h.1, invalid] at he
  split at he
  · exact users_of_unchanged he (fun e => e ▸ h)
  split at he
  · exact users_of_unchanged he (fun e => e ▸ h)
  by_cases h3 : params.length = 3
  · simp only [h3, if_true] at he
    repeat' split at he
    all_goals first
      | exact users_of_unchanged he (fun e => e ▸ h)
      | (injection he with h1 _
         subst h1
         have hv := ‹¬(¬isValidUserID _ = true ∨ ¬isValidPassword _ = true)›
         simp only [not_or, Decidable.not_not] at hv
         exact h.insert _ _ hv.1 hv.2)
  · simp only [h3, if_false] at he
    repeat' split at he
    all_goals first
      | exact users_of_unchanged he (fun e => e ▸ h)
      | (injection he with h1 _
         subst h1
         have hv := ‹¬(¬isValidUserID _ = true ∨ ¬isValidPassword _ = true)›
         simp only [not_or, Decidable.not_not] at hv
         exact h.insert _ _ hv.1 hv.2)

theorem cmdUseradd_inv {D : Type} {s s' : State D} {params : List String} {out : String}
    (h : Inv s) (he : cmdUseradd s params = .ok s' out) : Inv s' := by
  unfold cmdUseradd at he
  simp only [getCurrentPrivilege_eq h.1, invalid] at he
  split at he
  · exact users_of_unchanged he (fun e => e ▸ h)
  split at he
  · exact users_of_unchanged he (fun e => e ▸ h)
  split at he
  · exact users_of_unchanged he (fun e => e ▸ h)
  rename_i hv
  simp only [not_or, Decidable.not_not] at hv
  repeat' split at he
  all_goals first
    | exact users_of_unchanged he (fun e => e ▸ h)
    | (injection he with h1 _
       subst h1
       exact h.insert _ _ hv.1 hv.2.1)

theorem cmdDelete_inv {D : Type} {s s' : State D} {params : List String} {out : String}
    (h : Inv s) (he : cmdDelete s params = .ok s' out) : Inv s' := by
  unfold cmdDelete at he
  simp only [getCurrentPrivilege_eq h.1, invalid] at he
  split at he
  · exact users_of_unchanged he (fun e => e ▸ h)
  split at he
  · exact users_of_unchanged he (fun e => e ▸ h)
  split at he
  · exact users_of_unchanged he (fun e => e ▸ h)
  split at he
  · exact users_of_unchanged he (fun e => e ▸ h)
  split at he
  · exact users_of_unchanged he (fun e => e ▸ h)
  rename_i hany
  injection he with h1 _
  subst h1
  refine ⟨?_, ?_⟩
  · intro fr hfr
    have hne : params.getD 0 "" ≠ fr.userID := by
      intro e
      apply hany
      rw [List.any_eq_true]
      exact ⟨fr, hfr, decide_eq_true e.symm⟩
    show (SMap.find (SMap.erase s.accounts _) fr.userID).isSome = true
    rw [SMap.find_erase_ne _ hne]
    exact h.1 fr hfr
  · intro k acc hf
    by_cases hk : params.getD 0 "" = k
    · subst hk
      rw [show (SMap.find (SMap.erase s.accounts (params.getD 0 "")) (params.getD 0 "")) = none
        from SMap.find_erase_self _ _] at hf
      exact absurd hf (by simp)
    · rw [show SMap.find (SMap.erase s.accounts (params.getD 0 "")) k = SMap.find s.accounts k
        from SMap.find_erase_ne _ hk] at hf
      exact h.2 k acc hf

theorem dispatch_inv {D : Type} (F : DoubleOps D) {s s' : State D} {cmd : String}
    {params : List String} {out : String}
    (h : Inv s) (he : dispatch F s cmd params = .ok s' out) : Inv s' := by
  unfold dispatch at he
  by_cases c0 : cmd = "quit" ∨ cmd = "exit"
  · rw [if_pos c0] at he; cases he
  rw [if_neg c0] at he
  by_cases c1 : cmd = "su"
  · rw [if_pos c1] at he; exact cmdSu_inv h he
  rw [if_neg c1] at he
  by_cases c2 : cmd = "logout"
  · rw [if_pos c2] at he; exact cmdLogout_inv h he
  rw [if_neg c2] at he
  by_cases c3 : cmd = "register"
  · rw [if_pos c3] at he; exact cmdRegister_inv h he
  rw [if_neg c3] at he
  by_cases c4 : cmd = "passwd"
  · rw [if_pos c4] at he; exact cmdPasswd_inv h he
  rw [if_neg c4] at he
  by_cases c5 : cmd = "useradd"
  · rw [if_pos c5] at he; exact cmdUseradd_inv h he
  rw [if_neg c5] at he
  by_cases c6 : cmd = "delete"
  · rw [if_pos c6] at he; exact cmdDelete_inv h he
  rw [if_neg c6] at he
  by_cases c7 : cmd = "show"
  · rw [if_pos c7] at he
    by_cases c7' : params.head? = some "finance"
    · rw [if_pos c7'] at he; exact (cmdShowFinance_state F h.1 he) ▸ h
    · rw [if_neg c7'] at he; exact (cmdShow_state F h.1 he) ▸ h
  rw [if_neg c7] at he
  by_cases c8 : cmd = "buy"
  · rw [if_pos c8] at he
    have := cmdBuy_users F h.1 he
    exact h.of_users this.1 (by rw [this.2])
  rw [if_neg c8] at he
  by_cases c9 : cmd = "select"
  · rw [if_pos c9] at he
    have := cmdSelect_users F h.1 he
    exact h.of_users this.1 this.2
  rw [if_neg c9] at he
  by_cases c10 : cmd = "modify"
  · rw [if_pos c10] at he
    have := cmdModify_users F h.1 he
    exact h.of_users this.1 this.2
  rw [if_neg c10] at he
  by_cases c11 : cmd = "import"
  · rw [if_pos c11] at he
    have := cmdImport_users F h.1 he
    exact h.of_users this.1 (by rw [this.2])
  rw [if_neg c11] at he
  by_cases c12 : cmd = "log"
  · rw [if_pos c12] at he; exact (cmdLog_state h.1 he) ▸ h
  rw [if_neg c12] at he
  by_cases c13 : cmd = "report"
  · rw [if_pos c13] at he
    split at he
    · split_ifs at he
      · exact (cmdReportFinance_state F h.1 he) ▸ h
      · exact (cmdReportEmployee_state h.1 he) ▸ h
      · exact users_of_unchanged he (fun e => e ▸ h)
    · exact users_of_unchanged he (fun e => e ▸ h)
  rw [if_neg c13] at he
  exact users_of_unchanged he (fun e => e ▸ h)

theorem execLine_inv {D : Type} (F : DoubleOps D) {s s' : State D} {line out : String}
    (h : Inv s) (he : execLine F s line = .ok s' out) : Inv s' := by
  unfold execLine at he
  simp only at he
  split at he
  · exact users_of_unchanged he (fun e => e ▸ h)
  split at he
  · exact users_of_unchanged he (fun e => e ▸ h)
  · exact dispatch_inv F h he

theorem initState_inv (D : Type) : Inv (initState D) := by
  refine ⟨?_, ?_⟩
  · intro fr hfr
    simp [initState] at hfr
  · intro k acc hf
    simp only [initState, SMap.insert, SMap.find] at hf
    split at hf
    · rename_i hk
      injection hf with hf
      subst hf; subst hk
      exact ⟨by decide, by decide⟩
    · exact absurd hf (by simp)

theorem Reachable.inv {D : Type} {F : DoubleOps D} {s : State D} (h : Reachable F s) : Inv s := by
  induction h with
  | init => exact initState_inv D
  | step _ he ih => exact execLine_inv F ih he

theorem Reachable.runLines {D : Type} {F : DoubleOps D} {s s' : State D} {out out' : String}
    {lines : List String} (h : Reachable F s)
    (he : Bookstore.runLines F s out lines = .ok s' out') : Reachable F s' := by
  induction lines generalizing s out with
  | nil =>
    injection he with h1 _
    exact h1 ▸ h
  | cons line rest ih =>
    unfold Bookstore.runLines at he
    split at he
    · rename_i s1 o hstep
      exact ih (Reachable.step h hstep) he
    · cases he
    · cases he

/-! ## Routing of the command words -/

theorem dispatch_su {D : Type} (F : DoubleOps D) (s : State D) (params : List String) :
    dispatch F s "su" params = cmdSu s params := rfl

theorem dispatch_logout {D : Type} (F : DoubleOps D) (s : State D) (params : List String) :
    dispatch F s "logout" params = cmdLogout s := rfl

theorem dispatch_register {D : Type} (F : DoubleOps D) (s : State D) (params : List String) :
    dispatch F s "register" params = cmdRegister s params := rfl

theorem dispatch_passwd {D : Type} (F : DoubleOps D) (s : State D) (params : List String) :
    dispatch F s "passwd" params = cmdPasswd s params := rfl

theorem dispatch_useradd {D : Type} (F : DoubleOps D) (s : State D) (params : List String) :
    dispatch F s "useradd" params = cmdUseradd s params := rfl

theorem dispatch_delete {D : Type} (F : DoubleOps D) (s : State D) (params : List String) :
    dispatch F s "delete" params = cmdDelete s params := rfl

theorem dispatch_show_finance {D : Type} (F : DoubleOps D) (s : State D)
    (params : List String) :
    dispatch F s "show" ("finance" :: params) = cmdShowFinance F s params := rfl

theorem dispatch_show_nil {D : Type} (F : DoubleOps D) (s : State D) :
    dispatch F s "show" [] = cmdShow F s [] := rfl

theorem dispatch_buy {D : Type} (F : DoubleOps D) (s : State D) (params : List String) :
    dispatch F s "buy" params = cmdBuy F s params := rfl

theorem dispatch_select {D : Type} (F : DoubleOps D) (s : State D) (params : List String) :
    dispatch F s "select" params = cmdSelect F s params := rfl

theorem dispatch_modify {D : Type} (F : DoubleOps D) (s : State D) (params : List String) :
    dispatch F s "modify" params = cmdModify F s params := rfl

theorem dispatch_import {D : Type} (F : DoubleOps D) (s : State D) (params : List String) :
    dispatch F s "import" params = cmdImport F s params := rfl

theorem dispatch_log {D : Type} (F : DoubleOps D) (s : State D) (params : List String) :
    dispatch F s "log" params = cmdLog s := rfl

theorem dispatch_report_finance {D : Type} (F : DoubleOps D) (s : State D) :
    dispatch F s "report" ["finance"] = cmdReportFinance F s := rfl

theorem dispatch_report_employee {D : Type} (F : DoubleOps D) (s : State D) :
    dispatch F s "report" ["employee"] = cmdReportEmployee s := rfl

/-! ## The sample states are reachable -/

theorem sample_states_reachable :
    Reachable exactOps rootSession ∧ Reachable exactOps rootAndBob ∧
    Reachable exactOps bobSession ∧ Reachable exactOps selectedA ∧
    Reachable exactOps twoBooks ∧ Reachable exactOps sampleLedger :=
  ⟨Reachable.init.runLines
    (by decide : Bookstore.runLines exactOps (initState Decimal) "" ["su root sjtu"]
      = .ok rootSession ""),
   Reachable.init.runLines
    (by decide : Bookstore.runLines exactOps (initState Decimal) ""
      ["su root sjtu", "register bob pw Bob"] = .ok rootAndBob ""),
   Reachable.init.runLines
    (by decide : Bookstore.runLines exactOps (initState Decimal) ""
      ["su root sjtu", "register bob pw Bob", "su bob pw"] = .ok bobSession ""),
   Reachable.init.runLines
    (by decide : Bookstore.runLines exactOps (initState Decimal) ""
      ["su root sjtu", "select A"] = .ok selectedA ""),
   Reachable.init.runLines
    (by decide : Bookstore.runLines exactOps (initState Decimal) ""
      ["su root sjtu", "select B", "select A"] = .ok twoBooks ""),
   Reachable.init.runLines
    (by decide : Bookstore.runLines exactOps (initState Decimal) ""
      ["su root sjtu", "select A", "import 10 100.00", "modify -price=12.50", "buy A 3"]
      = .ok sampleLedger "37.50\n")⟩

theorem getCurrentPrivilege_of_ne_zero {D : Type} {s : State D} (h : curPriv s ≠ 0) :
    getCurrentPrivilege s = (curPriv s, s) := by
  unfold curPriv at *
  unfold getCurrentPrivilege at *
  cases hs : s.loginStack with
  | nil => simp [hs] at h
  | cons top rest =>
    cases hf : s.accounts.find top.userID with
    | none => simp [hs, hf] at h
    | some acc => simp [hf]

/-! ## Login and account deletion (C1 - C3) -/

/-- C1: in every reachable state, for a syntactically valid `userID` that names
an existing account `acc`: `su userID` without a password succeeds (pushes a
frame for `userID`, prints nothing) exactly when the effective privilege is
strictly greater than `acc.privilege`, and is rejected otherwise; and when the
effective privilege does not exceed `acc.privilege`, `su userID pw` succeeds
exactly when `pw` equals the stored password, and is rejected otherwise. -/
theorem su_password_rule {D : Type} (F : DoubleOps D) (s : State D) (hr : Reachable F s)
    (userID : String) (acc : Account) (hv : isValidUserID userID = true)
    (hf : s.accounts.find userID = some acc) :
    (cmdSu s [userID] = .ok (pushLogin s userID) "" ↔ curPriv s > acc.privilege) ∧
    (¬ curPriv s > acc.privilege → cmdSu s [userID] = invalid s) ∧
    (∀ pw : String, ¬ curPriv s > acc.privilege →
      (cmdSu s [userID, pw] = .ok (pushLogin s userID) "" ↔ pw = acc.password) ∧
      (pw ≠ acc.password → cmdSu s [userID, pw] = invalid s)) := by
  have hinv := hr.inv
  have hg := getCurrentPrivilege_eq hinv.1
  have hpw := (hinv.2 userID acc hf).2
  have h1 : cmdSu s [userID] =
      if curPriv s ≤ acc.privilege then invalid s else .ok (pushLogin s userID) "" := by
    simp [cmdSu, hv, hf, hg, pushLogin]
  have h2 : ∀ pw : String, cmdSu s [userID, pw] =
      if curPriv s ≤ acc.privilege ∧ pw ≠ acc.password then invalid s
      else if isValidPassword pw = true then .ok (pushLogin s userID) "" else invalid s := by
    intro pw
    by_cases hp : isValidPassword pw = true
    · simp [cmdSu, hv, hf, hg, pushLogin, hp]
    · have hne : pw ≠ acc.password := fun e => hp (e ▸ hpw)
      simp [cmdSu, hv, hf, hg, pushLogin, hp, hne]
  refine ⟨?_, ?_, ?_⟩
  · rw [h1]
    constructor
    · intro h
      by_contra hc
      rw [if_pos (not_lt.1 hc)] at h
      simp [invalid] at h
    · intro h
      rw [if_neg (not_le.2 h)]
  · intro h
    rw [h1, if_pos (not_lt.1 h)]
  · intro pw hle
    have hle' := not_lt.1 hle
    refine ⟨⟨?_, ?_⟩, ?_⟩
    · intro h
      by_contra hc
      rw [h2, if_pos ⟨hle', hc⟩] at h
      simp [invalid] at h
    · intro e
      have hp : isValidPassword pw = true := e ▸ hpw
      rw [h2, if_neg (fun h => h.2 e), if_pos hp]
    · intro hne
      rw [h2, if_pos ⟨hle', hne⟩]

/-- Witness for C1 in the fresh initial state: `su root` is rejected and
`su root sjtu` logs `root` in. -/
theorem su_password_rule_witness :
    cmdSu (initState Decimal) ["root"] = invalid (initState Decimal) ∧
    cmdSu (initState Decimal) ["root", "sjtu"] = .ok rootSession "" :=
  have h := su_password_rule exactOps (initState Decimal) Reachable.init "root"
    { userID := "root", password := "sjtu", username := "root", privilege := 7 }
    (by decide) (by decide)
  ⟨h.2.1 (by decide), (h.2.2 "sjtu" (by decide)).1.2 rfl⟩

/-- C2: in every state reachable from the fresh initial state, `delete` of the
user of any frame of the login stack (top or below) is rejected and changes
nothing, every user on the login stack has an account, and the
current-privilege query leaves the state as it is (it never inserts an account
for a missing user). -/
theorem stack_accounts_survive {D : Type} (F : DoubleOps D) (s : State D)
    (hr : Reachable F s) :
    (∀ fr ∈ s.loginStack, cmdDelete s [fr.userID] = invalid s) ∧
    (∀ fr ∈ s.loginStack, ∃ acc, s.accounts.find fr.userID = some acc) ∧
    (getCurrentPrivilege s).2 = s := by
  have hinv := hr.inv
  have hg := getCurrentPrivilege_eq hinv.1
  refine ⟨?_, ?_, getCurrentPrivilege_snd hinv.1⟩
  · intro fr hfr
    have hany : s.loginStack.any (fun session => decide (session.userID = fr.userID)) = true :=
      List.any_eq_true.2 ⟨fr, hfr, by simp⟩
    unfold cmdDelete
    simp only [hg, List.length_singleton, List.getD_cons_zero, hany, if_true]
    split_ifs <;> rfl
  · intro fr hfr
    exact Option.isSome_iff_exists.1 (hinv.1 fr hfr)

/-- Witness for C2: after `su root sjtu`, `delete root` is rejected. -/
theorem stack_accounts_survive_witness :
    cmdDelete rootSession ["root"] = invalid rootSession :=
  (stack_accounts_survive exactOps rootSession
    (Reachable.step Reachable.init
      (by decide : execLine exactOps (initState Decimal) "su root sjtu" = .ok rootSession ""))).1
    { userID := "root", selectedISBN := "" } (by decide)

/-- C3, counterexample: with `root` logged in (effective privilege 7), the
user `nobody` is on no frame of the login stack, yet `delete nobody` is
rejected, because no such account exists. -/
theorem delete_unknown_user_rejected :
    curPriv rootSession = 7 ∧
    (∀ fr ∈ rootSession.loginStack, fr.userID ≠ "nobody") ∧
    cmdDelete rootSession ["nobody"] = invalid rootSession := by
  decide

/-- C3, amended: in every state with effective privilege 7, for every
syntactically valid `userID` that names an existing account and is the user of
no frame of the login stack, `delete userID` succeeds (prints nothing, changes
only the accounts) and afterwards no account is stored under `userID`. -/
theorem delete_removes_account {D : Type} (s : State D) (userID : String)
    (hp : curPriv s = 7) (hv : isValidUserID userID = true)
    (hex : (s.accounts.find userID).isSome = true)
    (hn : ∀ fr ∈ s.loginStack, fr.userID ≠ userID) :
    cmdDelete s [userID] = .ok { s with accounts := s.accounts.erase userID } "" ∧
    (s.accounts.erase userID).find userID = none := by
  have hg := getCurrentPrivilege_of_ne_zero (s := s) (by rw [hp]; decide)
  have hany : s.loginStack.any (fun session => decide (session.userID = userID)) = false := by
    rw [List.any_eq_false]
    intro fr hfr
    simpa using hn fr hfr
  obtain ⟨acc, hacc⟩ := Option.isSome_iff_exists.1 hex
  refine ⟨?_, SMap.find_erase_self _ _⟩
  unfold cmdDelete
  simp [hg, hp, hv, hacc, hany]

/-- Witness for the amended C3: with `root` logged in, `delete bob` removes
the account `bob`. -/
theorem delete_removes_account_witness :
    cmdDelete rootAndBob ["bob"] = .ok rootSession "" ∧
    rootSession.accounts.find "bob" = none :=
  delete_removes_account rootAndBob "bob" (by decide) (by decide) (by decide) (by decide)

/-! ## Stock arithmetic and rejected commands (C4, C5) -/

/-- C4, the code at the failing input: from the fresh initial state, after
`su root sjtu`, `select X` and two commands `import 2147483647 1` (both
succeed), the quantity stored for `X` is `-2`: the second `book.quantity +=
quantity` leaves the range of `int`.  The claim requires the sum 4294967294
and a quantity that is never negative. -/
theorem import_twice_overflows :
    runLines exactOps (initState Decimal) ""
      ["su root sjtu", "select X", "import 2147483647 1", "import 2147483647 1"]
      = .ok overflowed "" ∧
    (overflowed.books.find "X").map (·.quantity) = some (-2) := by
  decide

/-- C5, the code at the failing input: the state `staleSelection` is reached
from the fresh initial state and has no book under the key `A`; in it the
line `modify -foo` is rejected (it prints `Invalid`), yet afterwards the books
collection holds a blank book under the key `A`: the copy
`books[selectedISBN]` was made, through `operator[]`, before the parameter was
examined. -/
theorem rejected_modify_inserts_book :
    runLines exactOps (initState Decimal) ""
      ["su root sjtu", "select A", "su root sjtu", "select A", "modify -ISBN=B", "logout"]
      = .ok staleSelection "" ∧
    staleSelection.books.find "A" = none ∧
    execLine exactOps staleSelection "modify -foo" = .ok staleAfterModify "Invalid\n" ∧
    staleAfterModify.books.find "A" = some (Book.blank exactOps) := by
  decide

/-! ## Listing the books (C7) -/

theorem bytesLt_asymm (a b : List Char) (h : bytesLt a b = true) : bytesLt b a = false := by
  induction a generalizing b with
  | nil => cases b <;> simp [bytesLt] at *
  | cons x xs ih =>
    cases b with
    | nil => simp [bytesLt] at h
    | cons y ys =>
      simp only [bytesLt] at h ⊢
      split_ifs at h ⊢
      all_goals first | rfl | omega | exact ih ys h

theorem bytesLt_false_trans (a b c : List Char) (h1 : bytesLt b a = false)
    (h2 : bytesLt c b = false) : bytesLt c a = false := by
  induction a generalizing b c with
  | nil => cases c <;> rfl
  | cons x xs ih =>
    cases b with
    | nil => simp [bytesLt] at h1
    | cons y ys =>
      cases c with
      | nil => simp [bytesLt] at h2
      | cons z zs =>
        simp only [bytesLt] at h1 h2 ⊢
        split_ifs at h1 h2 ⊢
        all_goals first | rfl | omega | exact ih ys zs h1 h2

theorem isbnLe_total {D : Type} : IsTotal (Book D) isbnLe :=
  ⟨fun a b => by
    unfold isbnLe strLt
    cases h : bytesLt b.ISBN.data a.ISBN.data with
    | false => exact Or.inl rfl
    | true => exact Or.inr (bytesLt_asymm _ _ h)⟩

theorem isbnLe_trans {D : Type} : IsTrans (Book D) isbnLe :=
  ⟨fun a b c h1 h2 => by
    unfold isbnLe strLt at *
    exact bytesLt_false_trans a.ISBN.data b.ISBN.data c.ISBN.data h1 h2⟩

theorem sortBooks_perm {D : Type} (l : List (Book D)) : (sortBooks l).Perm l :=
  List.perm_insertionSort _ l

theorem sortBooks_sorted {D : Type} (l : List (Book D)) :
    (sortBooks l).Pairwise (fun a b => strLt b.ISBN a.ISBN = false) :=
  haveI := isbnLe_total (D := D)
  haveI := isbnLe_trans (D := D)
  List.sorted_insertionSort isbnLe l

/-- C7: in every state with effective privilege at least 1, the line `show`
(no filter) leaves the state unchanged and prints the lines of a list `listed` of
books that is a rearrangement of the whole books collection (every book, each
once) in ascending byte-wise order of ISBN (no book is followed by one with a
smaller ISBN), a single newline when there is no book; and whenever the result
set of a `show`, with or without filter, is empty, the output is exactly one
blank line. -/
theorem show_lists_books_in_isbn_order {D : Type} (F : DoubleOps D) (s : State D)
    (hp : curPriv s ≥ 1) :
    (∃ listed : List (Book D),
      listed.Perm s.books.values ∧
      listed.Pairwise (fun a b => strLt b.ISBN a.ISBN = false) ∧
      execLine F s "show" =
        .ok s (if listed.isEmpty then "\n" else String.join (listed.map (bookLine F)))) ∧
    (∀ params : List String, showMatches s params = some [] →
      cmdShow F s params = .ok s "\n") := by
  have hg := getCurrentPrivilege_of_ne_zero (s := s) (by omega)
  have hlt : ¬ curPriv s < 1 := by omega
  refine ⟨⟨sortBooks s.books.values, sortBooks_perm _, sortBooks_sorted _, ?_⟩, ?_⟩
  · show cmdShow F s [] = _
    unfold cmdShow
    simp only [hg, hlt, if_false, showMatches, showResults]
    cases sortBooks s.books.values <;> rfl
  · intro params hm
    unfold cmdShow
    simp only [hg, hlt, if_false, hm, showResults]
    rfl

/-- Witness for C7: with `root` logged in and the books `B` and `A` in the
collection, `show` lists `A` before `B`; with a filter that matches nothing it
prints one blank line. -/
theorem show_lists_books_in_isbn_order_witness :
    execLine exactOps twoBooks "show" = .ok twoBooks "A\t\t\t\t0.00\t0\nB\t\t\t\t0.00\t0\n" ∧
    cmdShow exactOps twoBooks ["-ISBN=C"] = .ok twoBooks "\n" :=
  have h := show_lists_books_in_isbn_order exactOps twoBooks (by decide)
  ⟨by decide, h.2 ["-ISBN=C"] (by decide)⟩

/-! ## Finance summary (C8) -/

theorem financeTotals_aux {D : Type} (F : DoubleOps D) (entries : List (Transaction D))
    (i e : D) :
    entries.foldl
      (fun acc trans =>
        if trans.isIncome then (F.add acc.1 trans.amount, acc.2)
        else (acc.1, F.add acc.2 trans.amount)) (i, e)
    = (((entries.filter (fun t => t.isIncome)).map (·.amount)).foldl F.add i,
       ((entries.filter (fun t => !t.isIncome)).map (·.amount)).foldl F.add e) := by
  induction entries generalizing i e with
  | nil => rfl
  | cons t ts ih =>
    cases h : t.isIncome <;> simp [List.foldl_cons, h, ih, List.filter_cons]

theorem financeTotals_eq {D : Type} (F : DoubleOps D) (entries : List (Transaction D)) :
    financeTotals F entries = (incomeSum F entries, expenditureSum F entries) :=
  financeTotals_aux F entries F.zero F.zero

/-- C8: in every state with effective privilege 7 (ledger below the `int`
limit of 2147483647 entries): the line `show finance 0` prints a single blank
line whatever the ledger holds; the line `show finance` prints as income the sum of the
amounts of all income entries and as expenditure the sum of the amounts of all
expenditure entries; `show finance n`, for a count of at most ten digits with
`1 ≤ n ≤ |L|`, prints the same two sums taken over the last `n` entries; and a
count `n > |L|` is rejected.  Sums are accumulated in ledger order from `0.0`
with the addition of `double`. -/
theorem show_finance_totals {D : Type} (F : DoubleOps D) (s : State D)
    (hp : curPriv s = 7) (hsize : s.transactions.length ≤ 2147483647) :
    execLine F s "show finance 0" = .ok s "\n" ∧
    execLine F s "show finance" = .ok s (financeLine F s.transactions) ∧
    (∀ countStr : String, countStr.data.all Char.isDigit = true →
      countStr.data.length ≤ 10 →
      1 ≤ stoll countStr → stoll countStr ≤ s.transactions.length →
      cmdShowFinance F s [countStr] =
        .ok s (financeLine F
          (s.transactions.drop (s.transactions.length - stoll countStr)))) ∧
    (∀ countStr : String, countStr.data.all Char.isDigit = true →
      stoll countStr > s.transactions.length →
      cmdShowFinance F s [countStr] = invalid s) := by
  have hg := getCurrentPrivilege_of_ne_zero (s := s) (by rw [hp]; decide)
  have hlt : ¬ curPriv s < 7 := by omega
  refine ⟨?_, ?_, ?_, ?_⟩
  · show cmdShowFinance F s ["0"] = .ok s "\n"
    unfold cmdShowFinance
    have h0 : stoll "0" = 0 := by decide
    have h1 : ["0"].length > 1 ↔ False := by decide
    have h2 : ("0" : String).data.isEmpty = true ∨ ("0" : String).data.length > 10 ↔ False := by
      decide
    have h3 : (¬ ("0" : String).data.all Char.isDigit = true) ↔ False := by decide
    simp only [hg, hlt, if_false, h0, h1, h2, h3, if_true, gt_iff_lt, Nat.not_lt_zero]
  · show cmdShowFinance F s [] = .ok s (financeLine F s.transactions)
    unfold cmdShowFinance
    simp [hg, hlt, financeSummary, financeTotals_eq, financeLine]
  · intro countStr hd hlen h1 hle
    have hne : countStr.data.isEmpty = false := by
      cases hc : countStr.data with
      | nil => simp [stoll, hc] at h1
      | cons c cs => rfl
    have h0 : ¬ stoll countStr = 0 := by omega
    have hbig : ¬ stoll countStr > 2147483647 := by omega
    have hle' : ¬ stoll countStr > s.transactions.length := by omega
    unfold cmdShowFinance
    simp only [hg, hlt, if_false, List.length_singleton, gt_iff_lt, lt_self_iff_false, hne, hd,
      not_true_eq_false, h0, financeSummary, financeTotals_eq, financeLine]
    have hlen' : countStr.length ≤ 10 := hlen
    simp [hlen, hbig, hle', h0]
    omega
  · intro countStr hd hgt
    unfold cmdShowFinance
    simp only [hg, hlt, if_false, List.length_singleton, gt_iff_lt, lt_self_iff_false, hd,
      not_true_eq_false, invalid]
    have h0 : ¬ stoll countStr = 0 := by omega
    split_ifs <;> rfl

/-- Witness for C8 on a ledger with one import of 100.00 followed by one
sale of 37.50. -/
theorem show_finance_totals_witness :
    execLine exactOps sampleLedger "show finance 0" = .ok sampleLedger "\n" ∧
    execLine exactOps sampleLedger "show finance" = .ok sampleLedger "+ 37.50 - 100.00\n" ∧
    cmdShowFinance exactOps sampleLedger ["1"] = .ok sampleLedger "+ 37.50 - 0.00\n" ∧
    cmdShowFinance exactOps sampleLedger ["3"] = invalid sampleLedger :=
  have h := show_finance_totals exactOps sampleLedger (by decide) (by decide)
  ⟨h.1, h.2.1, h.2.2.1 "1" (by decide) (by decide) (by decide) (by decide),
    h.2.2.2 "3" (by decide) (by decide)⟩

/-! ## Creating accounts and changing passwords (C9, C10) -/

/-- C9: in every reachable state, a `useradd` whose requested privilege (a
digit) is greater than or equal to the effective privilege is rejected and
leaves the state, hence the accounts, unchanged; and whenever `useradd` is not
rejected it was called with four parameters, the third a single digit, and it
stores under the new `userID` an account whose privilege is that digit, which
is 1, 3 or 7 and strictly less than the effective privilege. -/
theorem useradd_privilege_rule {D : Type} (F : DoubleOps D) (s : State D)
    (hr : Reachable F s) :
    (∀ (userID password username : String) (c : Char),
      c.isDigit = true → (c.toNat : Int) - 48 ≥ curPriv s →
      cmdUseradd s [userID, password, String.singleton c, username] = invalid s) ∧
    (∀ (params : List String) (s' : State D) (out : String),
      cmdUseradd s params = .ok s' out → out ≠ "Invalid\n" →
      ∃ (userID password username : String) (c : Char),
        params = [userID, password, String.singleton c, username] ∧
        c.isDigit = true ∧
        s' = addAccount s
          { userID := userID, password := password, username := username,
            privilege := (c.toNat : Int) - 48 } ∧
        s.accounts.find userID = none ∧
        ((c.toNat : Int) - 48 = 1 ∨ (c.toNat : Int) - 48 = 3 ∨ (c.toNat : Int) - 48 = 7) ∧
        (c.toNat : Int) - 48 < curPriv s) := by
  have hinv := hr.inv
  have hg := getCurrentPrivilege_eq hinv.1
  refine ⟨?_, ?_⟩
  · intro userID password username c hd hge
    unfold cmdUseradd
    have hs : (String.singleton c).data = [c] := rfl
    simp only [hg, hs, List.getD_cons_zero, List.getD_cons_succ, hd, invalid]
    have hge' : ¬ (c.toNat : Int) - 48 < curPriv s := by omega
    split_ifs <;> rfl
  · intro params s' out he hout
    unfold cmdUseradd at he
    simp only [hg, invalid] at he
    split at he
    · injection he with _ h2; exact absurd h2.symm hout
    split at he
    · injection he with _ h2; exact absurd h2.symm hout
    rename_i hlen
    split at he
    · injection he with _ h2; exact absurd h2.symm hout
    split at he
    · rename_i c hc
      split at he
      · injection he with _ h2; exact absurd h2.symm hout
      rename_i hd
      split at he
      · injection he with _ h2; exact absurd h2.symm hout
      rename_i hset
      split at he
      · injection he with _ h2; exact absurd h2.symm hout
      rename_i hlt
      split at he
      · injection he with _ h2; exact absurd h2.symm hout
      rename_i hnew
      injection he with h1 _
      have hlen4 : params.length = 4 := not_not.1 hlen
      obtain ⟨u, p, q, n, rfl⟩ : ∃ u p q n, params = [u, p, q, n] := by
        match params, hlen4 with
        | [u, p, q, n], _ => exact ⟨u, p, q, n, rfl⟩
      have hq : q = String.singleton c := by
        simp only [List.getD_cons_zero, List.getD_cons_succ] at hc
        exact String.ext hc
      subst hq
      refine ⟨u, p, n, c, rfl, by simpa using hd, ?_, ?_, ?_, ?_⟩
      · simpa [addAccount] using h1.symm
      · simpa using hnew
      · omega
      · omega
    · injection he with _ h2; exact absurd h2.symm hout

/-- Witness for C9: `bob` (privilege 1) on top of `root` cannot create an
account of privilege 7. -/
theorem useradd_privilege_rule_witness :
    cmdUseradd bobSession ["eve", "pw", "7", "Eve"] = invalid bobSession :=
  (useradd_privilege_rule exactOps bobSession
    (Reachable.step
      (Reachable.step
        (Reachable.step Reachable.init
          (by decide : execLine exactOps (initState Decimal) "su root sjtu" = .ok rootSession ""))
        (by decide : execLine exactOps rootSession "register bob pw Bob" = .ok rootAndBob ""))
      (by decide : execLine exactOps rootAndBob "su bob pw" = .ok bobSession ""))).1 "eve" "pw" "Eve" '7' (by decide) (by decide)


/-- C10, counterexample: with `root` logged in (effective privilege 7), the
account `root` exists and `newpw` is a valid new password, yet `passwd root
a-b newpw` is rejected: the supplied current password `a-b` is not
syntactically valid. -/
theorem passwd_root_bad_current_rejected :
    curPriv rootSession = 7 ∧
    (rootSession.accounts.find "root").isSome = true ∧
    isValidPassword "newpw" = true ∧
    cmdPasswd rootSession ["root", "a-b", "newpw"] = invalid rootSession := by
  decide

/-- C10, amended: in every reachable state with effective privilege at least
1, for every existing account `acc` under `userID` and every syntactically
valid new password: `passwd userID new` succeeds exactly when the effective
privilege is 7, and `passwd userID cur new` succeeds exactly when the effective
privilege is 7 and `cur` is syntactically valid, or `cur` equals the stored
password; otherwise the command is rejected.  On success only the password of
that account changes: every other account, the other fields of the account,
the books, the ledger and the login stack are unchanged. -/
theorem passwd_rule {D : Type} (F : DoubleOps D) (s : State D) (hr : Reachable F s)
    (hp : curPriv s ≥ 1) (userID newPassword : String) (acc : Account)
    (hf : s.accounts.find userID = some acc) (hnew : isValidPassword newPassword = true) :
    (cmdPasswd s [userID, newPassword] = .ok (setPassword s userID acc newPassword) "" ↔
      curPriv s = 7) ∧
    (curPriv s ≠ 7 → cmdPasswd s [userID, newPassword] = invalid s) ∧
    (∀ cur : String,
      (cmdPasswd s [userID, cur, newPassword] = .ok (setPassword s userID acc newPassword) "" ↔
        (curPriv s = 7 ∧ isValidPassword cur = true) ∨ cur = acc.password) ∧
      (¬ ((curPriv s = 7 ∧ isValidPassword cur = true) ∨ cur = acc.password) →
        cmdPasswd s [userID, cur, newPassword] = invalid s)) ∧
    ((setPassword s userID acc newPassword).accounts.find userID
        = some { acc with password := newPassword } ∧
      (∀ k, k ≠ userID →
        (setPassword s userID acc newPassword).accounts.find k = s.accounts.find k) ∧
      (setPassword s userID acc newPassword).books = s.books ∧
      (setPassword s userID acc newPassword).transactions = s.transactions ∧
      (setPassword s userID acc newPassword).loginStack = s.loginStack) := by
  have hinv := hr.inv
  have hg := getCurrentPrivilege_eq hinv.1
  obtain ⟨hv, hpw⟩ := hinv.2 userID acc hf
  have hlt : ¬ curPriv s < 1 := by omega
  have h2 : cmdPasswd s [userID, newPassword] =
      if curPriv s ≠ 7 then invalid s else .ok (setPassword s userID acc newPassword) "" := by
    simp [cmdPasswd, hg, hlt, hv, hnew, hf, setPassword]
  have h3 : ∀ cur : String, cmdPasswd s [userID, cur, newPassword] =
      if (curPriv s = 7 ∧ isValidPassword cur = true) ∨ cur = acc.password then
        .ok (setPassword s userID acc newPassword) ""
      else invalid s := by
    intro cur
    by_cases hc : isValidPassword cur = true
    · by_cases h7 : curPriv s = 7
      · simp [cmdPasswd, hg, hlt, hv, hnew, hf, setPassword, hc, h7]
      · by_cases he : cur = acc.password
        · subst he
          simp [cmdPasswd, hg, hlt, hv, hnew, hf, setPassword, hpw, h7]
        · simp [cmdPasswd, hg, hlt, hv, hnew, hf, setPassword, hc, h7, he]
    · have hne : cur ≠ acc.password := fun e => hc (e ▸ hpw)
      simp [cmdPasswd, hg, hlt, hv, hnew, hf, hc, hne]
  refine ⟨?_, ?_, ?_, ?_⟩
  · rw [h2]
    constructor
    · intro h
      by_contra hc
      rw [if_pos hc] at h
      simp [invalid] at h
    · intro h
      rw [if_neg (not_not.2 h)]
  · intro h
    rw [h2, if_pos h]
  · intro cur
    refine ⟨⟨?_, ?_⟩, ?_⟩
    · intro h
      by_contra hc
      rw [h3, if_neg hc] at h
      simp [invalid] at h
    · intro h
      rw [h3, if_pos h]
    · intro h
      rw [h3, if_neg h]
  · refine ⟨SMap.find_insert_self _ _ _, ?_, rfl, rfl, rfl⟩
    intro k hk
    exact SMap.find_insert_ne _ _ (Ne.symm hk)

/-- Witness for the amended C10: `bob` changes the own password with the
current one, and is rejected without it. -/
theorem passwd_rule_witness :
    cmdPasswd bobSession ["bob", "pw", "pw2"] =
      .ok (setPassword bobSession "bob"
        { userID := "bob", password := "pw", username := "Bob", privilege := 1 } "pw2") "" ∧
    cmdPasswd bobSession ["bob", "pw2"] = invalid bobSession :=
  have h := passwd_rule exactOps bobSession
    (Reachable.step
      (Reachable.step
        (Reachable.step Reachable.init
          (by decide : execLine exactOps (initState Decimal) "su root sjtu" = .ok rootSession ""))
        (by decide : execLine exactOps rootSession "register bob pw Bob" = .ok rootAndBob ""))
      (by decide : execLine exactOps rootAndBob "su bob pw" = .ok bobSession ""))
    (by decide) "bob" "pw2"
    { userID := "bob", password := "pw", username := "Bob", privilege := 1 }
    (by decide) (by decide)
  ⟨(h.2.2.1 "pw").1.2 (Or.inr rfl), h.2.1 (by decide)⟩

/-! ## Field assignments of `modify` (C6) -/

theorem data_ne_nil_of_valid {n : Nat} {f : Char → Bool} {s : String}
    (h : (if s.data.isEmpty ∨ s.data.length > n then false else s.data.all f) = true) :
    s.data ≠ [] ∧ s.data.length ≤ n := by
  split_ifs at h with h1
  rw [not_or] at h1
  refine ⟨?_, by omega⟩
  intro e
  exact h1.1 (by rw [e]; rfl)

theorem get?_append_cons {α : Type} (p : List α) (c : α) (r : List α) :
    (p ++ c :: r).get? p.length = some c := by
  induction p with
  | nil => rfl
  | cons x xs ih => simpa using ih

theorem getLast?_append_cons_singleton {α : Type} (p r : List α) (c : α) :
    (p ++ (r ++ [c])).getLast? = some c := by
  rw [← List.append_assoc, List.getLast?_append]
  rfl

theorem quoted_list (pl vl : List Char) (hv : vl ≠ []) :
    ¬ ((pl ++ '"' :: (vl ++ ['"'])).length < pl.length + 3 ∨
        (pl ++ '"' :: (vl ++ ['"'])).get? pl.length ≠ some '"' ∨
        (pl ++ '"' :: (vl ++ ['"'])).getLast? ≠ some '"') ∧
    ((pl ++ '"' :: (vl ++ ['"'])).drop (pl.length + 1)).take
      ((pl ++ '"' :: (vl ++ ['"'])).length - (pl.length + 2)) = vl := by
  have hlen : 0 < vl.length := List.length_pos.2 hv
  have hl : (pl ++ '"' :: (vl ++ ['"'])).length = pl.length + (vl.length + 2) := by
    simp only [List.length_append, List.length_cons, List.length_nil]
  have hlast : (pl ++ '"' :: (vl ++ ['"'])).getLast? = some '"' := by
    have := getLast?_append_cons_singleton pl ('"' :: vl) '"'
    simpa using this
  refine ⟨?_, ?_⟩
  · rw [hl, get?_append_cons, hlast]
    simp
    omega
  · rw [hl]
    have e : pl ++ '"' :: (vl ++ ['"']) = (pl ++ ['"']) ++ (vl ++ ['"']) := by simp
    have e2 : pl.length + 1 = (pl ++ ['"']).length := by simp
    have e3 : pl.length + (vl.length + 2) - (pl.length + 2) = vl.length := by omega
    rw [e, e2, List.drop_left, e3, List.take_left]

theorem quotedArg_render (p v : String) (hv : v.data ≠ []) :
    quotedArg (p ++ "\"" ++ v ++ "\"") p.data.length = some v := by
  have hd : (p ++ "\"" ++ v ++ "\"").data = p.data ++ '"' :: (v.data ++ ['"']) := by
    have hq : ("\"" : String).data = ['"'] := rfl
    simp [String.data_append, hq]
  have h := quoted_list p.data v.data hv
  unfold quotedArg substr
  rw [hd, if_neg h.1, h.2]

theorem hasPrefix_false (s q : String) (c d : Char) (h1 : s.data.get? 1 = some c)
    (h2 : q.data.get? 1 = some d) (hne : c ≠ d) : hasPrefix s q = false := by
  unfold hasPrefix
  rw [decide_eq_false_iff_not]
  intro h
  have hlen : 1 < q.data.length := by
    rcases hq : q.data with _ | ⟨a, _ | ⟨b, r⟩⟩
    · rw [hq] at h2; simp at h2
    · rw [hq] at h2; simp at h2
    · simp
  have : (s.data.take q.data.length).get? 1 = s.data.get? 1 := by
    rw [List.get?_eq_getElem?, List.get?_eq_getElem?, List.getElem?_take_of_lt hlen]
  rw [h, h1, h2] at this
  injection this with this
  exact hne this.symm

theorem render_isbn_data (v : String) :
    (Assign.isbn v).render.data = '-' :: 'I' :: 'S' :: 'B' :: 'N' :: '=' :: v.data := by
  simp [Assign.render, String.data_append]

theorem render_price_data (v : String) :
    (Assign.price v).render.data = '-' :: 'p' :: 'r' :: 'i' :: 'c' :: 'e' :: '=' :: v.data := by
  simp [Assign.render, String.data_append]

theorem render_name_eq (v : String) :
    (Assign.name v).render = ("-name=" : String) ++ "\"" ++ v ++ "\"" := by
  simp only [Assign.render]
  rfl

theorem render_author_eq (v : String) :
    (Assign.author v).render = ("-author=" : String) ++ "\"" ++ v ++ "\"" := by
  simp only [Assign.render]
  rfl

theorem render_keyword_eq (v : String) :
    (Assign.keyword v).render = ("-keyword=" : String) ++ "\"" ++ v ++ "\"" := by
  simp only [Assign.render]
  rfl

theorem hasPrefix_append4 (p a b c : String) : hasPrefix (p ++ a ++ b ++ c) p = true := by
  simp [hasPrefix, String.data_append]

theorem get?_one_append4 (p a b c : String) (x y : Char) (r : List Char)
    (hp : p.data = x :: y :: r) : (p ++ a ++ b ++ c).data.get? 1 = some y := by
  simp [String.data_append, hp]

theorem isValidISBN_ne_nil {v : String} (h : isValidISBN v = true) : v.data ≠ [] :=
  (data_ne_nil_of_valid h).1

theorem isValidBookName_ne_nil {v : String} (h : isValidBookName v = true) : v.data ≠ [] :=
  (data_ne_nil_of_valid h).1

theorem isValidKeyword_ne_nil {v : String} (h : isValidKeyword v = true) : v.data ≠ [] := by
  unfold isValidKeyword at h
  split_ifs at h with h1
  rw [not_or] at h1
  intro e
  exact h1.1 (by rw [e]; rfl)

theorem isEmpty_eq_false {l : List Char} (h : l ≠ []) : l.isEmpty = false := by
  cases l with
  | nil => exact absurd rfl h
  | cons _ _ => rfl

theorem modifyParam_render {D : Type} (F : DoubleOps D) (books : SMap (Book D))
    (selectedISBN : String) (a : ModifyAcc D) (x : Assign)
    (hval : x.valid books selectedISBN) (hfresh : x.flag ∉ a.usedParams) :
    modifyParam F books selectedISBN a x.render = .next (x.step F a) := by
  cases x with
  | isbn v =>
    obtain ⟨hv, hne, hfind⟩ := hval
    rw [Option.isNone_iff_eq_none] at hfind
    have hp : hasPrefix (Assign.isbn v).render "-ISBN=" = true := by
      simp [hasPrefix, render_isbn_data]
    have hs : substrFrom (Assign.isbn v).render 6 = v := by
      apply String.ext
      simp [substrFrom, render_isbn_data]
    have he := isEmpty_eq_false (isValidISBN_ne_nil hv)
    simp only [Assign.flag] at hfresh
    unfold modifyParam
    simp [hp, hs, hfresh, he, hv, hne, hfind, Assign.step]
  | name v =>
    have hne := isValidBookName_ne_nil hval
    have h1 : hasPrefix (Assign.name v).render "-ISBN=" = false := by
      rw [render_name_eq]
      exact hasPrefix_false _ _ 'n' 'I' (get?_one_append4 _ _ _ _ '-' 'n' _ rfl) rfl (by decide)
    have h2 : hasPrefix (Assign.name v).render "-name=" = true := by
      rw [render_name_eq]; exact hasPrefix_append4 _ _ _ _
    have h3 : quotedArg (Assign.name v).render 6 = some v := by
      rw [render_name_eq]; exact quotedArg_render "-name=" v hne
    simp only [Assign.flag] at hfresh
    have hv : isValidBookName v = true := hval
    unfold modifyParam
    simp [h1, h2, h3, hfresh, isEmpty_eq_false hne, hv, Assign.step]
  | author v =>
    have hne := isValidBookName_ne_nil hval
    have h0 : hasPrefix (Assign.author v).render "-ISBN=" = false := by
      rw [render_author_eq]
      exact hasPrefix_false _ _ 'a' 'I' (get?_one_append4 _ _ _ _ '-' 'a' _ rfl) rfl (by decide)
    have h1 : hasPrefix (Assign.author v).render "-name=" = false := by
      rw [render_author_eq]
      exact hasPrefix_false _ _ 'a' 'n' (get?_one_append4 _ _ _ _ '-' 'a' _ rfl) rfl (by decide)
    have h2 : hasPrefix (Assign.author v).render "-author=" = true := by
      rw [render_author_eq]; exact hasPrefix_append4 _ _ _ _
    have h3 : quotedArg (Assign.author v).render 8 = some v := by
      rw [render_author_eq]; exact quotedArg_render "-author=" v hne
    simp only [Assign.flag] at hfresh
    have hv : isValidBookName v = true := hval
    unfold modifyParam
    simp [h0, h1, h2, h3, hfresh, isEmpty_eq_false hne, hv, Assign.step]
  | keyword v =>
    have hne := isValidKeyword_ne_nil hval
    have h0 : hasPrefix (Assign.keyword v).render "-ISBN=" = false := by
      rw [render_keyword_eq]
      exact hasPrefix_false _ _ 'k' 'I' (get?_one_append4 _ _ _ _ '-' 'k' _ rfl) rfl (by decide)
    have h1 : hasPrefix (Assign.keyword v).render "-name=" = false := by
      rw [render_keyword_eq]
      exact hasPrefix_false _ _ 'k' 'n' (get?_one_append4 _ _ _ _ '-' 'k' _ rfl) rfl (by decide)
    have h1' : hasPrefix (Assign.keyword v).render "-author=" = false := by
      rw [render_keyword_eq]
      exact hasPrefix_false _ _ 'k' 'a' (get?_one_append4 _ _ _ _ '-' 'k' _ rfl) rfl (by decide)
    have h2 : hasPrefix (Assign.keyword v).render "-keyword=" = true := by
      rw [render_keyword_eq]; exact hasPrefix_append4 _ _ _ _
    have h3 : quotedArg (Assign.keyword v).render 9 = some v := by
      rw [render_keyword_eq]; exact quotedArg_render "-keyword=" v hne
    simp only [Assign.flag] at hfresh
    have hv : isValidKeyword v = true := hval
    unfold modifyParam
    simp [h0, h1, h1', h2, h3, hfresh, isEmpty_eq_false hne, hv, Assign.step]
  | price v =>
    obtain ⟨hv, hdig⟩ := hval
    have hget : (Assign.price v).render.data.get? 1 = some 'p' := by
      rw [render_price_data]; rfl
    have h0 : hasPrefix (Assign.price v).render "-ISBN=" = false :=
      hasPrefix_false _ _ 'p' 'I' hget rfl (by decide)
    have h1 : hasPrefix (Assign.price v).render "-name=" = false :=
      hasPrefix_false _ _ 'p' 'n' hget rfl (by decide)
    have h2 : hasPrefix (Assign.price v).render "-author=" = false :=
      hasPrefix_false _ _ 'p' 'a' hget rfl (by decide)
    have h3 : hasPrefix (Assign.price v).render "-keyword=" = false :=
      hasPrefix_false _ _ 'p' 'k' hget rfl (by decide)
    have hp : hasPrefix (Assign.price v).render "-price=" = true := by
      simp [hasPrefix, render_price_data]
    have hs : substrFrom (Assign.price v).render 7 = v := by
      apply String.ext
      simp [substrFrom, render_price_data]
    simp only [Assign.flag] at hfresh
    unfold modifyParam
    simp [h0, h1, h2, h3, hp, hs, hfresh, hv, stod, hdig, Assign.step]

theorem step_usedParams {D : Type} (F : DoubleOps D) (a : ModifyAcc D) (x : Assign) :
    (x.step F a).usedParams = x.flag :: a.usedParams := by
  cases x <;> rfl

theorem modifyLoop_render {D : Type} (F : DoubleOps D) (books : SMap (Book D))
    (selectedISBN : String) (as : List Assign) (a : ModifyAcc D)
    (hval : ∀ x ∈ as, x.valid books selectedISBN) (hnd : (as.map Assign.flag).Nodup)
    (hfresh : ∀ x ∈ as, x.flag ∉ a.usedParams) :
    modifyLoop F books selectedISBN a (as.map Assign.render)
      = .next (as.foldl (Assign.step F) a) := by
  induction as generalizing a with
  | nil => rfl
  | cons x xs ih =>
    rw [List.map_cons, List.nodup_cons] at hnd
    simp only [List.map_cons, modifyLoop, List.foldl_cons]
    rw [modifyParam_render F books selectedISBN a x (hval x (List.mem_cons_self _ _))
      (hfresh x (List.mem_cons_self _ _))]
    simp only
    apply ih _ (fun y hy => hval y (List.mem_cons_of_mem _ hy)) hnd.2
    intro y hy
    rw [step_usedParams, List.mem_cons, not_or]
    refine ⟨?_, hfresh y (List.mem_cons_of_mem _ hy)⟩
    intro e
    exact hnd.1 (e ▸ List.mem_map_of_mem _ hy)

theorem supplied_none (flag : String) (as : List Assign) (h : flag ∉ as.map Assign.flag) :
    supplied flag as = none := by
  induction as with
  | nil => rfl
  | cons x xs ih =>
    rw [List.map_cons, List.mem_cons, not_or] at h
    cases x <;> simp only [supplied, Assign.flag] at h ⊢ <;> rw [if_neg h.1] <;> exact ih h.2

theorem supplied_isbn_mem (as : List Assign) (v : String) (h : supplied "-ISBN" as = some v) :
    Assign.isbn v ∈ as := by
  induction as with
  | nil => simp [supplied] at h
  | cons x xs ih =>
    cases x with
    | isbn w =>
      simp only [supplied, if_true] at h
      injection h with h
      subst h
      exact List.mem_cons_self _ _
    | name w => exact List.mem_cons_of_mem _ (ih (by simpa [supplied] using h))
    | author w => exact List.mem_cons_of_mem _ (ih (by simpa [supplied] using h))
    | keyword w => exact List.mem_cons_of_mem _ (ih (by simpa [supplied] using h))
    | price w => exact List.mem_cons_of_mem _ (ih (by simpa [supplied] using h))

theorem foldl_step_eq {D : Type} (F : DoubleOps D) (as : List Assign) (a : ModifyAcc D)
    (hnd : (as.map Assign.flag).Nodup) :
    (as.foldl (Assign.step F) a).book =
      { modifiedBook F a.book as with ISBN := a.book.ISBN } ∧
    (as.foldl (Assign.step F) a).newISBN = (supplied "-ISBN" as).getD a.newISBN := by
  induction as generalizing a with
  | nil => exact ⟨rfl, rfl⟩
  | cons x xs ih =>
    rw [List.map_cons, List.nodup_cons] at hnd
    have hn := supplied_none _ _ hnd.1
    rw [List.foldl_cons]
    obtain ⟨h1, h2⟩ := ih (x.step F a) hnd.2
    rw [h1, h2]
    cases x <;> simp only [Assign.flag] at hn <;>
      simp [modifiedBook, supplied, Assign.step, hn]

theorem data_isEmpty_of_ne {v : String} (h : v ≠ "") : v.data.isEmpty = false := by
  apply isEmpty_eq_false
  intro e
  exact h (String.ext e)

theorem findOrInsert_fst {V : Type} (m : SMap V) (k : String) (d : V) :
    (SMap.findOrInsert m k d).1 = (SMap.find m k).getD d := by
  unfold SMap.findOrInsert
  cases SMap.find m k <;> rfl

theorem findOrInsert_find_self {V : Type} (m : SMap V) (k : String) (d : V) :
    SMap.find (SMap.findOrInsert m k d).2 k = some ((SMap.find m k).getD d) := by
  unfold SMap.findOrInsert
  cases h : SMap.find m k with
  | none => exact SMap.find_insert_self m k d
  | some v => simpa using h

theorem findOrInsert_find_ne {V : Type} (m : SMap V) {k k' : String} (d : V) (h : k ≠ k') :
    SMap.find (SMap.findOrInsert m k d).2 k' = SMap.find m k' := by
  unfold SMap.findOrInsert
  cases SMap.find m k with
  | none => exact SMap.find_insert_ne m d h
  | some v => rfl

theorem Assign.valid_of_find_eq {D : Type} {books books' : SMap (Book D)} {sel : String}
    {x : Assign} (h : x.valid books sel)
    (hfind : ∀ k, k ≠ sel → SMap.find books' k = SMap.find books k) : x.valid books' sel := by
  cases x with
  | isbn v =>
    obtain ⟨h1, h2, h3⟩ := h
    exact ⟨h1, h2, by rw [hfind v h2]; exact h3⟩
  | name v => exact h
  | author v => exact h
  | keyword v => exact h
  | price v => exact h

/-- C6: in every state with effective privilege at least 3 whose top frame
selects `S` (non-empty), for every non-empty list of assignments that are all
valid and carry no flag twice, `modify` with their parameter texts succeeds
(prints nothing), and afterwards, `b0` being the book formerly stored under `S`
(the blank book of the copy `books[S]` if that key was missing): the key `N`
of a supplied `-ISBN=N`, or else `S`, holds `b0` with each supplied field
replaced by the supplied value and every other field and the quantity
unchanged (the ISBN field is `N` when supplied); when an ISBN was supplied the
key `S` no longer exists; every other book is unchanged; the top frame's
selection is that key; accounts and ledger are unchanged.
An assignment is valid when its value passes the validator of its field; a new
ISBN also differs from `S` and is not the key of a book, and a price also
contains a digit, so that it denotes a number. -/
theorem modify_applies_assignments {D : Type} (F : DoubleOps D) (s : State D)
    (top : LoginSession) (rest : List LoginSession) (as : List Assign)
    (hp : curPriv s ≥ 3) (hst : s.loginStack = top :: rest)
    (hsel : top.selectedISBN ≠ "") (hne : as ≠ [])
    (hval : ∀ x ∈ as, x.valid s.books top.selectedISBN)
    (hnd : (as.map Assign.flag).Nodup) :
    ∃ s' : State D,
      cmdModify F s (as.map Assign.render) = .ok s' "" ∧
      s'.books.find ((supplied "-ISBN" as).getD top.selectedISBN)
        = some (modifiedBook F ((s.books.find top.selectedISBN).getD (Book.blank F)) as) ∧
      (∀ newISBN, supplied "-ISBN" as = some newISBN →
        s'.books.find top.selectedISBN = none) ∧
      (∀ k, k ≠ top.selectedISBN → k ≠ (supplied "-ISBN" as).getD top.selectedISBN →
        s'.books.find k = s.books.find k) ∧
      s'.loginStack =
        { top with selectedISBN := (supplied "-ISBN" as).getD top.selectedISBN } :: rest ∧
      s'.accounts = s.accounts ∧ s'.transactions = s.transactions := by
  have hg := getCurrentPrivilege_of_ne_zero (s := s) (by omega)
  have hlt : ¬ curPriv s < 3 := by omega
  have hpne : (as.map Assign.render).isEmpty = false := by
    cases as with
    | nil => exact absurd rfl hne
    | cons _ _ => rfl
  obtain ⟨b0, hb0⟩ : ∃ b0, b0 = (s.books.find top.selectedISBN).getD (Book.blank F) := ⟨_, rfl⟩
  obtain ⟨books1, hbooks1⟩ : ∃ books1,
      books1 = (SMap.findOrInsert s.books top.selectedISBN (Book.blank F)).2 := ⟨_, rfl⟩
  have hc1 : (SMap.findOrInsert s.books top.selectedISBN (Book.blank F)).1 = b0 := by
    rw [hb0]; exact findOrInsert_fst _ _ _
  have hfne : ∀ k, k ≠ top.selectedISBN → SMap.find books1 k = SMap.find s.books k := by
    intro k hk
    rw [hbooks1]
    exact findOrInsert_find_ne _ _ (Ne.symm hk)
  have hval1 : ∀ x ∈ as, x.valid books1 top.selectedISBN :=
    fun x hx => Assign.valid_of_find_eq (hval x hx) hfne
  obtain ⟨r, hr⟩ : ∃ r, r = as.foldl (Assign.step F)
      { book := b0, usedParams := [], newISBN := "" } := ⟨_, rfl⟩
  have hloop := modifyLoop_render F books1 top.selectedISBN as
    { book := b0, usedParams := [], newISBN := "" } hval1 hnd (fun _ _ => List.not_mem_nil _)
  obtain ⟨hbook, hnew⟩ := foldl_step_eq F as
    { book := b0, usedParams := [], newISBN := "" } hnd
  rw [← hr] at hloop hbook hnew
  have hcmd : cmdModify F s (as.map Assign.render) =
      if ¬ r.newISBN.data.isEmpty then
        .ok { s with
              books := (books1.erase top.selectedISBN).insert r.newISBN
                         { r.book with ISBN := r.newISBN },
              loginStack := { top with selectedISBN := r.newISBN } :: rest } ""
      else
        .ok { s with books := books1.insert top.selectedISBN r.book } "" := by
    unfold cmdModify
    simp only [hg, hlt, if_false, hst, data_isEmpty_of_ne hsel, hpne, Bool.false_eq_true,
      hc1, ← hbooks1, hloop]
  rw [hcmd, hbook, hnew]
  cases hsup : supplied "-ISBN" as with
  | none =>
    have he : ("" : String).data.isEmpty = true := rfl
    simp only [Option.getD_none, he, not_true_eq_false, if_false]
    refine ⟨_, rfl, ?_, ?_, ?_, ?_, rfl, rfl⟩
    · simp only
      rw [SMap.find_insert_self]
      simp [modifiedBook, hsup, ← hb0]
    · intro n hn; cases hn
    · intro k hk _
      simp only
      rw [SMap.find_insert_ne _ _ (Ne.symm hk), hfne k hk]
    · simp [hst]
  | some n =>
    obtain ⟨hv, hns, hfind⟩ := hval _ (supplied_isbn_mem as n hsup)
    have he := isEmpty_eq_false (isValidISBN_ne_nil hv)
    simp only [Option.getD_some, he, Bool.false_eq_true, not_false_eq_true, if_true]
    refine ⟨_, rfl, ?_, ?_, ?_, rfl, rfl, rfl⟩
    · simp only
      rw [SMap.find_insert_self]
      simp [modifiedBook, hsup, ← hb0]
    · intro _ _
      simp only
      rw [SMap.find_insert_ne _ _ hns, SMap.find_erase_self]
    · intro k hk hkn
      simp only
      rw [SMap.find_insert_ne _ _ (Ne.symm hkn), SMap.find_erase_ne _ (Ne.symm hk), hfne k hk]

/-- Witness for C6: with `root` logged in and the blank book `A` selected,
`modify -name="Book" -ISBN=B -price=12.50` stores the book under `B` with the
new name and price, removes the key `A` and selects `B`. -/
theorem modify_applies_assignments_witness :
    ∃ s' : State Decimal,
      cmdModify exactOps selectedA ["-name=\"Book\"", "-ISBN=B", "-price=12.50"] = .ok s' "" ∧
      s'.books.find "B" = some
        { ISBN := "B", bookName := "Book", author := "", keyword := "",
          price := { mant := 1250, scale := 2 }, quantity := 0 } ∧
      s'.books.find "A" = none ∧
      s'.loginStack = [{ userID := "root", selectedISBN := "B" }] := by
  obtain ⟨s', h1, h2, h3, _, h5, _⟩ := modify_applies_assignments exactOps selectedA
    { userID := "root", selectedISBN := "A" } []
    [Assign.name "Book", Assign.isbn "B", Assign.price "12.50"]
    (by decide) rfl (by decide) (by decide) (by decide) (by decide)
  exact ⟨s', h1, h2, h3 "B" rfl, h5⟩

/-! ## What each handler leaves unchanged, in every state -/

theorem getCurrentPrivilege_frame {D : Type} (s : State D) :
    (getCurrentPrivilege s).2.books = s.books ∧
    (getCurrentPrivilege s).2.transactions = s.transactions ∧
    (getCurrentPrivilege s).2.loginStack = s.loginStack := by
  unfold getCurrentPrivilege
  split
  · exact ⟨rfl, rfl, rfl⟩
  · split <;> exact ⟨rfl, rfl, rfl⟩

theorem cmdRegister_frame {D : Type} {s s' : State D} {params : List String} {out : String}
    (he : cmdRegister s params = .ok s' out) :
    s'.books = s.books ∧ s'.transactions = s.transactions ∧ s'.loginStack = s.loginStack := by
  unfold cmdRegister at he
  simp only [invalid] at he
  repeat' split at he
  all_goals (injection he with h1 h2; subst h1; exact ⟨rfl, rfl, rfl⟩)

theorem cmdPasswd_frame {D : Type} {s s' : State D} {params : List String} {out : String}
    (he : cmdPasswd s params = .ok s' out) :
    s'.books = s.books ∧ s'.transactions = s.transactions ∧ s'.loginStack = s.loginStack := by
  unfold cmdPasswd at he
  have h1 := getCurrentPrivilege_frame s
  have h2 := getCurrentPrivilege_frame (getCurrentPrivilege s).2
  simp only [invalid] at he
  repeat' split at he
  all_goals (injection he with e1 e2; subst e1; simp only [h1, h2, and_self])

theorem cmdUseradd_frame {D : Type} {s s' : State D} {params : List String} {out : String}
    (he : cmdUseradd s params = .ok s' out) :
    s'.books = s.books ∧ s'.transactions = s.transactions ∧ s'.loginStack = s.loginStack := by
  unfold cmdUseradd at he
  have h1 := getCurrentPrivilege_frame s
  have h2 := getCurrentPrivilege_frame (getCurrentPrivilege s).2
  simp only [invalid] at he
  repeat' split at he
  all_goals (injection he with e1 e2; subst e1; simp only [h1, h2, and_self])

theorem cmdDelete_frame {D : Type} {s s' : State D} {params : List String} {out : String}
    (he : cmdDelete s params = .ok s' out) :
    s'.books = s.books ∧ s'.transactions = s.transactions ∧ s'.loginStack = s.loginStack := by
  unfold cmdDelete at he
  have h1 := getCurrentPrivilege_frame s
  simp only [invalid] at he
  repeat' split at he
  all_goals (injection he with e1 e2; subst e1; simp only [h1, and_self])

theorem cmdShow_frame {D : Type} (F : DoubleOps D) {s s' : State D} {params : List String}
    {out : String} (he : cmdShow F s params = .ok s' out) :
    s'.books = s.books ∧ s'.transactions = s.transactions ∧ s'.loginStack = s.loginStack := by
  unfold cmdShow showResults at he
  have h1 := getCurrentPrivilege_frame s
  simp only [invalid] at he
  repeat' split at he
  all_goals (injection he with e1 e2; subst e1; simp only [h1, and_self])

theorem cmdShowFinance_frame {D : Type} (F : DoubleOps D) {s s' : State D}
    {params : List String} {out : String} (he : cmdShowFinance F s params = .ok s' out) :
    s'.books = s.books ∧ s'.transactions = s.transactions ∧ s'.loginStack = s.loginStack := by
  unfold cmdShowFinance financeSummary at he
  have h1 := getCurrentPrivilege_frame s
  simp only [invalid] at he
  repeat' split at he
  all_goals (injection he with e1 e2; subst e1; simp only [h1, and_self])

theorem cmdLog_frame {D : Type} {s s' : State D} {out : String} (he : cmdLog s = .ok s' out) :
    s'.books = s.books ∧ s'.transactions = s.transactions ∧ s'.loginStack = s.loginStack := by
  unfold cmdLog at he
  have h1 := getCurrentPrivilege_frame s
  simp only [invalid] at he
  repeat' split at he
  all_goals (injection he with e1 e2; subst e1; simp only [h1, and_self])

theorem cmdReportFinance_frame {D : Type} (F : DoubleOps D) {s s' : State D} {out : String}
    (he : cmdReportFinance F s = .ok s' out) :
    s'.books = s.books ∧ s'.transactions = s.transactions ∧ s'.loginStack = s.loginStack := by
  unfold cmdReportFinance at he
  have h1 := getCurrentPrivilege_frame s
  simp only [invalid] at he
  repeat' split at he
  all_goals (injection he with e1 e2; subst e1; simp only [h1, and_self])

theorem cmdReportEmployee_frame {D : Type} {s s' : State D} {out : String}
    (he : cmdReportEmployee s = .ok s' out) :
    s'.books = s.books ∧ s'.transactions = s.transactions ∧ s'.loginStack = s.loginStack := by
  unfold cmdReportEmployee at he
  have h1 := getCurrentPrivilege_frame s
  simp only [invalid] at he
  repeat' split at he
  all_goals (injection he with e1 e2; subst e1; simp only [h1, and_self])

theorem cmdSu_frame {D : Type} {s s' : State D} {params : List String} {out : String}
    (he : cmdSu s params = .ok s' out) :
    s'.books = s.books ∧ s'.transactions = s.transactions ∧
    ((s'.loginStack = s.loginStack ∧ out = "Invalid\n") ∨
      (∃ userID, s'.loginStack = { userID := userID, selectedISBN := "" } :: s.loginStack ∧
        out = "")) := by
  unfold cmdSu at he
  have h1 := getCurrentPrivilege_frame s
  simp only [invalid] at he
  repeat' split at he
  all_goals (injection he with e1 e2; subst e1; subst e2)
  all_goals first
    | exact ⟨rfl, rfl, Or.inl ⟨rfl, rfl⟩⟩
    | exact ⟨h1.1, h1.2.1, Or.inl ⟨h1.2.2, rfl⟩⟩
    | exact ⟨h1.1, h1.2.1, Or.inr ⟨_, by rw [← h1.2.2], rfl⟩⟩

theorem cmdLogout_frame {D : Type} {s s' : State D} {out : String}
    (he : cmdLogout s = .ok s' out) :
    s'.books = s.books ∧ s'.transactions = s.transactions ∧
    ((s'.loginStack = s.loginStack ∧ out = "Invalid\n") ∨
      (s'.loginStack = s.loginStack.tail ∧ out = "")) := by
  unfold cmdLogout at he
  have h1 := getCurrentPrivilege_frame s
  simp only [invalid] at he
  repeat' split at he
  all_goals (injection he with e1 e2; subst e1; subst e2)
  all_goals first
    | exact ⟨h1.1, h1.2.1, Or.inl ⟨h1.2.2, rfl⟩⟩
    | exact ⟨h1.1, h1.2.1, Or.inr ⟨by rw [← h1.2.2], rfl⟩⟩

theorem cmdBuy_frame {D : Type} (F : DoubleOps D) {s s' : State D} {params : List String}
    {out : String} (he : cmdBuy F s params = .ok s' out) :
    s'.loginStack = s.loginStack ∧
    ((s'.books = s.books ∧ s'.transactions = s.transactions ∧ out = "Invalid\n") ∨
      (∃ t : Transaction D, t.isIncome = true ∧ s'.transactions = s.transactions ++ [t] ∧
        out = F.fixed2 t.amount ++ "\n")) := by
  unfold cmdBuy at he
  have h1 := getCurrentPrivilege_frame s
  simp only [invalid] at he
  repeat' split at he
  all_goals (injection he with e1 e2; subst e1; subst e2)
  all_goals first
    | exact ⟨h1.2.2, Or.inl ⟨h1.1, h1.2.1, rfl⟩⟩
    | exact ⟨h1.2.2, Or.inr ⟨_, rfl, by rw [← h1.2.1], rfl⟩⟩

theorem cmdImport_frame {D : Type} (F : DoubleOps D) {s s' : State D} {params : List String}
    {out : String} (he : cmdImport F s params = .ok s' out) :
    s'.loginStack = s.loginStack ∧
    ((s'.books = s.books ∧ s'.transactions = s.transactions ∧ out = "Invalid\n") ∨
      (∃ t : Transaction D, t.isIncome = false ∧ s'.transactions = s.transactions ++ [t] ∧
        out = "")) := by
  unfold cmdImport at he
  have h1 := getCurrentPrivilege_frame s
  simp only [invalid] at he
  repeat' split at he
  all_goals first
    | (injection he with e1 e2; subst e1; subst e2
       first
        | exact ⟨h1.2.2, Or.inl ⟨h1.1, h1.2.1, rfl⟩⟩
        | exact ⟨h1.2.2, Or.inr ⟨_, rfl, by rw [← h1.2.1], rfl⟩⟩)
    | cases he

theorem cmdSelect_frame {D : Type} (F : DoubleOps D) {s s' : State D} {params : List String}
    {out : String} (he : cmdSelect F s params = .ok s' out) :
    s'.transactions = s.transactions ∧
    ((s'.books = s.books ∧ s'.loginStack = s.loginStack ∧ out = "Invalid\n") ∨
      (∃ isbn, isValidISBN isbn = true ∧ s'.loginStack = setSelection s.loginStack isbn ∧
        out = "")) := by
  unfold cmdSelect at he
  have h1 := getCurrentPrivilege_frame s
  simp only [invalid] at he
  repeat' split at he
  all_goals (injection he with e1 e2; subst e1; subst e2)
  all_goals first
    | exact ⟨h1.2.1, Or.inl ⟨h1.1, h1.2.2, rfl⟩⟩
    | exact ⟨h1.2.1, Or.inr ⟨_, by simpa using ‹¬¬isValidISBN _ = true›, by rw [← h1.2.2], rfl⟩⟩

theorem cmdModify_frame {D : Type} (F : DoubleOps D) {s s' : State D} {params : List String}
    {out : String} (he : cmdModify F s params = .ok s' out) :
    s'.transactions = s.transactions ∧
    ((s'.loginStack = s.loginStack ∧ out = "Invalid\n") ∨
      (s'.loginStack = s.loginStack ∧ out = "") ∨
      (∃ top rest isbn, s.loginStack = top :: rest ∧
        s'.loginStack = { top with selectedISBN := isbn } :: rest ∧ out = "")) := by
  unfold cmdModify at he
  have h1 := getCurrentPrivilege_frame s
  simp only [invalid] at he
  repeat' split at he
  all_goals first
    | (injection he with e1 e2; subst e1; subst e2
       first
        | exact ⟨h1.2.1, Or.inl ⟨h1.2.2, rfl⟩⟩
        | exact ⟨h1.2.1, Or.inr (Or.inl ⟨h1.2.2, rfl⟩)⟩
        | exact ⟨h1.2.1, Or.inr (Or.inr ⟨_, _, _, by rw [← h1.2.2]; assumption, rfl, rfl⟩)⟩)
    | cases he

/-! ## Case analysis of the main loop -/

theorem dispatch_cases {D : Type} (F : DoubleOps D) (s : State D) (cmd : String)
    (params : List String) (P : Outcome D → Prop)
    (hquit : cmd = "quit" ∨ cmd = "exit" → P .quit)
    (hsu : cmd = "su" → P (cmdSu s params))
    (hlogout : cmd = "logout" → P (cmdLogout s))
    (hregister : cmd = "register" → P (cmdRegister s params))
    (hpasswd : cmd = "passwd" → P (cmdPasswd s params))
    (huseradd : cmd = "useradd" → P (cmdUseradd s params))
    (hdelete : cmd = "delete" → P (cmdDelete s params))
    (hshowfin : cmd = "show" → params.head? = some "finance" →
      P (cmdShowFinance F s params.tail))
    (hshow : cmd = "show" → params.head? ≠ some "finance" → P (cmdShow F s params))
    (hbuy : cmd = "buy" → P (cmdBuy F s params))
    (hselect : cmd = "select" → P (cmdSelect F s params))
    (hmodify : cmd = "modify" → P (cmdModify F s params))
    (himport : cmd = "import" → P (cmdImport F s params))
    (hlog : cmd = "log" → P (cmdLog s))
    (hrepfin : cmd = "report" → params = ["finance"] → P (cmdReportFinance F s))
    (hrepemp : cmd = "report" → params = ["employee"] → P (cmdReportEmployee s))
    (hinv : cmd ≠ "su" → cmd ≠ "register" → P (invalid s)) :
    P (dispatch F s cmd params) := by
  unfold dispatch
  by_cases c0 : cmd = "quit" ∨ cmd = "exit"
  · rw [if_pos c0]; exact hquit c0
  rw [if_neg c0]
  by_cases c1 : cmd = "su"
  · rw [if_pos c1]; exact hsu c1
  rw [if_neg c1]
  by_cases c2 : cmd = "logout"
  · rw [if_pos c2]; exact hlogout c2
  rw [if_neg c2]
  by_cases c3 : cmd = "register"
  · rw [if_pos c3]; exact hregister c3
  rw [if_neg c3]
  by_cases c4 : cmd = "passwd"
  · rw [if_pos c4]; exact hpasswd c4
  rw [if_neg c4]
  by_cases c5 : cmd = "useradd"
  · rw [if_pos c5]; exact huseradd c5
  rw [if_neg c5]
  by_cases c6 : cmd = "delete"
  · rw [if_pos c6]; exact hdelete c6
  rw [if_neg c6]
  by_cases c7 : cmd = "show"
  · rw [if_pos c7]
    by_cases c7' : params.head? = some "finance"
    · rw [if_pos c7']; exact hshowfin c7 c7'
    · rw [if_neg c7']; exact hshow c7 c7'
  rw [if_neg c7]
  by_cases c8 : cmd = "buy"
  · rw [if_pos c8]; exact hbuy c8
  rw [if_neg c8]
  by_cases c9 : cmd = "select"
  · rw [if_pos c9]; exact hselect c9
  rw [if_neg c9]
  by_cases c10 : cmd = "modify"
  · rw [if_pos c10]; exact hmodify c10
  rw [if_neg c10]
  by_cases c11 : cmd = "import"
  · rw [if_pos c11]; exact himport c11
  rw [if_neg c11]
  by_cases c12 : cmd = "log"
  · rw [if_pos c12]; exact hlog c12
  rw [if_neg c12]
  by_cases c13 : cmd = "report"
  · rw [if_pos c13]
    split
    · rename_i p
      split_ifs with hp1 hp2
      · exact hrepfin c13 (by rw [hp1])
      · exact hrepemp c13 (by rw [hp2])
      · exact hinv c1 c3
    · exact hinv c1 c3
  rw [if_neg c13]
  exact hinv c1 c3

theorem execLine_cases {D : Type} (F : DoubleOps D) (s : State D) (line : String)
    (P : Outcome D → Prop) (hskip : tokenize (trim line.data) = [] → P (.ok s ""))
    (hdisp : ∀ cmd params, tokenize (trim line.data) = cmd :: params →
      P (dispatch F s cmd params)) :
    P (execLine F s line) := by
  unfold execLine
  simp only
  split
  · rename_i h
    apply hskip
    cases ht : trim line.data with
    | nil => rfl
    | cons c cs => rw [ht] at h; cases h
  · split
    · rename_i h
      exact hskip h
    · rename_i cmd params h
      exact hdisp cmd params h

/-! ## How one command changes the login stack and the accounts -/

theorem append_singleton_ne_self {α : Type} (l : List α) (t : α) : l ++ [t] ≠ l := by
  intro h
  have := congrArg List.length h
  simp at this

theorem setSelection_step (stack : List LoginSession) (isbn : String) :
    StackStep stack (setSelection stack isbn) := by
  cases stack with
  | nil => exact Or.inl rfl
  | cons top rest => exact Or.inr (Or.inr (Or.inr ⟨top, rest, isbn, rfl, rfl⟩))

theorem execLine_stackStep {D : Type} (F : DoubleOps D) (s s' : State D) (line out : String)
    (he : execLine F s line = .ok s' out) : StackStep s.loginStack s'.loginStack := by
  revert he
  refine execLine_cases F s line (fun o => o = .ok s' out → _) ?_ ?_
  · intro _ h
    injection h with h1 _
    subst h1
    exact Or.inl rfl
  · intro cmd params _
    refine dispatch_cases F s cmd params (fun o => o = .ok s' out → _)
      ?_ ?_ ?_ ?_ ?_ ?_ ?_ ?_ ?_ ?_ ?_ ?_ ?_ ?_ ?_ ?_ ?_
    · intro _ h; cases h
    · intro _ h
      rcases (cmdSu_frame h).2.2 with ⟨h1, _⟩ | ⟨u, h1, _⟩
      · exact Or.inl h1
      · exact Or.inr (Or.inl ⟨u, h1⟩)
    · intro _ h
      rcases (cmdLogout_frame h).2.2 with ⟨h1, _⟩ | ⟨h1, _⟩
      · exact Or.inl h1
      · exact Or.inr (Or.inr (Or.inl h1))
    · intro _ h; exact Or.inl (cmdRegister_frame h).2.2
    · intro _ h; exact Or.inl (cmdPasswd_frame h).2.2
    · intro _ h; exact Or.inl (cmdUseradd_frame h).2.2
    · intro _ h; exact Or.inl (cmdDelete_frame h).2.2
    · intro _ _ h; exact Or.inl (cmdShowFinance_frame F h).2.2
    · intro _ _ h; exact Or.inl (cmdShow_frame F h).2.2
    · intro _ h; exact Or.inl (cmdBuy_frame F h).1
    · intro _ h
      rcases (cmdSelect_frame F h).2 with ⟨_, h1, _⟩ | ⟨isbn, _, h1, _⟩
      · exact Or.inl h1
      · rw [h1]; exact setSelection_step _ _
    · intro _ h
      rcases (cmdModify_frame F h).2 with ⟨h1, _⟩ | ⟨h1, _⟩ | ⟨top, rest, isbn, h0, h1, _⟩
      · exact Or.inl h1
      · exact Or.inl h1
      · exact Or.inr (Or.inr (Or.inr ⟨top, rest, isbn, h0, h1⟩))
    · intro _ h; exact Or.inl (cmdImport_frame F h).1
    · intro _ h; exact Or.inl (cmdLog_frame h).2.2
    · intro _ _ h; exact Or.inl (cmdReportFinance_frame F h).2.2
    · intro _ _ h; exact Or.inl (cmdReportEmployee_frame h).2.2
    · intro _ _ h
      injection h with h1 _
      subst h1
      exact Or.inl rfl

theorem runLines_cons_ok {D : Type} (F : DoubleOps D) {s s' : State D} {line o : String}
    (out : String) (rest : List String) (h : execLine F s line = .ok s' o) :
    runLines F s out (line :: rest) = runLines F s' (out ++ o) rest := by
  rw [runLines, h]

theorem cmdSu_accounts {D : Type} {s s' : State D} {params : List String} {out : String}
    (h : StackOK s) (he : cmdSu s params = .ok s' out) : s'.accounts = s.accounts := by
  unfold cmdSu at he
  rw [getCurrentPrivilege_eq h] at he
  simp only [invalid] at he
  repeat' split at he
  all_goals (injection he with e1 e2; subst e1; rfl)

theorem cmdLogout_accounts {D : Type} {s s' : State D} {out : String}
    (h : StackOK s) (he : cmdLogout s = .ok s' out) : s'.accounts = s.accounts := by
  unfold cmdLogout at he
  rw [getCurrentPrivilege_eq h] at he
  simp only [invalid] at he
  repeat' split at he
  all_goals (injection he with e1 e2; subst e1; rfl)

theorem cmdRegister_accounts {D : Type} {s s' : State D} {params : List String} {out : String}
    (he : cmdRegister s params = .ok s' out) : AccountsStep s s'.accounts := by
  unfold cmdRegister at he
  simp only [invalid] at he
  repeat' split at he
  all_goals (injection he with e1 e2; subst e1)
  all_goals first
    | exact Or.inl rfl
    | (refine Or.inr (Or.inl ⟨_, _, ?_, ?_, ?_, rfl⟩)
       · have hn := ‹¬(SMap.find s.accounts _).isSome = true›
         simpa using hn
       · rfl
       · exact Or.inl rfl)

theorem cmdPasswd_accounts {D : Type} {s s' : State D} {params : List String} {out : String}
    (h : StackOK s) (he : cmdPasswd s params = .ok s' out) : AccountsStep s s'.accounts := by
  unfold cmdPasswd at he
  simp only [getCurrentPrivilege_eq h, invalid] at he
  repeat' split at he
  all_goals (injection he with e1 e2; subst e1)
  all_goals first
    | exact Or.inl rfl
    | exact Or.inr (Or.inr (Or.inl ⟨_, _, _, ‹SMap.find s.accounts _ = some _›, rfl⟩))

theorem cmdUseradd_accounts {D : Type} {s s' : State D} {params : List String} {out : String}
    (h : StackOK s) (he : cmdUseradd s params = .ok s' out) : AccountsStep s s'.accounts := by
  unfold cmdUseradd at he
  simp only [getCurrentPrivilege_eq h, invalid] at he
  repeat' split at he
  all_goals (injection he with e1 e2; subst e1)
  all_goals first
    | exact Or.inl rfl
    | (refine Or.inr (Or.inl ⟨_, _, ?_, ?_, ?_, rfl⟩)
       · have hn := ‹¬(SMap.find s.accounts _).isSome = true›
         simpa using hn
       · rfl
       · have h1 := ‹¬(_ ≠ (1 : Int) ∧ _ ≠ (3 : Int) ∧ _ ≠ (7 : Int))›
         have h2 := ‹¬(_ ≥ curPriv s)›
         simp only
         omega)

theorem cmdDelete_accounts {D : Type} {s s' : State D} {params : List String} {out : String}
    (h : StackOK s) (he : cmdDelete s params = .ok s' out) : AccountsStep s s'.accounts := by
  unfold cmdDelete at he
  simp only [getCurrentPrivilege_eq h, invalid] at he
  repeat' split at he
  all_goals (injection he with e1 e2; subst e1)
  all_goals first
    | exact Or.inl rfl
    | (refine Or.inr (Or.inr (Or.inr ⟨_, ?_, ?_, rfl⟩))
       · have hany := ‹¬(s.loginStack.any _) = true›
         intro fr hfr e
         apply hany
         rw [List.any_eq_true]
         exact ⟨fr, hfr, decide_eq_true e⟩
       · have h7 := ‹¬curPriv s < 7›
         omega)

theorem dispatch_accountsStep {D : Type} (F : DoubleOps D) (s s' : State D) (cmd : String)
    (params : List String) (out : String) (h : StackOK s)
    (he : dispatch F s cmd params = .ok s' out) : AccountsStep s s'.accounts := by
  revert he
  refine dispatch_cases F s cmd params
    (fun o => o = .ok s' out → AccountsStep s s'.accounts)
    ?_ ?_ ?_ ?_ ?_ ?_ ?_ ?_ ?_ ?_ ?_ ?_ ?_ ?_ ?_ ?_ ?_
  · intro _ he; cases he
  · intro _ he; exact Or.inl (cmdSu_accounts h he)
  · intro _ he; exact Or.inl (cmdLogout_accounts h he)
  · intro _ he; exact cmdRegister_accounts he
  · intro _ he; exact cmdPasswd_accounts h he
  · intro _ he; exact cmdUseradd_accounts h he
  · intro _ he; exact cmdDelete_accounts h he
  · intro _ _ he; exact Or.inl (by rw [cmdShowFinance_state F h he])
  · intro _ _ he; exact Or.inl (by rw [cmdShow_state F h he])
  · intro _ he; exact Or.inl (cmdBuy_users F h he).1
  · intro _ he; exact Or.inl (cmdSelect_users F h he).1
  · intro _ he; exact Or.inl (cmdModify_users F h he).1
  · intro _ he; exact Or.inl (cmdImport_users F h he).1
  · intro _ he; exact Or.inl (by rw [cmdLog_state h he])
  · intro _ _ he; exact Or.inl (by rw [cmdReportFinance_state F h he])
  · intro _ _ he; exact Or.inl (by rw [cmdReportEmployee_state h he])
  · intro _ _ he; injection he with e1 e2; subst e1; exact Or.inl rfl

theorem execLine_accountsStep {D : Type} (F : DoubleOps D) (s s' : State D)
    (line out : String) (h : StackOK s) (he : execLine F s line = .ok s' out) :
    AccountsStep s s'.accounts := by
  revert he
  refine execLine_cases F s line (fun o => o = .ok s' out → AccountsStep s s'.accounts) ?_ ?_
  · intro _ he; injection he with e1 e2; subst e1; exact Or.inl rfl
  · intro cmd params _ he; exact dispatch_accountsStep F s s' cmd params out h he

theorem curPriv_le_seven {D : Type} {s : State D} (h : PrivOK s) : curPriv s ≤ 7 := by
  unfold curPriv getCurrentPrivilege
  cases hs : s.loginStack with
  | nil => simp
  | cons top rest =>
    cases hf : s.accounts.find top.userID with
    | none => simp [hf]
    | some acc =>
      simp only [hf]
      rcases h _ _ hf with h1 | h1 | h1 <;> omega

theorem PrivOK.step {D : Type} {s : State D} {accounts' : SMap Account} (h : PrivOK s)
    (hs : AccountsStep s accounts') (s' : State D) (e : s'.accounts = accounts') :
    PrivOK s' := by
  intro k acc hf
  rw [e] at hf
  rcases hs with hs | ⟨u, a, _, _, hp, hs⟩ | ⟨u, a, pw, hfu, hs⟩ | ⟨u, _, _, hs⟩
  · rw [hs] at hf; exact h k acc hf
  · rw [hs] at hf
    by_cases hk : u = k
    · subst hk
      rw [SMap.find_insert_self] at hf
      injection hf with hf; subst hf
      have := curPriv_le_seven h
      omega
    · rw [SMap.find_insert_ne _ _ hk] at hf; exact h k acc hf
  · rw [hs] at hf
    by_cases hk : u = k
    · subst hk
      rw [SMap.find_insert_self] at hf
      injection hf with hf; subst hf
      exact h _ a hfu
    · rw [SMap.find_insert_ne _ _ hk] at hf; exact h k acc hf
  · rw [hs] at hf
    by_cases hk : u = k
    · subst hk
      rw [SMap.find_erase_self] at hf; cases hf
    · rw [SMap.find_erase_ne _ hk] at hf; exact h k acc hf

theorem initState_privOK (D : Type) : PrivOK (initState D) := by
  intro k acc hf
  simp only [initState, SMap.insert, SMap.find] at hf
  split at hf
  · injection hf with hf
    subst hf
    exact Or.inr (Or.inr rfl)
  · exact absurd hf (by simp)

theorem Reachable.privOK {D : Type} {F : DoubleOps D} {s : State D} (h : Reachable F s) :
    PrivOK s := by
  induction h with
  | init => exact initState_privOK D
  | step hr he ih => exact ih.step (execLine_accountsStep F _ _ _ _ hr.inv.1 he) _ rfl

/-! ## Privilege checks (C20) -/

theorem cmdLogout_low {D : Type} {s : State D} (h : StackOK s) (hlt : curPriv s < 1) :
    cmdLogout s = invalid s := by
  unfold cmdLogout
  rw [getCurrentPrivilege_eq h]
  exact if_pos hlt

theorem cmdPasswd_low {D : Type} {s : State D} (params : List String) (h : StackOK s)
    (hlt : curPriv s < 1) : cmdPasswd s params = invalid s := by
  unfold cmdPasswd
  rw [getCurrentPrivilege_eq h]
  exact if_pos hlt

theorem cmdUseradd_low {D : Type} {s : State D} (params : List String) (h : StackOK s)
    (hlt : curPriv s < 3) : cmdUseradd s params = invalid s := by
  unfold cmdUseradd
  rw [getCurrentPrivilege_eq h]
  exact if_pos hlt

theorem cmdDelete_low {D : Type} {s : State D} (params : List String) (h : StackOK s)
    (hlt : curPriv s < 7) : cmdDelete s params = invalid s := by
  unfold cmdDelete
  rw [getCurrentPrivilege_eq h]
  exact if_pos hlt

theorem cmdShow_low {D : Type} (F : DoubleOps D) {s : State D} (params : List String)
    (h : StackOK s) (hlt : curPriv s < 1) : cmdShow F s params = invalid s := by
  unfold cmdShow
  rw [getCurrentPrivilege_eq h]
  exact if_pos hlt

theorem cmdShowFinance_low {D : Type} (F : DoubleOps D) {s : State D} (params : List String)
    (h : StackOK s) (hlt : curPriv s < 7) : cmdShowFinance F s params = invalid s := by
  unfold cmdShowFinance
  rw [getCurrentPrivilege_eq h]
  exact if_pos hlt

theorem cmdBuy_low {D : Type} (F : DoubleOps D) {s : State D} (params : List String)
    (h : StackOK s) (hlt : curPriv s < 1) : cmdBuy F s params = invalid s := by
  unfold cmdBuy
  rw [getCurrentPrivilege_eq h]
  exact if_pos hlt

theorem cmdSelect_low {D : Type} (F : DoubleOps D) {s : State D} (params : List String)
    (h : StackOK s) (hlt : curPriv s < 3) : cmdSelect F s params = invalid s := by
  unfold cmdSelect
  rw [getCurrentPrivilege_eq h]
  exact if_pos hlt

theorem cmdModify_low {D : Type} (F : DoubleOps D) {s : State D} (params : List String)
    (h : StackOK s) (hlt : curPriv s < 3) : cmdModify F s params = invalid s := by
  unfold cmdModify
  rw [getCurrentPrivilege_eq h]
  exact if_pos hlt

theorem cmdImport_low {D : Type} (F : DoubleOps D) {s : State D} (params : List String)
    (h : StackOK s) (hlt : curPriv s < 3) : cmdImport F s params = invalid s := by
  unfold cmdImport
  rw [getCurrentPrivilege_eq h]
  exact if_pos hlt

theorem cmdLog_low {D : Type} {s : State D} (h : StackOK s) (hlt : curPriv s < 7) :
    cmdLog s = invalid s := by
  unfold cmdLog
  rw [getCurrentPrivilege_eq h]
  exact if_pos hlt

theorem cmdReportFinance_low {D : Type} (F : DoubleOps D) {s : State D} (h : StackOK s)
    (hlt : curPriv s < 7) : cmdReportFinance F s = invalid s := by
  unfold cmdReportFinance
  rw [getCurrentPrivilege_eq h]
  exact if_pos hlt

theorem cmdReportEmployee_low {D : Type} {s : State D} (h : StackOK s)
    (hlt : curPriv s < 7) : cmdReportEmployee s = invalid s := by
  unfold cmdReportEmployee
  rw [getCurrentPrivilege_eq h]
  exact if_pos hlt

theorem stackOK_of_nil {D : Type} {s : State D} (h : s.loginStack = []) : StackOK s := by
  intro fr hfr
  rw [h] at hfr
  cases hfr

theorem curPriv_of_nil {D : Type} {s : State D} (h : s.loginStack = []) : curPriv s = 0 := by
  unfold curPriv getCurrentPrivilege
  rw [h]

theorem dispatch_low {D : Type} (F : DoubleOps D) (s : State D) (h : StackOK s)
    (cmd : String) (params : List String) (m : Int)
    (hm : minPrivilege cmd params = some m) (hlt : curPriv s < m) :
    dispatch F s cmd params = invalid s := by
  revert hm
  refine dispatch_cases F s cmd params
    (fun o => minPrivilege cmd params = some m → o = invalid s)
    ?_ ?_ ?_ ?_ ?_ ?_ ?_ ?_ ?_ ?_ ?_ ?_ ?_ ?_ ?_ ?_ ?_
  · rintro (hc | hc) hm <;> subst hc <;> simp [minPrivilege] at hm
  · intro hc hm; subst hc; simp [minPrivilege] at hm
  · intro hc hm; subst hc; simp [minPrivilege] at hm; subst hm
    exact cmdLogout_low h hlt
  · intro hc hm; subst hc; simp [minPrivilege] at hm
  · intro hc hm; subst hc; simp [minPrivilege] at hm; subst hm
    exact cmdPasswd_low params h hlt
  · intro hc hm; subst hc; simp [minPrivilege] at hm; subst hm
    exact cmdUseradd_low params h hlt
  · intro hc hm; subst hc; simp [minPrivilege] at hm; subst hm
    exact cmdDelete_low params h hlt
  · intro hc hp hm; subst hc; simp [minPrivilege, hp] at hm; subst hm
    exact cmdShowFinance_low F params.tail h hlt
  · intro hc hp hm; subst hc; simp [minPrivilege, hp] at hm; subst hm
    exact cmdShow_low F params h hlt
  · intro hc hm; subst hc; simp [minPrivilege] at hm; subst hm
    exact cmdBuy_low F params h hlt
  · intro hc hm; subst hc; simp [minPrivilege] at hm; subst hm
    exact cmdSelect_low F params h hlt
  · intro hc hm; subst hc; simp [minPrivilege] at hm; subst hm
    exact cmdModify_low F params h hlt
  · intro hc hm; subst hc; simp [minPrivilege] at hm; subst hm
    exact cmdImport_low F params h hlt
  · intro hc hm; subst hc; simp [minPrivilege] at hm; subst hm
    exact cmdLog_low h hlt
  · intro hc _ hm; subst hc; simp [minPrivilege] at hm; subst hm
    exact cmdReportFinance_low F h hlt
  · intro hc _ hm; subst hc; simp [minPrivilege] at hm; subst hm
    exact cmdReportEmployee_low h hlt
  · intro _ _ _; rfl

theorem dispatch_logged_out {D : Type} (F : DoubleOps D) (s : State D)
    (h : s.loginStack = []) (cmd : String) (params : List String)
    (h1 : cmd ≠ "su") (h2 : cmd ≠ "register") (h3 : cmd ≠ "quit") (h4 : cmd ≠ "exit") :
    dispatch F s cmd params = invalid s := by
  have hs := stackOK_of_nil h
  have hp := curPriv_of_nil h
  refine dispatch_cases F s cmd params (fun o => o = invalid s)
    ?_ ?_ ?_ ?_ ?_ ?_ ?_ ?_ ?_ ?_ ?_ ?_ ?_ ?_ ?_ ?_ ?_
  · rintro (hc | hc)
    · exact absurd hc h3
    · exact absurd hc h4
  · intro hc; exact absurd hc h1
  · intro _; exact cmdLogout_low hs (by omega)
  · intro hc; exact absurd hc h2
  · intro _; exact cmdPasswd_low params hs (by omega)
  · intro _; exact cmdUseradd_low params hs (by omega)
  · intro _; exact cmdDelete_low params hs (by omega)
  · intro _ _; exact cmdShowFinance_low F params.tail hs (by omega)
  · intro _ _; exact cmdShow_low F params hs (by omega)
  · intro _; exact cmdBuy_low F params hs (by omega)
  · intro _; exact cmdSelect_low F params hs (by omega)
  · intro _; exact cmdModify_low F params hs (by omega)
  · intro _; exact cmdImport_low F params hs (by omega)
  · intro _; exact cmdLog_low hs (by omega)
  · intro _ _; exact cmdReportFinance_low F hs (by omega)
  · intro _ _; exact cmdReportEmployee_low hs (by omega)
  · intro _ _; rfl

/-- C20: in every reachable state, a command of the privilege table issued with
an effective privilege below its minimum is rejected, whatever its arguments,
and the state is unchanged; with an empty login stack the effective privilege is
0 and every command word other than `su`, `register`, `quit` and `exit` is
rejected with the state unchanged. -/
theorem privilege_checks_fail_closed {D : Type} (F : DoubleOps D) (s : State D)
    (hr : Reachable F s) (cmd : String) (params : List String) :
    (∀ m : Int, minPrivilege cmd params = some m → curPriv s < m →
      dispatch F s cmd params = invalid s) ∧
    (s.loginStack = [] → curPriv s = 0 ∧
      (cmd ≠ "su" → cmd ≠ "register" → cmd ≠ "quit" → cmd ≠ "exit" →
        dispatch F s cmd params = invalid s)) :=
  ⟨fun m hm hlt => dispatch_low F s hr.inv.1 cmd params m hm hlt,
   fun h0 => ⟨curPriv_of_nil h0, dispatch_logged_out F s h0 cmd params⟩⟩

/-- Witness for C20: `bob` (privilege 1) on top of `root` cannot `select`, and
in the fresh initial state `buy` is rejected. -/
theorem privilege_checks_fail_closed_witness :
    dispatch exactOps bobSession "select" ["A"] = invalid bobSession ∧
    dispatch exactOps (initState Decimal) "buy" ["A", "1"] = invalid (initState Decimal) :=
  ⟨(privilege_checks_fail_closed exactOps bobSession sample_states_reachable.2.2.1
      "select" ["A"]).1 3 (by decide) (by decide),
   ((privilege_checks_fail_closed exactOps (initState Decimal) Reachable.init
      "buy" ["A", "1"]).2 rfl).2 (by decide) (by decide) (by decide) (by decide)⟩

/-! ## Logout and the selection of a session (C11, C12) -/

theorem cmdSu_success {D : Type} {s s1 : State D} {params : List String} {out : String}
    (h : StackOK s) (he : cmdSu s params = .ok s1 out) (hok : out ≠ "Invalid\n") :
    ∃ u acc, s.accounts.find u = some acc ∧ s1 = pushLogin s u ∧ out = "" := by
  unfold cmdSu at he
  rw [getCurrentPrivilege_eq h] at he
  simp only [invalid] at he
  repeat' split at he
  all_goals (injection he with e1 e2; subst e1; subst e2)
  all_goals first
    | exact absurd rfl hok
    | exact ⟨_, _, ‹SMap.find s.accounts _ = some _›, rfl, rfl⟩

theorem curPriv_pos {D : Type} {s : State D} (hs : StackOK s) (hp : PrivOK s)
    (hne : s.loginStack ≠ []) : 1 ≤ curPriv s := by
  unfold curPriv getCurrentPrivilege
  cases hl : s.loginStack with
  | nil => exact absurd hl hne
  | cons top rest =>
    have hsome := hs top (by rw [hl]; exact List.mem_cons_self _ _)
    cases hf : s.accounts.find top.userID with
    | none => rw [hf] at hsome; cases hsome
    | some acc =>
      simp only [hf]
      rcases hp _ _ hf with h1 | h1 | h1 <;> omega

theorem stackOK_pushLogin {D : Type} {s : State D} {u : String} {acc : Account}
    (h : StackOK s) (hf : s.accounts.find u = some acc) : StackOK (pushLogin s u) := by
  intro fr hfr
  simp only [pushLogin, List.mem_cons] at hfr
  rcases hfr with hfr | hfr
  · subst hfr
    simp only [pushLogin]
    rw [hf]; rfl
  · exact h fr hfr

theorem cmdLogout_pushLogin {D : Type} {s : State D} {u : String} {acc : Account}
    (h : StackOK s) (hp : PrivOK s) (hf : s.accounts.find u = some acc) :
    cmdLogout (pushLogin s u) = .ok s "" := by
  have hs1 := stackOK_pushLogin h hf
  have hp1 : PrivOK (pushLogin s u) := hp
  have hpos := curPriv_pos hs1 hp1 (by simp [pushLogin])
  unfold cmdLogout
  rw [getCurrentPrivilege_eq hs1]
  simp only
  rw [if_neg (by omega)]
  rfl

theorem cmdModify_pushLogin {D : Type} (F : DoubleOps D) {s : State D} {u : String}
    {acc : Account} (h : StackOK s) (hf : s.accounts.find u = some acc)
    (params : List String) : cmdModify F (pushLogin s u) params = invalid (pushLogin s u) := by
  have hs1 := stackOK_pushLogin h hf
  unfold cmdModify
  rw [getCurrentPrivilege_eq hs1]
  simp only
  split
  · rfl
  · rfl

theorem cmdImport_pushLogin {D : Type} (F : DoubleOps D) {s : State D} {u : String}
    {acc : Account} (h : StackOK s) (hf : s.accounts.find u = some acc)
    (params : List String) : cmdImport F (pushLogin s u) params = invalid (pushLogin s u) := by
  have hs1 := stackOK_pushLogin h hf
  unfold cmdImport
  rw [getCurrentPrivilege_eq hs1]
  simp only
  split
  · rfl
  · rfl

/-- C11: in every reachable state `s`, after any `su` that succeeds in `s` the
immediately following `logout` succeeds, prints nothing and yields exactly `s`
(the same login stack, accounts, books and ledger); `logout` succeeds exactly
when the login stack is non-empty, it then removes the top frame and nothing
else, and with an empty login stack it is rejected with no change. -/
theorem logout_restores_context {D : Type} (F : DoubleOps D) (s : State D)
    (hr : Reachable F s) :
    (∀ (params : List String) (s1 : State D) (out : String),
      cmdSu s params = .ok s1 out → out ≠ "Invalid\n" → cmdLogout s1 = .ok s "") ∧
    (cmdLogout s = .ok { s with loginStack := s.loginStack.tail } "" ↔ s.loginStack ≠ []) ∧
    (∀ top rest, s.loginStack = top :: rest →
      cmdLogout s = .ok { s with loginStack := rest } "") ∧
    (s.loginStack = [] → cmdLogout s = invalid s) := by
  have hs := hr.inv.1
  have hp := hr.privOK
  have hg := getCurrentPrivilege_eq hs
  have hne : s.loginStack ≠ [] →
      cmdLogout s = .ok { s with loginStack := s.loginStack.tail } "" := by
    intro hne
    have hpos := curPriv_pos hs hp hne
    unfold cmdLogout
    rw [hg]
    simp only
    rw [if_neg (by omega)]
  have hnil : s.loginStack = [] → cmdLogout s = invalid s := fun h0 =>
    cmdLogout_low hs (by rw [curPriv_of_nil h0]; decide)
  refine ⟨?_, ⟨?_, hne⟩, ?_, hnil⟩
  · intro params s1 out he hok
    obtain ⟨u, acc, hf, e1, _⟩ := cmdSu_success hs he hok
    subst e1
    exact cmdLogout_pushLogin hs hp hf
  · intro he h0
    rw [hnil h0] at he
    simp only [invalid] at he
    injection he with _ e2
    exact absurd e2 (by decide)
  · intro top rest hl
    rw [hne (by rw [hl]; exact List.cons_ne_nil _ _), hl]
    rfl

/-- Witness for C11 in the fresh initial state: after `su root sjtu` the
command `logout` gives the initial state back. -/
theorem logout_restores_context_witness :
    cmdLogout rootSession = .ok (initState Decimal) "" :=
  (logout_restores_context exactOps (initState Decimal) Reachable.init).1
    ["root", "sjtu"] rootSession "" (by decide) (by decide)

/-- C12: in every reachable state `s`, a successful `su` pushes one frame with
an empty selection on the unchanged stack, and in the state it yields `modify`
and `import` are rejected with no change whatever their arguments; and for every
state and every input line that is handled, the login stack afterwards is the
stack before, or that stack with one frame of empty selection pushed, or with
its top frame popped, or with only the selection of its top frame replaced, so
that the frames below the new top are the frames below the old top, or all the
old frames (after a push), each with its user and its selected ISBN, and after
a pop the whole new stack is the old stack below its top. -/
theorem selection_is_session_local {D : Type} (F : DoubleOps D) (s : State D)
    (hr : Reachable F s) :
    (∀ (params : List String) (s1 : State D) (out : String),
      cmdSu s params = .ok s1 out → out ≠ "Invalid\n" →
      (∃ userID, s1 = pushLogin s userID) ∧
      ∀ ps : List String, cmdModify F s1 ps = invalid s1 ∧ cmdImport F s1 ps = invalid s1) ∧
    (∀ (t t' : State D) (line out : String), execLine F t line = .ok t' out →
      StackStep t.loginStack t'.loginStack ∧
      (t'.loginStack.tail = t.loginStack.tail ∨ t'.loginStack.tail = t.loginStack ∨
        t'.loginStack = t.loginStack.tail)) := by
  have hs := hr.inv.1
  refine ⟨?_, ?_⟩
  · intro params s1 out he hok
    obtain ⟨u, acc, hf, e1, _⟩ := cmdSu_success hs he hok
    subst e1
    exact ⟨⟨u, rfl⟩, fun ps => ⟨cmdModify_pushLogin F hs hf ps, cmdImport_pushLogin F hs hf ps⟩⟩
  · intro t t' line out he
    rcases execLine_stackStep F t t' line out he with h | ⟨u, h⟩ | h | ⟨top, rest, isbn, h1, h2⟩
    · exact ⟨Or.inl h, Or.inl (by rw [h])⟩
    · exact ⟨Or.inr (Or.inl ⟨u, h⟩), Or.inr (Or.inl (by rw [h]; rfl))⟩
    · exact ⟨Or.inr (Or.inr (Or.inl h)), Or.inr (Or.inr h)⟩
    · exact ⟨Or.inr (Or.inr (Or.inr ⟨top, rest, isbn, h1, h2⟩)), Or.inl (by rw [h1, h2]; rfl)⟩

/-- Witness for C12 in the fresh initial state: after `su root sjtu` the
commands `modify -name="x"` and `import 1 1` are rejected. -/
theorem selection_is_session_local_witness :
    cmdModify exactOps rootSession ["-name=\"x\""] = invalid rootSession ∧
    cmdImport exactOps rootSession ["1", "1"] = invalid rootSession :=
  have h := (selection_is_session_local exactOps (initState Decimal) Reachable.init).1
    ["root", "sjtu"] rootSession "" (by decide) (by decide)
  ⟨(h.2 ["-name=\"x\""]).1, (h.2 ["1", "1"]).2⟩

/-! ## The worked scenario of the specification (C14) -/

/-- C14, counterexample: from the fresh initial state the five lines of the
scenario print `Invalid` four times: `su alice` carries no password while
nobody is logged in, so it is rejected, and the next three commands run with an
empty login stack.  At the end no book exists and nothing was bought. -/
theorem alice_scenario_rejected :
    runLines exactOps (initState Decimal) ""
      ["register alice pass1 Alice", "su alice", "select 978-0", "import 10 100.00",
       "buy 978-0 3"]
      = .ok aliceRegistered "Invalid\nInvalid\nInvalid\nInvalid\n" ∧
    aliceRegistered.books = [] := by
  decide

/-- C14, amended: from the fresh initial state the lines `register alice pass1
Alice`, `su root sjtu`, `select 978-0`, `import 10 100.00`, `buy 978-0 3` all
succeed; `select` creates the blank book `978-0` (price 0.0), the final `buy`
prints that book's price times 3 with two fraction digits and nothing else is
printed, and the stock of the book is then 7.  The double value of `100.00` is
taken to be positive. -/
theorem root_scenario {D : Type} (F : DoubleOps D)
    (hpos : F.leZero (F.stodVal "100.00") = false) :
    runLines F (initState D) ""
      ["register alice pass1 Alice", "su root sjtu", "select 978-0", "import 10 100.00",
       "buy 978-0 3"]
      = .ok (scenarioEnd F) (F.fixed2 (F.mul F.zero (F.ofInt 3)) ++ "\n") ∧
    (scenarioEnd F).books.find "978-0"
      = some { Book.blank F with ISBN := "978-0", quantity := 7 } := by
  refine ⟨?_, rfl⟩
  have e1 : execLine F (initState D) "register alice pass1 Alice"
      = .ok { scenarioEnd F with books := [], transactions := [], loginStack := [] } "" := rfl
  have e2 : execLine F { scenarioEnd F with books := [], transactions := [], loginStack := [] }
      "su root sjtu"
      = .ok { scenarioEnd F with
              books := [], transactions := [],
              loginStack := [{ userID := "root", selectedISBN := "" }] } "" := rfl
  have e3 : execLine F { scenarioEnd F with
              books := [], transactions := [],
              loginStack := [{ userID := "root", selectedISBN := "" }] } "select 978-0"
      = .ok { scenarioEnd F with
              books := [("978-0", { Book.blank F with ISBN := "978-0" })],
              transactions := [] } "" := rfl
  have e4 : execLine F { scenarioEnd F with
              books := [("978-0", { Book.blank F with ISBN := "978-0" })],
              transactions := [] } "import 10 100.00"
      = if F.leZero (F.stodVal "100.00") = true then
          invalid { scenarioEnd F with
              books := [("978-0", { Book.blank F with ISBN := "978-0" })],
              transactions := [] }
        else
          .ok { scenarioEnd F with
              books := [("978-0", { Book.blank F with ISBN := "978-0", quantity := 10 })],
              transactions := [{ amount := F.stodVal "100.00", isIncome := false }] } "" := rfl
  have e5 : execLine F { scenarioEnd F with
              books := [("978-0", { Book.blank F with ISBN := "978-0", quantity := 10 })],
              transactions := [{ amount := F.stodVal "100.00", isIncome := false }] }
      "buy 978-0 3"
      = .ok (scenarioEnd F) (F.fixed2 (F.mul F.zero (F.ofInt 3)) ++ "\n") := rfl
  rw [hpos] at e4
  rw [runLines_cons_ok F _ _ e1, runLines_cons_ok F _ _ e2, runLines_cons_ok F _ _ e3,
    runLines_cons_ok F _ _ e4, runLines_cons_ok F _ _ e5]
  rfl

/-- Witness for C14 (amended) in exact decimal arithmetic: the scenario prints
`0.00` and leaves 7 copies. -/
theorem root_scenario_witness :
    runLines exactOps (initState Decimal) ""
      ["register alice pass1 Alice", "su root sjtu", "select 978-0", "import 10 100.00",
       "buy 978-0 3"]
      = .ok (scenarioEnd exactOps) "0.00\n" :=
  (root_scenario exactOps (by decide)).1

/-! ## Import at the top of the range, conversions, keywords (C15, C17, C18) -/

/-- C15, the code at the failing input: the state `fullStock` is reached from
the fresh initial state by `su root sjtu`, `select X`, `import 2147483647 1`
and holds 2147483647 copies of `X`; in it `import 2147483647 1` succeeds, yet
the quantity of `X` afterwards is `-2`, not 2147483647 more: the addition
`book.quantity += quantity` leaves the range of `int`. -/
theorem import_on_full_stock_wraps :
    runLines exactOps (initState Decimal) ""
      ["su root sjtu", "select X", "import 2147483647 1"] = .ok fullStock "" ∧
    (fullStock.books.find "X").map (·.quantity) = some 2147483647 ∧
    execLine exactOps fullStock "import 2147483647 1" = .ok overflowed "" ∧
    (overflowed.books.find "X").map (·.quantity) = some (-2) := by
  decide

/-- C17, the code at the failing input: the text `.` passes `isValidPrice`;
the state `selectedA` is reached from the fresh initial state, and in it both
`modify -price=.` and `import 5 .` end the program abnormally, because
`std::stod` throws on a text without a digit and nothing catches it. -/
theorem price_dot_crashes :
    isValidPrice "." = true ∧
    runLines exactOps (initState Decimal) "" ["su root sjtu", "select A"] = .ok selectedA "" ∧
    execLine exactOps selectedA "modify -price=." = .crash ∧
    execLine exactOps selectedA "import 5 ." = .crash := by
  decide

/-- C18, the code at the failing input: split at the pipes, the keyword text
`a|` has an empty piece after its trailing pipe, yet `isValidKeyword` accepts
it and `modify -keyword="a|"` stores it: the tokens the code examines come
from `getline`, which yields no empty token after a trailing delimiter. -/
theorem trailing_pipe_keyword_accepted :
    subTokens "a|".data = ["a".data, "".data] ∧
    isValidKeyword "a|" = true ∧
    (∃ s', execLine exactOps selectedA "modify -keyword=\"a|\"" = .ok s' "" ∧
      (s'.books.find "A").map (·.keyword) = some "a|") :=
  ⟨by decide, by decide,
    ⟨{ selectedA with books := [("A", { Book.blank exactOps with ISBN := "A", keyword := "a|" })] },
      by decide, by decide⟩⟩

/-! ## The ledger only grows (C16) -/

/-- C16: for every state and every input line that is handled, the ledger
before is a prefix of the ledger after; the ledger is either unchanged, or the
command word is `buy` and exactly one income entry was appended (and its amount
printed), or the command word is `import` and exactly one expenditure entry was
appended (and nothing printed); a `buy` or `import` that leaves the ledger
unchanged printed `Invalid`, so only a successful one extends it. -/
theorem ledger_append_only {D : Type} (F : DoubleOps D) (s s' : State D) (line out : String)
    (he : execLine F s line = .ok s' out) :
    s.transactions <+: s'.transactions ∧
    (s'.transactions = s.transactions ∨
      (commandWord line = some "buy" ∧ ∃ t : Transaction D, t.isIncome = true ∧
        s'.transactions = s.transactions ++ [t] ∧ out = F.fixed2 t.amount ++ "\n") ∨
      (commandWord line = some "import" ∧ ∃ t : Transaction D, t.isIncome = false ∧
        s'.transactions = s.transactions ++ [t] ∧ out = "")) ∧
    ((commandWord line = some "buy" ∨ commandWord line = some "import") →
      s'.transactions = s.transactions → out = "Invalid\n") := by
  have key : s'.transactions = s.transactions ∧
        ((commandWord line = some "buy" ∨ commandWord line = some "import") →
          out = "Invalid\n") ∨
      (commandWord line = some "buy" ∧ ∃ t : Transaction D, t.isIncome = true ∧
        s'.transactions = s.transactions ++ [t] ∧ out = F.fixed2 t.amount ++ "\n") ∨
      (commandWord line = some "import" ∧ ∃ t : Transaction D, t.isIncome = false ∧
        s'.transactions = s.transactions ++ [t] ∧ out = "") := by
    revert he
    refine execLine_cases F s line
      (fun o => o = .ok s' out → _) ?_ ?_
    · intro ht h
      injection h with h1 h2
      subst h1
      refine Or.inl ⟨rfl, ?_⟩
      intro hw
      simp [commandWord, ht] at hw
    · intro cmd params ht
      have hw : commandWord line = some cmd := by simp [commandWord, ht]
      rw [hw]
      refine dispatch_cases F s cmd params (fun o => o = .ok s' out → _)
        ?_ ?_ ?_ ?_ ?_ ?_ ?_ ?_ ?_ ?_ ?_ ?_ ?_ ?_ ?_ ?_ ?_
      · intro _ h; cases h
      · intro hc h
        have := cmdSu_frame h
        exact Or.inl ⟨this.2.1, by rw [hc]; simp⟩
      · intro hc h
        have := cmdLogout_frame h
        exact Or.inl ⟨this.2.1, by rw [hc]; simp⟩
      · intro hc h
        have := cmdRegister_frame h
        exact Or.inl ⟨this.2.1, by rw [hc]; simp⟩
      · intro hc h
        have := cmdPasswd_frame h
        exact Or.inl ⟨this.2.1, by rw [hc]; simp⟩
      · intro hc h
        have := cmdUseradd_frame h
        exact Or.inl ⟨this.2.1, by rw [hc]; simp⟩
      · intro hc h
        have := cmdDelete_frame h
        exact Or.inl ⟨this.2.1, by rw [hc]; simp⟩
      · intro hc _ h
        have := cmdShowFinance_frame F h
        exact Or.inl ⟨this.2.1, by rw [hc]; simp⟩
      · intro hc _ h
        have := cmdShow_frame F h
        exact Or.inl ⟨this.2.1, by rw [hc]; simp⟩
      · intro hc h
        rcases (cmdBuy_frame F h).2 with ⟨_, h2, h3⟩ | h2
        · exact Or.inl ⟨h2, fun _ => h3⟩
        · exact Or.inr (Or.inl ⟨by rw [hc], h2⟩)
      · intro hc h
        have := cmdSelect_frame F h
        exact Or.inl ⟨this.1, by rw [hc]; simp⟩
      · intro hc h
        have := cmdModify_frame F h
        exact Or.inl ⟨this.1, by rw [hc]; simp⟩
      · intro hc h
        rcases (cmdImport_frame F h).2 with ⟨_, h2, h3⟩ | h2
        · exact Or.inl ⟨h2, fun _ => h3⟩
        · exact Or.inr (Or.inr ⟨by rw [hc], h2⟩)
      · intro hc h
        have := cmdLog_frame h
        exact Or.inl ⟨this.2.1, by rw [hc]; simp⟩
      · intro hc _ h
        have := cmdReportFinance_frame F h
        exact Or.inl ⟨this.2.1, by rw [hc]; simp⟩
      · intro hc _ h
        have := cmdReportEmployee_frame h
        exact Or.inl ⟨this.2.1, by rw [hc]; simp⟩
      · intro _ _ h
        injection h with h1 h2
        subst h1
        exact Or.inl ⟨rfl, fun _ => h2.symm⟩
  refine ⟨?_, ?_, ?_⟩
  · rcases key with ⟨h, _⟩ | ⟨_, t, _, h, _⟩ | ⟨_, t, _, h, _⟩
    · rw [h]
    · rw [h]; exact List.prefix_append _ _
    · rw [h]; exact List.prefix_append _ _
  · rcases key with ⟨h, _⟩ | h | h
    · exact Or.inl h
    · exact Or.inr (Or.inl h)
    · exact Or.inr (Or.inr h)
  · intro hw hs
    rcases key with ⟨_, h⟩ | ⟨_, t, _, h, _⟩ | ⟨_, t, _, h, _⟩
    · exact h hw
    · rw [hs] at h; exact absurd h.symm (append_singleton_ne_self _ _)
    · rw [hs] at h; exact absurd h.symm (append_singleton_ne_self _ _)

/-- Witness for C16: the second `import 2147483647 1` of the overflow run
appends one entry to the ledger. -/
theorem ledger_append_only_witness :
    fullStock.transactions <+: overflowed.transactions :=
  (ledger_append_only exactOps fullStock overflowed "import 2147483647 1" ""
    (by decide)).1

/-! ## Well-formed books in reachable states -/

theorem wrapInt32_range (x : Int) : IntRange (wrapInt32 x) := by
  unfold IntRange wrapInt32
  omega

theorem wrapInt32_of_range {x : Int} (h : IntRange x) : wrapInt32 x = x := by
  unfold IntRange at h
  unfold wrapInt32
  omega

theorem MapOK.insertBook {D : Type} {F : DoubleOps D} {m : SMap (Book D)} (h : MapOK F m)
    {k0 : String} {b0 : Book D} (h0 : BookOK F k0 b0) : MapOK F (m.insert k0 b0) := by
  intro k b hf
  by_cases hk : k0 = k
  · subst hk
    rw [SMap.find_insert_self] at hf
    injection hf with hf; subst hf; exact h0
  · rw [SMap.find_insert_ne _ _ hk] at hf; exact h k b hf

theorem MapOK.eraseBook {D : Type} {F : DoubleOps D} {m : SMap (Book D)} (h : MapOK F m)
    (k0 : String) : MapOK F (m.erase k0) := by
  intro k b hf
  by_cases hk : k0 = k
  · subst hk
    rw [SMap.find_erase_self] at hf; cases hf
  · rw [SMap.find_erase_ne _ hk] at hf; exact h k b hf

theorem blank_bookOK {D : Type} (F : DoubleOps D) {k : String} (hk : isValidISBN k = true) :
    BookOK F k (Book.blank F) :=
  ⟨hk, by simp [IntRange, Book.blank], Or.inl rfl⟩

theorem MapOK.findOrInsert {D : Type} {F : DoubleOps D} {m : SMap (Book D)} (h : MapOK F m)
    {k0 : String} (hk : isValidISBN k0 = true) :
    MapOK F (SMap.findOrInsert m k0 (Book.blank F)).2 ∧
    BookOK F k0 (SMap.findOrInsert m k0 (Book.blank F)).1 := by
  unfold SMap.findOrInsert
  cases hf : SMap.find m k0 with
  | none => exact ⟨h.insertBook (blank_bookOK F hk), blank_bookOK F hk⟩
  | some v => exact ⟨h, h k0 v hf⟩

theorem SelOK.setSelection {stack : List LoginSession} (h : SelOK stack) {isbn : String}
    (hv : isValidISBN isbn = true) : SelOK (setSelection stack isbn) := by
  cases stack with
  | nil => exact h
  | cons top rest =>
    intro fr hfr
    simp only [Bookstore.setSelection, List.mem_cons] at hfr
    rcases hfr with hfr | hfr
    · subst hfr; exact Or.inr hv
    · exact h fr (List.mem_cons_of_mem _ hfr)

theorem SelOK.tail {stack : List LoginSession} (h : SelOK stack) : SelOK stack.tail :=
  fun fr hfr => h fr (List.mem_of_mem_tail hfr)

theorem stod_eq_some {D : Type} {F : DoubleOps D} {v : String} {p : D}
    (h : stod F v = some p) : v.data.any Char.isDigit = true ∧ p = F.stodVal v := by
  unfold stod at h
  split at h
  · injection h with h; exact ⟨‹_›, h.symm⟩
  · cases h

theorem modifyParam_accOK {D : Type} (F : DoubleOps D) (books : SMap (Book D))
    (sel : String) (q : Int) (a a' : ModifyAcc D) (param : String) (h : AccOK F q a)
    (he : modifyParam F books sel a param = .next a') : AccOK F q a' := by
  unfold modifyParam at he
  dsimp only at he
  repeat' split at he
  all_goals first
    | (injection he with he; subst he
       first
        | exact h
        | exact ⟨h.1, h.2.1, Or.inr (by
            have hh := ‹¬((substrFrom param 6).data.isEmpty = true ∨ ¬isValidISBN (substrFrom param 6) = true)›
            simpa using (not_or.mp hh).2)⟩
        | exact ⟨h.1, Or.inr ⟨_, by simpa using ‹¬¬isValidPrice _ = true›,
            (stod_eq_some ‹stod F _ = some _›).1, (stod_eq_some ‹stod F _ = some _›).2⟩, h.2.2⟩)
    | cases he

theorem modifyLoop_accOK {D : Type} (F : DoubleOps D) (books : SMap (Book D))
    (sel : String) (q : Int) (params : List String) (a a' : ModifyAcc D) (h : AccOK F q a)
    (he : modifyLoop F books sel a params = .next a') : AccOK F q a' := by
  induction params generalizing a with
  | nil =>
    simp only [modifyLoop] at he
    injection he with he; subst he; exact h
  | cons p rest ih =>
    simp only [modifyLoop] at he
    cases hp : modifyParam F books sel a p with
    | next a1 =>
      rw [hp] at he
      exact ih a1 (modifyParam_accOK F books sel q a a1 p h hp) he
    | reject => rw [hp] at he; cases he
    | crash => rw [hp] at he; cases he

theorem cmdBuy_booksOK {D : Type} (F : DoubleOps D) {s s' : State D} {params : List String}
    {out : String} (hs : StackOK s) (h : BooksOK F s) (he : cmdBuy F s params = .ok s' out) :
    BooksOK F s' := by
  unfold cmdBuy at he
  rw [getCurrentPrivilege_eq hs] at he
  simp only [invalid] at he
  repeat' split at he
  all_goals (injection he with e1 e2; subst e1)
  all_goals first
    | exact h
    | (have hv := ‹¬(¬isValidISBN _ = true ∨ ¬isValidQuantity _ = true)›
       have hb := h.1 _ _ ‹SMap.find s.books _ = some _›
       exact ⟨h.1.insertBook ⟨hb.1, wrapInt32_range _, hb.2.2⟩, h.2⟩)

theorem cmdSelect_booksOK {D : Type} (F : DoubleOps D) {s s' : State D}
    {params : List String} {out : String} (hs : StackOK s) (h : BooksOK F s)
    (he : cmdSelect F s params = .ok s' out) : BooksOK F s' := by
  unfold cmdSelect at he
  rw [getCurrentPrivilege_eq hs] at he
  simp only [invalid] at he
  repeat' split at he
  all_goals (injection he with e1 e2; subst e1)
  all_goals first
    | exact h
    | (have hv : isValidISBN (params.getD 0 "") = true :=
         not_not.mp ‹¬¬isValidISBN _ = true›
       first
        | exact ⟨h.1.insertBook ⟨hv, by simp [IntRange, Book.blank], Or.inl rfl⟩,
            h.2.setSelection hv⟩
        | exact ⟨h.1, h.2.setSelection hv⟩)

theorem cmdImport_booksOK {D : Type} (F : DoubleOps D) {s s' : State D}
    {params : List String} {out : String} (hs : StackOK s) (h : BooksOK F s)
    (he : cmdImport F s params = .ok s' out) : BooksOK F s' := by
  unfold cmdImport at he
  rw [getCurrentPrivilege_eq hs] at he
  simp only [invalid] at he
  repeat' split at he
  all_goals first
    | (injection he with e1 e2; subst e1
       first
        | exact h
        | (rename_i top rest hl _ _ _ _ _ _ _
           have hsel : isValidISBN top.selectedISBN = true := by
             rcases h.2 top (by rw [hl]; exact List.mem_cons_self _ _) with h0 | h0
             · exact absurd h0 ‹¬top.selectedISBN.data.isEmpty = true›
             · exact h0
           have hc := h.1.findOrInsert hsel
           exact ⟨hc.1.insertBook ⟨hsel, wrapInt32_range _, hc.2.2.2⟩, h.2⟩))
    | cases he

theorem cmdModify_booksOK {D : Type} (F : DoubleOps D) {s s' : State D}
    {params : List String} {out : String} (hs : StackOK s) (h : BooksOK F s)
    (he : cmdModify F s params = .ok s' out) : BooksOK F s' := by
  unfold cmdModify at he
  rw [getCurrentPrivilege_eq hs] at he
  simp only [invalid] at he
  split at he
  · injection he with e1 e2; subst e1; exact h
  split at he
  · injection he with e1 e2; subst e1; exact h
  rename_i top rest hl
  split at he
  · injection he with e1 e2; subst e1; exact h
  rename_i hne
  split at he
  · injection he with e1 e2; subst e1; exact h
  have hsel : isValidISBN top.selectedISBN = true := by
    rcases h.2 top (by rw [hl]; exact List.mem_cons_self _ _) with h0 | h0
    · exact absurd h0 hne
    · exact h0
  have hc := h.1.findOrInsert (F := F) hsel
  split at he
  · injection he with e1 e2; subst e1; exact ⟨hc.1, h.2⟩
  · cases he
  · rename_i a ha
    have hacc : AccOK F (SMap.findOrInsert s.books top.selectedISBN (Book.blank F)).1.quantity
        a := by
      refine modifyLoop_accOK F _ _ _ params _ a ?_ ha
      exact ⟨rfl, hc.2.2.2, Or.inl rfl⟩
    split at he
    · rename_i hn
      injection he with e1 e2; subst e1
      have hnv : isValidISBN a.newISBN = true := by
        rcases hacc.2.2 with h0 | h0
        · exact absurd h0 hn
        · exact h0
      refine ⟨(hc.1.eraseBook _).insertBook ⟨hnv, ?_, hacc.2.1⟩, ?_⟩
      · show IntRange a.book.quantity
        rw [hacc.1]; exact hc.2.2.1
      · intro fr hfr
        simp only [List.mem_cons] at hfr
        rcases hfr with hfr | hfr
        · subst hfr; exact Or.inr hnv
        · exact h.2 fr (by rw [hl]; exact List.mem_cons_of_mem _ hfr)
    · injection he with e1 e2; subst e1
      refine ⟨hc.1.insertBook ⟨hsel, ?_, hacc.2.1⟩, h.2⟩
      rw [hacc.1]; exact hc.2.2.1

theorem initState_booksOK {D : Type} (F : DoubleOps D) : BooksOK F (initState D) :=
  ⟨fun _ _ hf => (by cases hf), fun _ hfr => (by cases hfr)⟩

theorem dispatch_booksOK {D : Type} (F : DoubleOps D) (s s' : State D) (cmd : String)
    (params : List String) (out : String) (hs : StackOK s) (h : BooksOK F s)
    (he : dispatch F s cmd params = .ok s' out) : BooksOK F s' := by
  have same : ∀ {t : State D}, t.books = s.books ∧ t.transactions = s.transactions ∧
      t.loginStack = s.loginStack → BooksOK F t := by
    intro t ht
    unfold BooksOK
    rw [ht.1, ht.2.2]; exact h
  revert he
  refine dispatch_cases F s cmd params (fun o => o = .ok s' out → BooksOK F s')
    ?_ ?_ ?_ ?_ ?_ ?_ ?_ ?_ ?_ ?_ ?_ ?_ ?_ ?_ ?_ ?_ ?_
  · intro _ he; cases he
  · intro _ he
    obtain ⟨hb, _, hst⟩ := cmdSu_frame he
    unfold BooksOK
    rw [hb]
    rcases hst with ⟨hst, _⟩ | ⟨u, hst, _⟩
    · rw [hst]; exact h
    · rw [hst]
      refine ⟨h.1, ?_⟩
      intro fr hfr
      simp only [List.mem_cons] at hfr
      rcases hfr with hfr | hfr
      · subst hfr; exact Or.inl rfl
      · exact h.2 fr hfr
  · intro _ he
    obtain ⟨hb, _, hst⟩ := cmdLogout_frame he
    unfold BooksOK
    rw [hb]
    rcases hst with ⟨hst, _⟩ | ⟨hst, _⟩
    · rw [hst]; exact h
    · rw [hst]; exact ⟨h.1, h.2.tail⟩
  · intro _ he; exact same (cmdRegister_frame he)
  · intro _ he; exact same (cmdPasswd_frame he)
  · intro _ he; exact same (cmdUseradd_frame he)
  · intro _ he; exact same (cmdDelete_frame he)
  · intro _ _ he; exact same (cmdShowFinance_frame F he)
  · intro _ _ he; exact same (cmdShow_frame F he)
  · intro _ he; exact cmdBuy_booksOK F hs h he
  · intro _ he; exact cmdSelect_booksOK F hs h he
  · intro _ he; exact cmdModify_booksOK F hs h he
  · intro _ he; exact cmdImport_booksOK F hs h he
  · intro _ he; exact same (cmdLog_frame he)
  · intro _ _ he; exact same (cmdReportFinance_frame F he)
  · intro _ _ he; exact same (cmdReportEmployee_frame he)
  · intro _ _ he; injection he with e1 e2; subst e1; exact h

theorem Reachable.booksOK {D : Type} {F : DoubleOps D} {s : State D} (h : Reachable F s) :
    BooksOK F s := by
  induction h with
  | init => exact initState_booksOK F
  | step hr he ih =>
    revert he
    refine execLine_cases F _ _ (fun o => o = .ok _ _ → BooksOK F _) ?_ ?_
    · intro _ he; injection he with e1 e2; subst e1; exact ih
    · intro cmd params _ he; exact dispatch_booksOK F _ _ cmd params _ hr.inv.1 ih he

/-! ## Buying and the stored prices (C13, C19) -/

theorem isValidQuantity_range {qs : String} (h : isValidQuantity qs = true) :
    0 < stoll qs ∧ stoll qs ≤ 2147483647 := by
  unfold isValidQuantity at h
  split at h
  · cases h
  · split at h
    · cases h
    · exact of_decide_eq_true h

theorem modifyParam_price_rejected {D : Type} (F : DoubleOps D) (books : SMap (Book D))
    (sel : String) (a : ModifyAcc D) (v : String) (hv : isValidPrice v = false) :
    modifyParam F books sel a (Assign.price v).render = .reject := by
  have hget : (Assign.price v).render.data.get? 1 = some 'p' := by
    rw [render_price_data]; rfl
  have h0 : hasPrefix (Assign.price v).render "-ISBN=" = false :=
    hasPrefix_false _ _ 'p' 'I' hget rfl (by decide)
  have h1 : hasPrefix (Assign.price v).render "-name=" = false :=
    hasPrefix_false _ _ 'p' 'n' hget rfl (by decide)
  have h2 : hasPrefix (Assign.price v).render "-author=" = false :=
    hasPrefix_false _ _ 'p' 'a' hget rfl (by decide)
  have h3 : hasPrefix (Assign.price v).render "-keyword=" = false :=
    hasPrefix_false _ _ 'p' 'k' hget rfl (by decide)
  have hp : hasPrefix (Assign.price v).render "-price=" = true := by
    simp [hasPrefix, render_price_data]
  have hs : substrFrom (Assign.price v).render 7 = v := by
    apply String.ext
    simp [substrFrom, render_price_data]
  unfold modifyParam
  simp [h0, h1, h2, h3, hp, hs, hv]

/-- C13: in every reachable state with effective privilege at least 1, for
every book `B` stored under `isbn` and every valid quantity text `qs` with
value `n`: if the stock of `B` is below `n`, `buy isbn qs` is rejected and the
state is unchanged; otherwise it prints the price of `B` times `n` in the
two-fraction-digit rendering, the stock of `B` becomes the old stock minus `n`
(nothing else of `B` changes), exactly one income entry with that amount is
appended to the ledger, accounts and login stack are unchanged, and every other
key of the books collection keeps its entry. -/
theorem buy_rule {D : Type} (F : DoubleOps D) (s : State D) (hr : Reachable F s)
    (hp : 1 ≤ curPriv s) (isbn : String) (B : Book D) (hB : s.books.find isbn = some B)
    (qs : String) (hq : isValidQuantity qs = true) :
    (B.quantity < stoll qs → cmdBuy F s [isbn, qs] = invalid s) ∧
    (stoll qs ≤ B.quantity →
      cmdBuy F s [isbn, qs] =
        .ok { s with
              books := s.books.insert isbn { B with quantity := B.quantity - stoll qs },
              transactions := s.transactions ++
                [{ amount := F.mul B.price (F.ofInt (stoll qs)), isIncome := true }] }
          (F.fixed2 (F.mul B.price (F.ofInt (stoll qs))) ++ "\n") ∧
      ∀ k, k ≠ isbn →
        (s.books.insert isbn { B with quantity := B.quantity - stoll qs }).find k
          = s.books.find k) := by
  have hs := hr.inv.1
  have hb := hr.booksOK.1 isbn B hB
  have hn := isValidQuantity_range hq
  have hcode : cmdBuy F s [isbn, qs] =
      if B.quantity < stoll qs then invalid s else
        .ok { s with
              books := s.books.insert isbn
                { B with quantity := wrapInt32 (B.quantity - stoll qs) },
              transactions := s.transactions ++
                [{ amount := F.mul B.price (F.ofInt (stoll qs)), isIncome := true }] }
          (F.fixed2 (F.mul B.price (F.ofInt (stoll qs))) ++ "\n") := by
    unfold cmdBuy
    rw [getCurrentPrivilege_eq hs]
    simp only [List.length_cons, List.length_nil, List.getD_cons_zero, List.getD_cons_succ]
    rw [if_neg (by omega), if_neg (by decide), if_neg (by simp [hb.1, hq]), hB]
  refine ⟨fun hlt => by rw [hcode, if_pos hlt], fun hge => ⟨?_, fun k hk => ?_⟩⟩
  · rw [hcode, if_neg (by omega), wrapInt32_of_range]
    have := hb.2.1
    unfold IntRange at *
    omega
  · exact SMap.find_insert_ne _ _ (Ne.symm hk)

/-- Witness for C13: the state `fullStock` holds 2147483647 copies of `X`
(price 0.0); `buy X 5` prints `0.00` and leaves 2147483642 copies. -/
theorem buy_rule_witness :
    cmdBuy exactOps fullStock ["X", "5"] =
      .ok { fullStock with
            books := fullStock.books.insert "X"
              { Book.blank exactOps with ISBN := "X", quantity := 2147483647 - stoll "5" },
            transactions := fullStock.transactions ++
              [{ amount := exactOps.mul exactOps.zero (exactOps.ofInt (stoll "5")),
                 isIncome := true }] }
        (exactOps.fixed2 (exactOps.mul exactOps.zero (exactOps.ofInt (stoll "5"))) ++ "\n") :=
  ((buy_rule exactOps fullStock
    (Reachable.init.runLines
      (by decide : Bookstore.runLines exactOps (initState Decimal) ""
        ["su root sjtu", "select X", "import 2147483647 1"] = .ok fullStock ""))
    (by decide) "X" { Book.blank exactOps with ISBN := "X", quantity := 2147483647 }
    (by decide) "5" (by decide)).2 (by decide)).1

/-- C19, counterexample: the text `1.234` has three digits after the decimal
point, yet from the fresh initial state `su root sjtu`, `select A`,
`modify -price=1.234` all succeed and the price stored for `A` is 1.234. -/
theorem price_three_decimals_stored :
    fractionDigits "1.234" = 3 ∧
    runLines exactOps (initState Decimal) ""
      ["su root sjtu", "select A", "modify -price=1.234"] = .ok pricedA "" ∧
    (pricedA.books.find "A").map (·.price) = some { mant := 1234, scale := 3 } := by
  decide

/-- C19, amended: in every reachable state the price of every book is `0.0` or
the value of a text that passes `isValidPrice` (digits with at most one decimal
point, any number of them after the point) and has a digit; and a
`modify -price=` argument that fails `isValidPrice` is rejected: the command
prints `Invalid`, accounts, ledger and login stack are unchanged, and every key
of the books collection keeps its entry, except that a missing selected key
may now hold a value-initialised book. -/
theorem stored_prices_pass_price_check {D : Type} (F : DoubleOps D) (s : State D)
    (hr : Reachable F s) :
    (∀ k b, s.books.find k = some b → PriceOK F b.price) ∧
    (∀ v : String, isValidPrice v = false →
      ∃ s1 : State D, cmdModify F s [(Assign.price v).render] = .ok s1 "Invalid\n" ∧
        s1.accounts = s.accounts ∧ s1.transactions = s.transactions ∧
        s1.loginStack = s.loginStack ∧
        ∀ k, s1.books.find k = s.books.find k ∨
          (s.books.find k = none ∧ s1.books.find k = some (Book.blank F))) := by
  refine ⟨fun k b hf => (hr.booksOK.1 k b hf).2.2, fun v hv => ?_⟩
  have hs := hr.inv.1
  unfold cmdModify
  rw [getCurrentPrivilege_eq hs]
  simp only [invalid]
  split
  · exact ⟨s, rfl, rfl, rfl, rfl, fun _ => Or.inl rfl⟩
  split
  · exact ⟨s, rfl, rfl, rfl, rfl, fun _ => Or.inl rfl⟩
  rename_i top rest hl
  split
  · exact ⟨s, rfl, rfl, rfl, rfl, fun _ => Or.inl rfl⟩
  rw [if_neg (by simp)]
  simp only [modifyLoop, modifyParam_price_rejected F _ _ _ v hv]
  refine ⟨_, rfl, rfl, rfl, rfl, fun k => ?_⟩
  by_cases hk : top.selectedISBN = k
  · subst hk
    show SMap.find (SMap.findOrInsert s.books top.selectedISBN (Book.blank F)).2 _ = _ ∨ _
    rw [findOrInsert_find_self]
    cases hf : s.books.find top.selectedISBN with
    | none => exact Or.inr ⟨rfl, rfl⟩
    | some b => exact Or.inl rfl
  · exact Or.inl (findOrInsert_find_ne _ _ hk)

/-- Witness for C19 (amended): with `root` logged in and `A` selected,
`modify -price=1,5` is rejected and changes nothing. -/
theorem stored_prices_pass_price_check_witness :
    ∃ s1 : State Decimal, cmdModify exactOps selectedA ["-price=1,5"] = .ok s1 "Invalid\n" ∧
      s1.accounts = selectedA.accounts ∧ s1.transactions = selectedA.transactions ∧
      s1.loginStack = selectedA.loginStack ∧
      ∀ k, s1.books.find k = selectedA.books.find k ∨
        (selectedA.books.find k = none ∧ s1.books.find k = some (Book.blank exactOps)) :=
  (stored_prices_pass_price_check exactOps selectedA sample_states_reachable.2.2.2.1).2
    "1,5" (by decide)

/-! ## Identifiers and selections after a rename (C21, C23) -/

/-- C21, the code at the failing input: from the fresh initial state the
thirteen lines below all succeed; afterwards the books stored under the keys
`A` and `X` both carry the empty ISBN field: two records with the same ISBN,
neither equal to its key.  Each was created by `import` through
`books[selectedISBN]`, for a selection whose book a frame above had renamed. -/
theorem stale_imports_duplicate_isbn :
    runLines exactOps (initState Decimal) ""
      ["su root sjtu", "select A", "su root sjtu", "select X", "su root sjtu", "select A",
       "modify -ISBN=B", "select X", "modify -ISBN=Y", "logout", "import 1 1", "logout",
       "import 1 1"] = .ok twoStale "" ∧
    (twoStale.books.find "A").map (·.ISBN) = some "" ∧
    (twoStale.books.find "X").map (·.ISBN) = some "" := by
  decide

/-- C23, the code at the failing input: the state `staleSelection` is reached
from the fresh initial state; its only frame selects `A`, and no book is stored
under `A` (the frame above renamed it to `B`).  In it `import 3 1` succeeds and
creates a book under the key `A`. -/
theorem stale_selection_creates_book :
    runLines exactOps (initState Decimal) ""
      ["su root sjtu", "select A", "su root sjtu", "select A", "modify -ISBN=B", "logout"]
      = .ok staleSelection "" ∧
    staleSelection.loginStack = [{ userID := "root", selectedISBN := "A" }] ∧
    staleSelection.books.find "A" = none ∧
    execLine exactOps staleSelection "import 3 1" = .ok staleImported "" ∧
    staleImported.books.find "A" = some { Book.blank exactOps with quantity := 3 } := by
  decide

/-! ## The bootstrap account (C22, C24) -/

theorem top_is_root_of_seven {D : Type} {s : State D} (hr : RootOK s) (h7 : 7 ≤ curPriv s) :
    ∃ top rest, s.loginStack = top :: rest ∧ top.userID = "root" := by
  unfold curPriv getCurrentPrivilege at h7
  cases hl : s.loginStack with
  | nil => rw [hl] at h7; simp at h7
  | cons top rest =>
    refine ⟨top, rest, rfl, ?_⟩
    rw [hl] at h7
    cases hf : s.accounts.find top.userID with
    | none => simp [hf] at h7
    | some acc =>
      simp only [hf] at h7
      by_contra hne
      rcases hr.2 _ _ hf hne with h1 | h1 <;> omega

theorem RootOK.preserved {D : Type} {s : State D} {accounts' : SMap Account} (h : RootOK s)
    (hp : PrivOK s) (hs : AccountsStep s accounts') (s' : State D)
    (e : s'.accounts = accounts') : RootOK s' := by
  obtain ⟨⟨racc, hroot, hr7⟩, hothers⟩ := h
  have hle := curPriv_le_seven hp
  unfold RootOK
  rw [e]
  rcases hs with hs | ⟨u, a, hnone, _, hpriv, hs⟩ | ⟨u, a, pw, hfu, hs⟩ | ⟨u, hstack, h7, hs⟩
  · rw [hs]; exact ⟨⟨racc, hroot, hr7⟩, hothers⟩
  · have hu : u ≠ "root" := by
      intro hu; rw [hu, hroot] at hnone; cases hnone
    rw [hs]
    refine ⟨⟨racc, by rw [SMap.find_insert_ne _ _ hu]; exact hroot, hr7⟩, ?_⟩
    intro k acc hf hk
    by_cases hku : u = k
    · subst hku
      rw [SMap.find_insert_self] at hf
      injection hf with hf; subst hf
      omega
    · rw [SMap.find_insert_ne _ _ hku] at hf; exact hothers k acc hf hk
  · rw [hs]
    refine ⟨?_, ?_⟩
    · by_cases hu : u = "root"
      · subst hu
        rw [hroot] at hfu; injection hfu with hfu; subst hfu
        exact ⟨_, SMap.find_insert_self _ _ _, hr7⟩
      · exact ⟨racc, by rw [SMap.find_insert_ne _ _ hu]; exact hroot, hr7⟩
    · intro k acc hf hk
      by_cases hku : u = k
      · subst hku
        rw [SMap.find_insert_self] at hf
        injection hf with hf; subst hf
        exact hothers u a hfu hk
      · rw [SMap.find_insert_ne _ _ hku] at hf; exact hothers k acc hf hk
  · obtain ⟨top, rest, hl, htop⟩ := top_is_root_of_seven ⟨⟨racc, hroot, hr7⟩, hothers⟩ h7
    have hu : u ≠ "root" := by
      intro hu
      exact hstack top (by rw [hl]; exact List.mem_cons_self _ _) (by rw [htop, hu])
    rw [hs]
    refine ⟨⟨racc, by rw [SMap.find_erase_ne _ hu]; exact hroot, hr7⟩, ?_⟩
    intro k acc hf hk
    by_cases hku : u = k
    · subst hku
      rw [SMap.find_erase_self] at hf; cases hf
    · rw [SMap.find_erase_ne _ hku] at hf; exact hothers k acc hf hk

theorem initState_rootOK (D : Type) : RootOK (initState D) := by
  refine ⟨⟨⟨"root", "sjtu", "root", 7⟩, rfl, rfl⟩, ?_⟩
  intro k acc hf hk
  simp only [initState, SMap.insert, SMap.find] at hf
  split at hf
  · rename_i hkk
    exact absurd (Eq.symm (by simpa using hkk)) hk
  · exact absurd hf (by simp)

theorem Reachable.rootOK {D : Type} {F : DoubleOps D} {s : State D} (h : Reachable F s) :
    RootOK s := by
  induction h with
  | init => exact initState_rootOK D
  | step hr he ih =>
    exact ih.preserved hr.privOK (execLine_accountsStep F _ _ _ _ hr.inv.1 he) _ rfl

/-- C22, counterexample: in the fresh initial state the login stack is empty
and the account `root` exists, yet `su root` is rejected, and so is `su root
abc`. -/
theorem su_root_without_password_rejected :
    (initState Decimal).loginStack = [] ∧
    ((initState Decimal).accounts.find "root").isSome = true ∧
    execLine exactOps (initState Decimal) "su root" = .ok (initState Decimal) "Invalid\n" ∧
    execLine exactOps (initState Decimal) "su root abc"
      = .ok (initState Decimal) "Invalid\n" := by
  decide

/-- C22, amended: in every reachable state with an empty login stack in which
the account `root` exists, `su root` without a password is rejected, `su root
pw` with the stored password pushes a frame for `root` and prints nothing, and
`su root pw` with any other `pw` is rejected; a rejection leaves the state
unchanged. -/
theorem su_root_needs_password {D : Type} (F : DoubleOps D) (s : State D)
    (hr : Reachable F s) (h0 : s.loginStack = []) (acc : Account)
    (hf : s.accounts.find "root" = some acc) :
    cmdSu s ["root"] = invalid s ∧
    cmdSu s ["root", acc.password] = .ok (pushLogin s "root") "" ∧
    ∀ pw : String, pw ≠ acc.password → cmdSu s ["root", pw] = invalid s := by
  have hs := hr.inv.1
  have hg := getCurrentPrivilege_eq hs
  have hpw := (hr.inv.2 "root" acc hf).2
  have hc0 := curPriv_of_nil h0
  have hv : isValidUserID "root" = true := by decide
  have hpriv : curPriv s ≤ acc.privilege := by
    rcases hr.privOK _ _ hf with h1 | h1 | h1 <;> omega
  have h1 : cmdSu s ["root"] = invalid s := by
    simp [cmdSu, hv, hf, hg, hpriv]
  have h2 : ∀ pw : String, cmdSu s ["root", pw] =
      if pw ≠ acc.password then invalid s else .ok (pushLogin s "root") "" := by
    intro pw
    by_cases hp : isValidPassword pw = true
    · simp [cmdSu, hv, hf, hg, pushLogin, hp, hpriv]
    · have hne : pw ≠ acc.password := fun e => hp (e ▸ hpw)
      simp [cmdSu, hv, hf, hg, pushLogin, hp, hne]
  refine ⟨h1, ?_, ?_⟩
  · rw [h2, if_neg (by simp)]
  · intro pw hne
    rw [h2, if_pos hne]

/-- Witness for C22 (amended) in the fresh initial state: `su root sjtu` logs
`root` in. -/
theorem su_root_needs_password_witness :
    cmdSu (initState Decimal) ["root", "sjtu"] = .ok rootSession "" :=
  (su_root_needs_password exactOps (initState Decimal) Reachable.init rfl
    { userID := "root", password := "sjtu", username := "root", privilege := 7 }
    (by decide)).2.1

/-- C24: in every state reachable from the fresh initial state the account
`root` exists with privilege 7, and every account stored under another user
identifier has privilege 1 or 3. -/
theorem root_is_the_only_top_account {D : Type} (F : DoubleOps D) (s : State D)
    (hr : Reachable F s) :
    (∃ acc, s.accounts.find "root" = some acc ∧ acc.privilege = 7) ∧
    (∀ k acc, s.accounts.find k = some acc → k ≠ "root" →
      acc.privilege = 1 ∨ acc.privilege = 3) :=
  hr.rootOK

/-- Witness for C24 in the state after `su root sjtu`, `register bob pw Bob`:
`root` is there with privilege 7 and `bob` has privilege 1 or 3. -/
theorem root_is_the_only_top_account_witness :
    (∃ acc, rootAndBob.accounts.find "root" = some acc ∧ acc.privilege = 7) ∧
    ((⟨"bob", "pw", "Bob", 1⟩ : Account).privilege = 1 ∨
      (⟨"bob", "pw", "Bob", 1⟩ : Account).privilege = 3) :=
  ⟨(root_is_the_only_top_account exactOps rootAndBob sample_states_reachable.2.1).1,
   (root_is_the_only_top_account exactOps rootAndBob sample_states_reachable.2.1).2
     "bob" ⟨"bob", "pw", "Bob", 1⟩ (by decide) (by decide)⟩

end Bookstore
